import Mathlib

/-!
# URL shortener: shortcode lifecycle and click analytics

A shallow embedding of the link store of the repository: the two create
implementations (`app/page.jsx`, `components/url-shortener.jsx`), the three
click recorders (the two `handleRedirect` handlers and the effect of
`app/[shortCode]/page.jsx`), `deleteUrl`, the expiry tests, the summary and
the detail view of `components/StatisticsPage.jsx`, the save and load effects
on the local storage, and the logger of `utils/logger/index.js`.

Conventions of the embedding.
* A JavaScript `Date` is its time value: an integer number of milliseconds,
  or no value at all for an Invalid Date (`Option Int`, `none` = Invalid
  Date). `new Date(t)` is `timeClip t`: the language keeps a time value only
  within 8.64e15 ms of the epoch.
* Relational comparison of two dates compares their time values and is
  false as soon as one of them is an Invalid Date.
* The clock (`new Date()`, `Date.now()`), `Math.random()`, the URL parser
  (`new URL(s)`), `document.referrer` and `navigator.userAgent` belong to the
  platform: every handler takes what it reads from them as arguments, one
  argument per read.
* In `url-shortener.jsx` the state `validityMinutes` is an integer (it is set
  by `Number.parseInt(..) || 30`). In `app/page.jsx` it is any number (it is
  set by `Number(e.target.value)`): `AppPage.Number` embeds `handleSubmit` of
  `app/page.jsx` for a form that holds any number, with the arithmetic of
  doubles, and `AppPage.handleSubmit` is that handler for a form that holds a
  whole number of minutes; the two agree on such a form at every clock
  reading that is a time value (`handleSubmit_of_whole_minutes`).
* A handler that calls a state setter returns the new state; the delay
  between validation and insertion in `handleSubmit` is not modelled (no
  handler that runs in between adds a record).
* A value of `Math.random()` is a double `num / 2 ^ exp`, and the product
  `Math.random() * chars.length` is the double nearest to the exact product
  (section "Numbers").
* A function that may throw returns an `Except`, the error being the
  exception.
-/

/-! ## Dates -/

/-- A JavaScript `Date`: `some t` holds the time value `t` (milliseconds
since the epoch), `none` is an Invalid Date. -/
abbrev Date := Option Int

/-- Largest magnitude of a time value (8.64e15 ms). -/
def maxTime : Int := 8640000000000000

/-- TimeClip of the language: `new Date(t)` for an integral number `t`. -/
def timeClip (t : Int) : Date :=
  if -maxTime ≤ t ∧ t ≤ maxTime then some t else none

/-- `a.getTime() + n`, which is `NaN` when `a` is an Invalid Date, followed
by `new Date(..)`. -/
def Date.plusMs (a : Date) (n : Int) : Date :=
  match a with
  | some t => timeClip (t + n)
  | none => none

/-- `a > b` on dates. -/
def Date.gt (a b : Date) : Bool :=
  match a, b with
  | some x, some y => decide (y < x)
  | _, _ => false

/-- `a < b` on dates. -/
def Date.lt (a b : Date) : Bool :=
  match a, b with
  | some x, some y => decide (x < y)
  | _, _ => false

/-- `a - b` on dates: the difference of the time values, `none` for `NaN`. -/
def Date.sub (a b : Date) : Option Int :=
  match a, b with
  | some x, some y => some (x - y)
  | _, _ => none

/-! ## Numbers

A JavaScript number is a double: a finite one is `num / 2 ^ exp` for an
integer `num` with at most 53 significant binary digits (`k * 2 ^ j` with
`|k| < 2 ^ 53`) and `exp <= 1074`, below 2^1024 in magnitude, and the result
of an arithmetic operation is the double nearest to the exact result, a tie
going to the even significand. The operations of the handlers multiply a
double by an integer or add an integer to one, so an exact result below
2^(-1022) is a multiple of 2^(-1074), a double itself: only the rounding to 53
significant binary digits has to be applied. -/

/-- The loop of `bitLength`; `fuel` bounds the number of halvings. -/
def bitLengthAux : Nat → Nat → Nat
  | 0, _ => 0
  | fuel + 1, n => if n = 0 then 0 else bitLengthAux fuel (n / 2) + 1

/-- The number of binary digits of `n` (0 for 0). -/
def bitLength (n : Nat) : Nat := bitLengthAux n n

/-- Rounding to 53 significant binary digits, to nearest, ties to even: for
a natural number `n` with `s` digits more than 53, the multiple of `2 ^ s`
nearest to `n`, the even multiple when `n` lies halfway. The double nearest to
`n / 2 ^ exp` is `roundSignificand n / 2 ^ exp`. -/
def roundSignificand (n : Nat) : Nat :=
  let s := bitLength n - 53
  if s = 0 then n
  else
    let q := n / 2 ^ s
    let rem := n % 2 ^ s
    let half := 2 ^ (s - 1)
    if rem > half ∨ (rem = half ∧ q % 2 = 1) then (q + 1) * 2 ^ s else q * 2 ^ s

/-- A JavaScript number: the finite number `num / 2 ^ exp` (`-0` is not told
apart from `0`: the handlers treat them alike), an infinity, or `NaN`. -/
inductive JsNumber where
  | finite (num : Int) (exp : Nat)
  | infinity (negative : Bool)
  | nan
  deriving DecidableEq

namespace JsNumber

/-- The double nearest to `num / 2 ^ exp`: the significand is rounded to 53
digits, and a magnitude of 2^1024 or more becomes an infinity. -/
def round (num : Int) (exp : Nat) : JsNumber :=
  let r := roundSignificand num.natAbs
  if 1024 + exp < bitLength r then infinity (decide (num < 0))
  else finite (if num < 0 then -(r : Int) else (r : Int)) exp

/-- The number that is the integer `m`. -/
def ofInt (m : Int) : JsNumber := finite m 0

/-- The number `x` is the integer `m` (`x === m`). -/
def equalsInt (x : JsNumber) (m : Int) : Bool :=
  match x with
  | finite num exp => decide (num = m * 2 ^ exp)
  | _ => false

/-- The comparison `x <= 0`, false for `NaN`. -/
def leZero (x : JsNumber) : Bool :=
  match x with
  | finite num _ => decide (num ≤ 0)
  | infinity negative => negative
  | nan => false

/-- The product `x * k` of a number and a natural number `k`. -/
def mulNat (x : JsNumber) (k : Nat) : JsNumber :=
  match x with
  | finite num exp => round (num * k) exp
  | infinity negative => if k = 0 then nan else infinity negative
  | nan => nan

/-- The sum `t + x` of an integer `t` (a time value) and a number. -/
def addInt (t : Int) (x : JsNumber) : JsNumber :=
  match x with
  | finite num exp => round (t * 2 ^ exp + num) exp
  | infinity negative => infinity negative
  | nan => nan

/-- The date `new Date(x)`, by TimeClip: an Invalid Date when `x` is not
finite or exceeds 8.64e15 in magnitude, else the time value that is `x`
without its fraction (truncated toward zero). -/
def toDate (x : JsNumber) : Date :=
  match x with
  | finite num exp =>
    if -maxTime * 2 ^ exp ≤ num ∧ num ≤ maxTime * 2 ^ exp then some (num.tdiv (2 ^ exp)) else none
  | _ => none

end JsNumber

/-! ## Code generator and custom-code pattern (shared text of both files) -/

/-- The alphabet `chars` of `generateShortcode` / `generateShortCode`. -/
def chars : String := "abcdefghijklmnopqrstuvwxyzABCDEFGHIJKLMNOPQRSTUVWXYZ0123456789"

/-- `s.charAt(i)`: the one-character string at index `i`, empty when `i` is
out of range. -/
def charAt (s : String) (i : Nat) : String :=
  match s.data.get? i with
  | some c => String.singleton c
  | none => ""

/-- A value returned by `Math.random()`: the double `num / 2 ^ exp`. Every
double of the interval from 0 (included) to 1 (excluded) is of this form with
`num < 2 ^ 53`, `exp <= 1074` and `num < 2 ^ exp`. -/
structure Draw where
  num : Nat
  exp : Nat
  deriving DecidableEq

/-- `Math.floor(r * n)` for a draw `r` of `Math.random()` and a length `n`:
the product `r * n` is the double nearest to `num * n / 2 ^ exp`, and
`Math.floor` takes its integer part. -/
def randomIndex (r : Draw) (n : Nat) : Nat := roundSignificand (r.num * n) / 2 ^ r.exp

/-- The loop of `generateShortcode`: six draws, one character each.
`rand i` is the draw of iteration `i`. -/
def generateShortcode (rand : Nat → Draw) : String :=
  (List.range 6).foldl (fun result i => result ++ charAt chars (randomIndex (rand i) chars.length)) ""

/-- One character of the class `[a-zA-Z0-9]`. -/
def isAlnum (c : Char) : Bool :=
  ('a' ≤ c && c ≤ 'z') || ('A' ≤ c && c ≤ 'Z') || ('0' ≤ c && c ≤ '9')

/-- The test `/^[a-zA-Z0-9]+$/.test(s)`. -/
def alnumTest (s : String) : Bool :=
  !s.data.isEmpty && s.data.all isAlnum

/-- Truthiness of a string: `s` is truthy unless empty. -/
def truthy (s : String) : Bool := !s.data.isEmpty

/-- What a click handler does besides updating the store: it opens the
destination, or it reports a message (`alert`, toast title) and opens
nothing. -/
inductive Outcome where
  | opened (originalUrl : String)
  | reported (message : String)
  deriving DecidableEq

/-! ## `app/page.jsx` -/

namespace AppPage

/-- A click event as built by `handleRedirect`. -/
structure ClickData where
  timestamp : Date
  source : String
  location : Option String
  userAgent : String
  ip : String
  deriving DecidableEq

/-- A link record as built by `handleSubmit`. -/
structure Url where
  id : Int
  originalUrl : String
  shortcode : String
  shortUrl : String
  createdAt : Date
  expiresAt : Date
  clicks : Nat
  clickData : List ClickData
  deriving DecidableEq

/-- The component state the handlers touch. -/
structure State where
  shortenedUrls : List Url
  error : String
  deriving DecidableEq

/-- The form inputs when `validityMinutes` holds a whole number of minutes
(the initial 30, the 30 set after a create, or a whole number typed into the
field); `AppPage.Number.Form` is the form that holds any number. -/
structure Form where
  originalUrl : String
  validityMinutes : Int
  customShortcode : String
  deriving DecidableEq

/-- `isShortcodeUnique(shortcode)`. -/
def isShortcodeUnique (shortenedUrls : List Url) (shortcode : String) : Bool :=
  !shortenedUrls.any (fun url => url.shortcode == shortcode)

/-- `getClickSource()`: `document.referrer || "direct"`. -/
def getClickSource (referrer : String) : String :=
  if truthy referrer then referrer else "direct"

/-- The table of `getUserLocation`. -/
def locations : List String :=
  ["New York, US", "London, UK", "Tokyo, JP", "Mumbai, IN", "Sydney, AU"]

/-- `getUserLocation()`: `locations[Math.floor(Math.random() * 5)]`
(`none` is `undefined`). -/
def getUserLocation (r : Draw) : Option String :=
  locations.get? (randomIndex r locations.length)

/-- The record `newUrl` of `handleSubmit`. For a whole number of minutes the
product `validityMinutes * 60000` and, within the range of a date, its sum
with the clock reading are exact. -/
def newUrl (f : Form) (shortcode : String) (now idNow : Int) : Url :=
  { id := idNow
    originalUrl := f.originalUrl
    shortcode := shortcode
    shortUrl := "http://localhost:3000/" ++ shortcode
    createdAt := some now
    expiresAt := Date.plusMs (some now) (f.validityMinutes * 60000)
    clicks := 0
    clickData := [] }

/-- `handleSubmit`: `isValidUrl` is the platform's URL parser, `rand` the
draws of `Math.random()`, `now` the reading of `new Date()` and `idNow`
that of `Date.now()`. -/
def handleSubmit (isValidUrl : String → Bool) (rand : Nat → Draw) (now idNow : Int)
    (f : Form) (s : State) : State :=
  if !truthy f.originalUrl then { s with error := "Please enter a URL" }
  else if !isValidUrl f.originalUrl then { s with error := "Please enter a valid URL" }
  else if f.validityMinutes ≤ 0 then { s with error := "Validity must be greater than 0" }
  else if truthy f.customShortcode && !isShortcodeUnique s.shortenedUrls f.customShortcode then
    { s with error := "This shortcode already exists" }
  else if truthy f.customShortcode && !alnumTest f.customShortcode then
    { s with error := "Shortcode must contain only letters and numbers" }
  else
    let shortcode := if truthy f.customShortcode then f.customShortcode else generateShortcode rand
    { shortenedUrls := newUrl f shortcode now idNow :: s.shortenedUrls, error := "" }

/-- `isExpired(expiresAt)` at clock reading `now`. -/
def isExpired (now : Int) (expiresAt : Date) : Bool :=
  Date.gt (some now) expiresAt

/-- The updater `prev.map(..)` of `handleRedirect`. -/
def recordClick (url : Url) (click : ClickData) (prev : List Url) : List Url :=
  prev.map (fun u => if u.id = url.id then
    { u with clicks := u.clicks + 1, clickData := u.clickData ++ [click] } else u)

/-- `handleRedirect(url)`: `now` is the reading of `new Date()`, `referrer`
is `document.referrer`, `r` the draw of `getUserLocation`, `userAgent` is
`navigator.userAgent`. `new Date(url.expiresAt)` copies the date. -/
def handleRedirect (now : Int) (referrer : String) (r : Draw) (userAgent : String)
    (url : Url) (s : State) : State × Outcome :=
  if Date.gt (some now) url.expiresAt then
    (s, Outcome.reported "This link has expired")
  else
    let clickData : ClickData :=
      { timestamp := some now
        source := getClickSource referrer
        location := getUserLocation r
        userAgent := userAgent
        ip := "192.168.1.1" }
    ({ s with shortenedUrls := recordClick url clickData s.shortenedUrls },
      Outcome.opened url.originalUrl)

end AppPage

/-! ## `components/url-shortener.jsx` -/

namespace UrlShortener

/-- A click event as built by `handleRedirect` and by the redirect page. -/
structure ClickData where
  timestamp : Date
  source : String
  location : String
  deriving DecidableEq

/-- A link record as built by `handleSubmit`. -/
structure Url where
  id : String
  originalUrl : String
  shortCode : String
  shortUrl : String
  expiryDate : Date
  createdDate : Date
  clicks : Nat
  clickData : List ClickData
  deriving DecidableEq

/-- The component state the handlers touch. -/
structure State where
  urls : List Url
  errors : List String
  deriving DecidableEq

/-- The form inputs. -/
structure Form where
  originalUrl : String
  validityMinutes : Int
  customShortcode : String
  deriving DecidableEq

/-- `generateShortCode()`: the same loop as in `app/page.jsx`. -/
def generateShortCode (rand : Nat → Draw) : String :=
  (List.range 6).foldl (fun result i => result ++ charAt chars (randomIndex (rand i) chars.length)) ""

/-- `isShortCodeUnique(shortCode)`. -/
def isShortCodeUnique (urls : List Url) (shortCode : String) : Bool :=
  !urls.any (fun url => url.shortCode == shortCode)

/-- `validateForm()`: the list `newErrors`. -/
def validateForm (validateUrl : String → Bool) (f : Form) (urls : List Url) : List String :=
  let e1 : List String :=
    if !truthy f.originalUrl then ["Original URL is required"]
    else if !validateUrl f.originalUrl then ["Invalid URL format"]
    else []
  let e2 : List String :=
    if f.validityMinutes ≤ 0 then e1 ++ ["Validity must be greater than 0"] else e1
  let e3 : List String :=
    if truthy f.customShortcode && !isShortCodeUnique urls f.customShortcode then
      e2 ++ ["Custom shortcode already exists"] else e2
  let e4 : List String :=
    if truthy f.customShortcode && !alnumTest f.customShortcode then
      e3 ++ ["Custom shortcode must be alphanumeric"] else e3
  e4

/-- The record `newUrl` of `handleSubmit`; `validityMinutes` is a whole
number, for which the arithmetic of doubles gives this date
(`JsNumber.expiry_of_ofInt`). -/
def newUrl (f : Form) (shortCode : String) (now : Int) (id : String) : Url :=
  { id := id
    originalUrl := f.originalUrl
    shortCode := shortCode
    shortUrl := "http://localhost:3000/" ++ shortCode
    expiryDate := Date.plusMs (some now) (f.validityMinutes * 60000)
    createdDate := some now
    clicks := 0
    clickData := [] }

/-- `handleSubmit`: `validateUrl` is the platform's URL parser, `rand` the
draws of the code generator, `now` the reading of `new Date()` and `id` the
string `Math.random().toString(36).substr(2, 9)`. -/
def handleSubmit (validateUrl : String → Bool) (rand : Nat → Draw) (now : Int) (id : String)
    (f : Form) (s : State) : State :=
  let newErrors := validateForm validateUrl f s.urls
  if newErrors.length ≠ 0 then { s with errors := newErrors }
  else
    let shortCode := if truthy f.customShortcode then f.customShortcode else generateShortCode rand
    { urls := s.urls ++ [newUrl f shortCode now id], errors := [] }

/-- The updater `prev.map(..)` of `handleRedirect`. -/
def recordClick (url : Url) (click : ClickData) (prev : List Url) : List Url :=
  prev.map (fun u => if u.id = url.id then
    { u with clicks := u.clicks + 1, clickData := u.clickData ++ [click] } else u)

/-- `handleRedirect(shortCode)`: `nowCheck` is the clock reading compared
with the expiry, `nowStamp` the later reading stored in the event. -/
def handleRedirect (nowCheck nowStamp : Int) (shortCode : String) (s : State) :
    State × Outcome :=
  match s.urls.find? (fun u => u.shortCode == shortCode) with
  | some url =>
    if Date.lt (some nowCheck) url.expiryDate then
      let clickData : ClickData :=
        { timestamp := some nowStamp, source := "direct", location := "Unknown" }
      ({ s with urls := recordClick url clickData s.urls }, Outcome.opened url.originalUrl)
    else (s, Outcome.reported "Link Expired")
  | none => (s, Outcome.reported "Link Expired")

/-- `deleteUrl(id)`. -/
def deleteUrl (id : String) (s : State) : State :=
  { s with urls := s.urls.filter (fun url => url.id != id) }

/-- `isExpired(expiryDate)` at clock reading `now`. -/
def isExpired (now : Int) (expiryDate : Date) : Bool :=
  Date.gt (some now) expiryDate

end UrlShortener

/-! ## Serialized dates

`JSON.stringify` writes a valid date as its ISO text and an Invalid Date as
`null`. In the runs of `url-shortener.jsx` and of the redirect page a stored
record is represented by the record it was written from, a date field
`some t` standing for the ISO text of `t` and `none` for `null`; the parsed
item with a type of its own, in which a date and its text are different
values, is `UrlShortener.Json.StoredUrl` below. -/

/-- `new Date(v)` for a serialized date `v`: the ISO text of `t` gives `t`
back, and `new Date(null)` is the epoch. -/
def reviveDate (v : Date) : Date :=
  match v with
  | some t => some t
  | none => some 0

namespace UrlShortener

/-- The mapping applied to each parsed record by the load effect (and, with
the same text, by the redirect page), on a stored record represented by the
record it was written from: the composite of `Json.stringifyUrl` and
`Json.parseUrl`. -/
def parseUrl (url : Url) : Url :=
  { url with
    createdDate := reviveDate url.createdDate
    expiryDate := reviveDate url.expiryDate
    clickData := url.clickData.map (fun click => { click with timestamp := reviveDate click.timestamp }) }

end UrlShortener

/-! ## `app/[shortCode]/page.jsx` -/

namespace RedirectPage

open UrlShortener

/-- What the effect leaves behind: the component state `url` and
`isExpired`, the item `shortenedUrls` of the local storage, and the
destination of the scheduled navigation. -/
structure Result where
  url : Option Url
  isExpired : Bool
  blob : Option (List Url)
  navigateTo : Option String
  deriving DecidableEq

/-- The effect of `RedirectPage`: `savedUrls` is the stored item (`none`
when absent), `nowCheck` the clock reading compared with the expiry,
`nowStamp` the later reading stored in the event, `referrer` is
`document.referrer`. -/
def effect (nowCheck nowStamp : Int) (referrer : String) (shortCode : String)
    (savedUrls : Option (List Url)) : Result :=
  match savedUrls with
  | none => { url := none, isExpired := false, blob := savedUrls, navigateTo := none }
  | some saved =>
    let parsedUrls := saved.map parseUrl
    match parsedUrls.find? (fun u => u.shortCode == shortCode) with
    | none => { url := none, isExpired := false, blob := savedUrls, navigateTo := none }
    | some foundUrl =>
      let expired := Date.gt (some nowCheck) foundUrl.expiryDate
      if !expired then
        let clickData : ClickData :=
          { timestamp := some nowStamp
            source := if truthy referrer then referrer else "direct"
            location := "Unknown" }
        let updatedUrls := parsedUrls.map (fun u => if u.id = foundUrl.id then
          { u with clicks := u.clicks + 1, clickData := u.clickData ++ [clickData] } else u)
        { url := some foundUrl, isExpired := expired, blob := some updatedUrls,
          navigateTo := some foundUrl.originalUrl }
      else
        { url := some foundUrl, isExpired := expired, blob := savedUrls, navigateTo := none }

end RedirectPage

/-! ## `components/StatisticsPage.jsx` -/

namespace StatisticsPage

/-- `isExpired(expiresAt)` at clock reading `now`; `new Date(expiresAt)`
copies the date. -/
def isExpired (now : Int) (expiresAt : Date) : Bool :=
  Date.gt (some now) expiresAt

end StatisticsPage

/-! ## Runs of the handlers -/

namespace AppPage

/-- One user action on `app/page.jsx`. -/
inductive Op where
  | submit (rand : Nat → Draw) (now idNow : Int) (f : Form)
  | redirect (now : Int) (referrer : String) (r : Draw) (userAgent : String) (url : Url)

/-- The state after one action. -/
def step (isValidUrl : String → Bool) (s : State) (op : Op) : State :=
  match op with
  | Op.submit rand now idNow f => handleSubmit isValidUrl rand now idNow f s
  | Op.redirect now referrer r userAgent url => (handleRedirect now referrer r userAgent url s).1

/-- The initial state of the component. -/
def init : State := { shortenedUrls := [], error := "" }

/-- The state after a sequence of actions on the initial state. -/
def run (isValidUrl : String → Bool) (ops : List Op) : State :=
  ops.foldl (step isValidUrl) init

end AppPage

namespace UrlShortener

/-- The component state together with the stored item `shortenedUrls`,
which the redirect page shares. -/
structure World where
  state : State
  blob : Option (List Url)
  deriving DecidableEq

/-- One action: a handler of `url-shortener.jsx`, a visit of the redirect
page, or a fresh mount of the component. -/
inductive Op where
  | submit (rand : Nat → Draw) (now : Int) (id : String) (f : Form)
  | redirect (nowCheck nowStamp : Int) (shortCode : String)
  | delete (id : String)
  | visit (nowCheck nowStamp : Int) (referrer shortCode : String)
  | mount

/-- The world after one action. A handler that calls `setUrls` triggers the
save effect, which stores the new list; a rejected submission or click calls
no setter. A mount loads the stored item (the load effect) and stores the
loaded list again. -/
def step (validateUrl : String → Bool) (w : World) (op : Op) : World :=
  match op with
  | Op.submit rand now id f =>
    let s := handleSubmit validateUrl rand now id f w.state
    { state := s, blob := if s.errors.length ≠ 0 then w.blob else some s.urls }
  | Op.redirect nowCheck nowStamp shortCode =>
    match handleRedirect nowCheck nowStamp shortCode w.state with
    | (s, Outcome.opened _) => { state := s, blob := some s.urls }
    | (s, Outcome.reported _) => { state := s, blob := w.blob }
  | Op.delete id =>
    let s := deleteUrl id w.state
    { state := s, blob := some s.urls }
  | Op.visit nowCheck nowStamp referrer shortCode =>
    { w with blob := (RedirectPage.effect nowCheck nowStamp referrer shortCode w.blob).blob }
  | Op.mount =>
    match w.blob with
    | some saved => { state := { urls := saved.map parseUrl, errors := [] }, blob := some (saved.map parseUrl) }
    | none => { state := { urls := [], errors := [] }, blob := some [] }

/-- The world before the first mount. -/
def init : World := { state := { urls := [], errors := [] }, blob := none }

/-- The world after a sequence of actions. -/
def run (validateUrl : String → Bool) (ops : List Op) : World :=
  ops.foldl (step validateUrl) init

end UrlShortener

/-! ## Concrete inputs -/

/-- A URL parser that accepts every string: a stand-in for `new URL(s)` on
the inputs used below, all of them absolute URLs. -/
def acceptAll : String → Bool := fun _ => true

/-- Random draws that are all `0.01`, the double `5764607523034235 / 2 ^ 59`,
so each index is `Math.floor(0.62) = 0`. -/
def lowDraws : Nat → Draw := fun _ => { num := 5764607523034235, exp := 59 }

/-- Random draws at the upper edge and at a product that is rounded: the
largest double below 1 (`1 - 2 ^ (-53)`) at the even iterations, whose
product with 62 is rounded to 61.99999999999999, and 0.25806451612903225 at
the odd ones, whose product with 62 is rounded to 16. -/
def edgeDraws : Nat → Draw := fun i =>
  if i % 2 = 0 then { num := 9007199254740991, exp := 53 }
  else { num := 1162219258676257, exp := 52 }

namespace AppPage

/-- Two submissions on `app/page.jsx`: the custom code `aaaaaa`, then no
custom code with the draws `lowDraws`. -/
def collidingOps : List Op :=
  [ Op.submit lowDraws 1700000000000 1700000000000
      { originalUrl := "https://example.com", validityMinutes := 30, customShortcode := "aaaaaa" },
    Op.submit lowDraws 1700000002000 1700000002000
      { originalUrl := "https://example.org", validityMinutes := 30, customShortcode := "" } ]

end AppPage

namespace UrlShortener

/-- The same two submissions on `url-shortener.jsx`. -/
def collidingOps : List Op :=
  [ Op.submit lowDraws 1700000000000 "k3j9x0q1z"
      { originalUrl := "https://example.com", validityMinutes := 30, customShortcode := "aaaaaa" },
    Op.submit lowDraws 1700000002000 "p0o9i8u7y"
      { originalUrl := "https://example.org", validityMinutes := 30, customShortcode := "" } ]

end UrlShortener


/-! ## Submissions whose expiry instant is a date -/

namespace UrlShortener

/-- The expiry instant `now + validityMinutes * 60000` of a submission lies
within the range of a date; no condition on the other actions. -/
def Op.inRange (op : Op) : Bool :=
  match op with
  | Op.submit _ now _ f =>
    decide (-maxTime ≤ now + f.validityMinutes * 60000 ∧ now + f.validityMinutes * 60000 ≤ maxTime)
  | _ => true

end UrlShortener

/-! ## Sample records and runs -/

namespace AppPage

/-- The record created at 1700000000000 with custom code `abc123` and
validity 30 minutes. -/
def sampleUrl : Url :=
  newUrl { originalUrl := "https://example.com", validityMinutes := 30, customShortcode := "abc123" }
    "abc123" 1700000000000 1700000000000

/-- A create, a click one minute later, and a click after the expiry. -/
def sampleOps : List Op :=
  [ Op.submit lowDraws 1700000000000 1700000000000
      { originalUrl := "https://example.com", validityMinutes := 30, customShortcode := "abc123" },
    Op.redirect 1700000060000 "" { num := 5764607523034235, exp := 59 } "Mozilla/5.0" sampleUrl,
    Op.redirect 1700009000000 "" { num := 5764607523034235, exp := 59 } "Mozilla/5.0" sampleUrl ]

/-- The sample record after the accepted click of `sampleOps`. -/
def clickedUrl : Url :=
  { sampleUrl with
    clicks := 1
    clickData := [{ timestamp := some 1700000060000, source := "direct",
                    location := some "New York, US", userAgent := "Mozilla/5.0",
                    ip := "192.168.1.1" }] }

/-- One create with a validity of 144000000000 minutes. -/
def overflowOps : List Op :=
  [ Op.submit lowDraws 1700000000000 1700000000000
      { originalUrl := "https://example.com", validityMinutes := 144000000000,
        customShortcode := "abc123" } ]

end AppPage

namespace UrlShortener

/-- The record created at 1700000000000 with custom code `abc123` and
validity 30 minutes. -/
def sampleUrl : Url :=
  newUrl { originalUrl := "https://example.com", validityMinutes := 30, customShortcode := "abc123" }
    "abc123" 1700000000000 "k3j9x0q1z"

/-- A mount, two creates, a click in the component, a visit of the redirect
page, a reload, a rejected click after the expiry, and a delete. -/
def sampleOps : List Op :=
  [ Op.mount,
    Op.submit lowDraws 1700000000000 "k3j9x0q1z"
      { originalUrl := "https://example.com", validityMinutes := 30, customShortcode := "abc123" },
    Op.submit lowDraws 1700000002000 "p0o9i8u7y"
      { originalUrl := "https://example.org", validityMinutes := 5, customShortcode := "" },
    Op.redirect 1700000060000 1700000060001 "abc123",
    Op.visit 1700000120000 1700000120001 "https://news.example" "abc123",
    Op.mount,
    Op.redirect 1700009000000 1700009000001 "abc123",
    Op.delete "p0o9i8u7y" ]

/-- The sample record after the two accepted clicks of `sampleOps`. -/
def clickedUrl : Url :=
  { sampleUrl with
    clicks := 2
    clickData := [{ timestamp := some 1700000060001, source := "direct", location := "Unknown" },
                  { timestamp := some 1700000120001, source := "https://news.example",
                    location := "Unknown" }] }

/-- One create with a validity of 144000000000 minutes. -/
def overflowOps : List Op :=
  [ Op.submit lowDraws 1700000000000 "k3j9x0q1z"
      { originalUrl := "https://example.com", validityMinutes := 144000000000,
        customShortcode := "abc123" } ]

/-- Two creates that end with the same short code: the custom code `aaaaaa`
valid for 60 minutes, then a generated code (draws `lowDraws`) valid for one
minute. -/
def duplicateOps : List Op :=
  [ Op.submit lowDraws 1700000000000 "k3j9x0q1z"
      { originalUrl := "https://example.com", validityMinutes := 60, customShortcode := "aaaaaa" },
    Op.submit lowDraws 1700000002000 "p0o9i8u7y"
      { originalUrl := "https://example.org", validityMinutes := 1, customShortcode := "" } ]

end UrlShortener

/-! ## `app/page.jsx`: the validity as the form holds it

The state `validityMinutes` of `app/page.jsx` is set by
`setValidityMinutes(Number(e.target.value))`: it holds any number, and
`handleSubmit` only tests `validityMinutes <= 0`. The namespace
`AppPage.Number` embeds `handleSubmit` for a form that holds any number;
`AppPage.handleSubmit` above is the same handler for a form that holds a whole
number of minutes. -/

namespace AppPage.Number

/-- The form inputs, `validityMinutes` being any number. -/
structure Form where
  originalUrl : String
  validityMinutes : JsNumber
  customShortcode : String
  deriving DecidableEq

/-- The record `newUrl` of `handleSubmit`: `expiry` is
`new Date(now.getTime() + validityMinutes * 60000)`. -/
def newUrl (f : Form) (shortcode : String) (now idNow : Int) : Url :=
  { id := idNow
    originalUrl := f.originalUrl
    shortcode := shortcode
    shortUrl := "http://localhost:3000/" ++ shortcode
    createdAt := some now
    expiresAt := JsNumber.toDate (JsNumber.addInt now (JsNumber.mulNat f.validityMinutes 60000))
    clicks := 0
    clickData := [] }

/-- `handleSubmit`, with the arguments of `AppPage.handleSubmit`. -/
def handleSubmit (isValidUrl : String → Bool) (rand : Nat → Draw) (now idNow : Int)
    (f : Form) (s : State) : State :=
  if !truthy f.originalUrl then { s with error := "Please enter a URL" }
  else if !isValidUrl f.originalUrl then { s with error := "Please enter a valid URL" }
  else if f.validityMinutes.leZero then { s with error := "Validity must be greater than 0" }
  else if truthy f.customShortcode && !isShortcodeUnique s.shortenedUrls f.customShortcode then
    { s with error := "This shortcode already exists" }
  else if truthy f.customShortcode && !alnumTest f.customShortcode then
    { s with error := "Shortcode must contain only letters and numbers" }
  else
    let shortcode := if truthy f.customShortcode then f.customShortcode else generateShortcode rand
    { shortenedUrls := newUrl f shortcode now idNow :: s.shortenedUrls, error := "" }

/-- One user action on `app/page.jsx`. -/
inductive Op where
  | submit (rand : Nat → Draw) (now idNow : Int) (f : Form)
  | redirect (now : Int) (referrer : String) (r : Draw) (userAgent : String) (url : Url)

/-- The state after one action. -/
def step (isValidUrl : String → Bool) (s : State) (op : Op) : State :=
  match op with
  | Op.submit rand now idNow f => handleSubmit isValidUrl rand now idNow f s
  | Op.redirect now referrer r userAgent url => (handleRedirect now referrer r userAgent url s).1

/-- The state after a sequence of actions on the initial state. -/
def run (isValidUrl : String → Bool) (ops : List Op) : State :=
  ops.foldl (step isValidUrl) init

/-- A submission is made at a clock reading that is a time value, its
validity is a whole number `m` of minutes and its expiry instant
`now + m * 60000` lies within the range of a date; no condition on the other
actions. -/
def Op.wholeInRange (op : Op) : Bool :=
  match op with
  | Op.submit _ now _ f =>
    match f.validityMinutes with
    | JsNumber.finite num exp =>
      decide (num % 2 ^ exp = 0 ∧ (-maxTime ≤ now ∧ now ≤ maxTime) ∧
        -maxTime ≤ now + num / 2 ^ exp * 60000 ∧ now + num / 2 ^ exp * 60000 ≤ maxTime)
    | _ => false
  | Op.redirect _ _ _ _ _ => true

/-- The form of `AppPage.handleSubmit` as a form that holds a number. -/
def ofWholeMinutes (f : AppPage.Form) : Form :=
  { originalUrl := f.originalUrl
    validityMinutes := JsNumber.ofInt f.validityMinutes
    customShortcode := f.customShortcode }

/-- An action of `AppPage.run` as an action on the form that holds a
number. -/
def Op.ofWholeMinutes (op : AppPage.Op) : Op :=
  match op with
  | AppPage.Op.submit rand now idNow f => Op.submit rand now idNow (Number.ofWholeMinutes f)
  | AppPage.Op.redirect now referrer r userAgent url => Op.redirect now referrer r userAgent url

/-- The clock reading of a submission is a time value; no condition on the
other actions. -/
def validClock (op : AppPage.Op) : Bool :=
  match op with
  | AppPage.Op.submit _ now _ _ => decide (-maxTime ≤ now ∧ now ≤ maxTime)
  | AppPage.Op.redirect _ _ _ _ _ => true

/-- The double 0.00001, `5902958103587057 / 2 ^ 69`. -/
def tinyValidity : JsNumber := JsNumber.finite 5902958103587057 69

/-- One create at 1700000000000 with a validity of 0.00001 minutes. -/
def fractionOps : List Op :=
  [ Op.submit lowDraws 1700000000000 1700000000000
      { originalUrl := "https://example.com", validityMinutes := tinyValidity,
        customShortcode := "abc123" } ]

/-- One create with a validity of 144000000000 minutes. -/
def overflowOps : List Op :=
  [ Op.submit lowDraws 1700000000000 1700000000000
      { originalUrl := "https://example.com", validityMinutes := JsNumber.ofInt 144000000000,
        customShortcode := "abc123" } ]

/-- A create with a validity of 30 minutes, a click one minute later, and a
click after the expiry. -/
def sampleOps : List Op :=
  [ Op.submit lowDraws 1700000000000 1700000000000
      { originalUrl := "https://example.com", validityMinutes := JsNumber.ofInt 30,
        customShortcode := "abc123" },
    Op.redirect 1700000060000 "" { num := 5764607523034235, exp := 59 } "Mozilla/5.0" sampleUrl,
    Op.redirect 1700009000000 "" { num := 5764607523034235, exp := 59 } "Mozilla/5.0" sampleUrl ]

end AppPage.Number

/-! ## Summary and detail view of `components/StatisticsPage.jsx`

The page is rendered by `app/page.jsx` with its collection. The callback of
`filter` calls `isExpired` once per record, and each call reads the clock:
`clock i` is the reading taken for the record at index `i`. -/

/-- `a <= b` on dates. -/
def Date.le (a b : Date) : Bool :=
  match a, b with
  | some x, some y => decide (x ≤ y)
  | _, _ => false

namespace StatisticsPage

/-- `totalUrls`. -/
def totalUrls (shortenedUrls : List AppPage.Url) : Nat := shortenedUrls.length

/-- `totalClicks`: `reduce((sum, url) => sum + url.clicks, 0)`. -/
def totalClicks (shortenedUrls : List AppPage.Url) : Nat :=
  shortenedUrls.foldl (fun sum url => sum + url.clicks) 0

/-- `activeUrls`: the length of `filter((url) => !isExpired(url.expiresAt))`. -/
def activeUrls (clock : Nat → Int) (shortenedUrls : List AppPage.Url) : Nat :=
  (shortenedUrls.enum.filter (fun p => !isExpired (clock p.1) p.2.expiresAt)).length

/-- `expiredUrls = totalUrls - activeUrls`, a subtraction of numbers. -/
def expiredUrls (clock : Nat → Int) (shortenedUrls : List AppPage.Url) : Int :=
  (totalUrls shortenedUrls : Int) - (activeUrls clock shortenedUrls : Int)

/-- `xs.slice()`: a fresh array with the elements of `xs`. -/
def slice (xs : List AppPage.ClickData) : List AppPage.ClickData := xs

/-- `xs.reverse()` reverses the receiver in place and returns it: the pair is
the receiver afterwards and the value returned. -/
def reverseInPlace (xs : List AppPage.ClickData) :
    List AppPage.ClickData × List AppPage.ClickData :=
  (xs.reverse, xs.reverse)

/-- The click section of one card: the record as the expression
`url.clickData.slice().reverse().map(..)` leaves it, and the clicks in the
order in which they are mapped to rows (none when the section is not
rendered, that is when there is no click). -/
def clickRows (url : AppPage.Url) : AppPage.Url × List AppPage.ClickData :=
  if url.clickData.length > 0 then
    let copy := slice url.clickData
    let reversed := reverseInPlace copy
    (url, reversed.2)
  else (url, [])

end StatisticsPage

namespace AppPage

/-- Two creates that read the same value of `Date.now()` (the wall clock was
set back in between). -/
def sameIdOps : List Op :=
  [ Op.submit lowDraws 1700000000000 1700000000000
      { originalUrl := "https://example.com", validityMinutes := 30, customShortcode := "abc123" },
    Op.submit lowDraws 1700000000000 1700000000000
      { originalUrl := "https://example.org", validityMinutes := 30, customShortcode := "xyz789" } ]

end AppPage

namespace AppPage

/-- The sample record after a click at 1700000060000 and a second one, with a
referrer, at 1700000090000. -/
def twiceClickedUrl : Url :=
  { sampleUrl with
    clicks := 2
    clickData := [{ timestamp := some 1700000060000, source := "direct",
                    location := some "New York, US", userAgent := "Mozilla/5.0",
                    ip := "192.168.1.1" },
                  { timestamp := some 1700000090000, source := "https://news.example",
                    location := some "Tokyo, JP", userAgent := "Mozilla/5.0",
                    ip := "192.168.1.1" }] }

end AppPage

/-! ## The validation checks in the order of the spec -/

namespace AppPage

/-- Following the spec's words (validation order, first failure wins): the
four checks (1) URL non-empty and parseable, (2) `validityMinutes > 0`,
(3) custom code unique, (4) custom code alphanumeric, each with whether the
submission fails it and with the message of `app/page.jsx` for it. -/
def checks (isValidUrl : String → Bool) (f : Form) (shortenedUrls : List Url) :
    List (Bool × String) :=
  [ (!(truthy f.originalUrl && isValidUrl f.originalUrl),
      if truthy f.originalUrl then "Please enter a valid URL" else "Please enter a URL"),
    (decide (f.validityMinutes ≤ 0), "Validity must be greater than 0"),
    (truthy f.customShortcode && !isShortcodeUnique shortenedUrls f.customShortcode,
      "This shortcode already exists"),
    (truthy f.customShortcode && !alnumTest f.customShortcode,
      "Shortcode must contain only letters and numbers") ]

end AppPage

namespace UrlShortener

/-- Following the spec's words (validation order): the same four checks with
the messages of `url-shortener.jsx`. -/
def checks (validateUrl : String → Bool) (f : Form) (urls : List Url) : List (Bool × String) :=
  [ (!(truthy f.originalUrl && validateUrl f.originalUrl),
      if truthy f.originalUrl then "Invalid URL format" else "Original URL is required"),
    (decide (f.validityMinutes ≤ 0), "Validity must be greater than 0"),
    (truthy f.customShortcode && !isShortCodeUnique urls f.customShortcode,
      "Custom shortcode already exists"),
    (truthy f.customShortcode && !alnumTest f.customShortcode,
      "Custom shortcode must be alphanumeric") ]

end UrlShortener

/-! ## The local storage

`localStorage.setItem` may throw (the quota is exceeded, the storage is
disabled): `accepts` tells whether the store takes the write, and an
`Except.error` is the exception thrown. A stored collection is the parsed
JSON text. For `app/page.jsx` the parsed value has a type of its own, since
its load effect keeps the click events as parsed. -/

/-- `localStorage.setItem(key, value)`: the item afterwards, or the
exception. -/
def setItem {α : Type} (accepts : Bool) (value : α) : Except String (Option α) :=
  if accepts then Except.ok (some value) else Except.error "QuotaExceededError"

/-- A date field of a parsed JSON value: the ISO text of the instant `t`, or
`null`. -/
inductive JsonDate where
  | text (t : Int)
  | null
  deriving DecidableEq

/-- `Date.prototype.toJSON`, as called by `JSON.stringify`: the ISO text, or
`null` for an Invalid Date. -/
def Date.toJSON (d : Date) : JsonDate :=
  match d with
  | some t => JsonDate.text t
  | none => JsonDate.null

/-- `new Date(v)` for a parsed value `v`. -/
def JsonDate.toDate (v : JsonDate) : Date :=
  match v with
  | JsonDate.text t => some t
  | JsonDate.null => some 0

namespace AppPage

/-- A click event of the parsed item `urls`. -/
structure StoredClick where
  timestamp : JsonDate
  source : String
  location : Option String
  userAgent : String
  ip : String
  deriving DecidableEq

/-- A record of the parsed item `urls`. -/
structure StoredUrl where
  id : Int
  originalUrl : String
  shortcode : String
  shortUrl : String
  createdAt : JsonDate
  expiresAt : JsonDate
  clicks : Nat
  clickData : List StoredClick
  deriving DecidableEq

/-- `JSON.parse(JSON.stringify(shortenedUrls))`. -/
def stringify (shortenedUrls : List Url) : List StoredUrl :=
  shortenedUrls.map (fun url =>
    { id := url.id
      originalUrl := url.originalUrl
      shortcode := url.shortcode
      shortUrl := url.shortUrl
      createdAt := Date.toJSON url.createdAt
      expiresAt := Date.toJSON url.expiresAt
      clicks := url.clicks
      clickData := url.clickData.map (fun click =>
        { timestamp := Date.toJSON click.timestamp
          source := click.source
          location := click.location
          userAgent := click.userAgent
          ip := click.ip }) })

/-- A record of the state set by the load effect: `createdAt` and `expiresAt`
are dates again, `clickData` is `url.clickData || []`, the parsed events. -/
structure LoadedUrl where
  id : Int
  originalUrl : String
  shortcode : String
  shortUrl : String
  createdAt : Date
  expiresAt : Date
  clicks : Nat
  clickData : List StoredClick
  deriving DecidableEq

/-- The load effect: the argument of `setShortenedUrls`, or `none` when the
item `urls` is absent and the state stays as it is. -/
def loadEffect (saved : Option (List StoredUrl)) : Option (List LoadedUrl) :=
  match saved with
  | none => none
  | some parsed =>
    some (parsed.map (fun url =>
      { id := url.id
        originalUrl := url.originalUrl
        shortcode := url.shortcode
        shortUrl := url.shortUrl
        createdAt := JsonDate.toDate url.createdAt
        expiresAt := JsonDate.toDate url.expiresAt
        clicks := url.clicks
        clickData := url.clickData }))

/-- The save effect: the item `urls` afterwards (`item` is the item before),
or the exception of `setItem`. An empty collection is not written. -/
def saveEffect (accepts : Bool) (shortenedUrls : List Url) (item : Option (List StoredUrl)) :
    Except String (Option (List StoredUrl)) :=
  if shortenedUrls.length > 0 then setItem accepts (stringify shortenedUrls)
  else Except.ok item

end AppPage

namespace UrlShortener

/-- The save effect: the item `shortenedUrls` afterwards, represented by the
collection it was written from, or the exception of `setItem`;
`Json.saveEffect` gives the item as parsed JSON. -/
def saveEffect (accepts : Bool) (urls : List Url) : Except String (Option (List Url)) :=
  setItem accepts urls

end UrlShortener

namespace RedirectPage

/-- The title of the card rendered once the effect has run. -/
def cardTitle (r : Result) : String :=
  match r.url with
  | none => "URL Not Found"
  | some _ => if r.isExpired then "Link Expired" else "Redirecting..."

end RedirectPage

/-! ## The stored item of `url-shortener.jsx` as parsed JSON

The item `shortenedUrls` is the text `JSON.stringify(urls)`: in it a date is
its ISO text (or `null`), not a date. `UrlShortener.Json` gives the parsed
item a type of its own, with the save effect that writes it and the load
effect that makes dates of its texts again. `UrlShortener.parseUrl` above is
the composite of the two on one record (`parseUrl_stringifyUrl`). -/

namespace UrlShortener.Json

/-- A click event of the parsed item `shortenedUrls`. -/
structure StoredClick where
  timestamp : JsonDate
  source : String
  location : String
  deriving DecidableEq

/-- A record of the parsed item `shortenedUrls`. -/
structure StoredUrl where
  id : String
  originalUrl : String
  shortCode : String
  shortUrl : String
  expiryDate : JsonDate
  createdDate : JsonDate
  clicks : Nat
  clickData : List StoredClick
  deriving DecidableEq

/-- One record of `JSON.parse(JSON.stringify(urls))`. -/
def stringifyUrl (url : Url) : StoredUrl :=
  { id := url.id
    originalUrl := url.originalUrl
    shortCode := url.shortCode
    shortUrl := url.shortUrl
    expiryDate := Date.toJSON url.expiryDate
    createdDate := Date.toJSON url.createdDate
    clicks := url.clicks
    clickData := url.clickData.map (fun click =>
      { timestamp := Date.toJSON click.timestamp
        source := click.source
        location := click.location }) }

/-- `JSON.parse(JSON.stringify(urls))`. -/
def stringify (urls : List Url) : List StoredUrl := urls.map stringifyUrl

/-- The mapping applied to each parsed record by the load effect (and, with
the same text, by the redirect page): `createdDate`, `expiryDate` and the
`timestamp` of every click event are made dates by `new Date(..)`. -/
def parseUrl (url : StoredUrl) : Url :=
  { id := url.id
    originalUrl := url.originalUrl
    shortCode := url.shortCode
    shortUrl := url.shortUrl
    expiryDate := JsonDate.toDate url.expiryDate
    createdDate := JsonDate.toDate url.createdDate
    clicks := url.clicks
    clickData := url.clickData.map (fun click =>
      { timestamp := JsonDate.toDate click.timestamp
        source := click.source
        location := click.location }) }

/-- The save effect: the item `shortenedUrls` afterwards, or the exception
of `setItem`. -/
def saveEffect (accepts : Bool) (urls : List Url) : Except String (Option (List StoredUrl)) :=
  setItem accepts (stringify urls)

/-- The load effect: the state `urls` afterwards (`urls` is the state
before, kept when the item is absent). -/
def loadEffect (savedUrls : Option (List StoredUrl)) (urls : List Url) : List Url :=
  match savedUrls with
  | some saved => saved.map parseUrl
  | none => urls

end UrlShortener.Json

namespace RedirectPage

/-- The collection `parsedUrls` of the effect, for a stored item that is
present. -/
def parsedUrls (saved : List UrlShortener.Json.StoredUrl) : List UrlShortener.Url :=
  saved.map UrlShortener.Json.parseUrl

end RedirectPage

namespace UrlShortener

/-- The handler `onClick` of the button "Visit" on the card of the record
`url`: `handleRedirect(url.shortCode)`. The cards are those of
`urls.slice().reverse()`, so `url` is a record of the collection that
`handleRedirect` searches; no other call of `handleRedirect` exists. -/
def visitOnClick (nowCheck nowStamp : Int) (url : Url) (s : State) : State × Outcome :=
  handleRedirect nowCheck nowStamp url.shortCode s

end UrlShortener

/-! ## `utils/logger/index.js` -/

/-- A log entry. -/
structure LogEntry where
  timestamp : Date
  level : String
  message : String
  data : Option String
  id : String
  deriving DecidableEq

/-- The fields of a `Logger`. -/
structure Logger where
  logs : List LogEntry
  maxLogs : Nat
  currentLevel : Nat
  deriving DecidableEq

namespace Logger

/-- The constructor: no logs, `maxLogs = 1000`, level `DEBUG` (0). -/
def new : Logger := { logs := [], maxLogs := 1000, currentLevel := 0 }

/-- `xs.slice(-n)`: the last `n` elements (all of them for `n = 0`, since
`-0` is `0`). -/
def sliceLast (n : Nat) (xs : List LogEntry) : List LogEntry :=
  if n = 0 then xs else xs.drop (xs.length - n)

/-- `saveLogsToStorage()`: the item `urlShortenerLogs` afterwards; an
exception of `setItem` is caught and the item stays as it was. -/
def saveLogsToStorage (accepts : Bool) (this : Logger) (item : Option (List LogEntry)) :
    Option (List LogEntry) :=
  match setItem accepts this.logs with
  | Except.ok stored => stored
  | Except.error _ => item

/-- `createLogEntry(level, message, data)`: the logger and the stored item
afterwards and the entry returned; `now` is the reading of `new Date()` and
`id` the string `Math.random().toString(36).substr(2, 9)`. -/
def createLogEntry (accepts : Bool) (now : Int) (id : String) (this : Logger)
    (item : Option (List LogEntry)) (level message : String) (data : Option String) :
    Logger × Option (List LogEntry) × LogEntry :=
  let logEntry : LogEntry :=
    { timestamp := some now, level := level, message := message, data := data, id := id }
  let pushed := this.logs ++ [logEntry]
  let kept := if pushed.length > this.maxLogs then sliceLast this.maxLogs pushed else pushed
  let logger : Logger := { this with logs := kept }
  (logger, saveLogsToStorage accepts logger item, logEntry)

end Logger

namespace Logger

/-- `info(message, data)`: logs when `currentLevel <= LEVELS.INFO` (1); the
logger and the stored item afterwards and the entry returned (`none` for
`undefined`). -/
def info (accepts : Bool) (now : Int) (id : String) (this : Logger)
    (item : Option (List LogEntry)) (message : String) (data : Option String) :
    Logger × Option (List LogEntry) × Option LogEntry :=
  if this.currentLevel ≤ 1 then
    let r := createLogEntry accepts now id this item "INFO" message data
    (r.1, r.2.1, some r.2.2)
  else (this, item, none)

/-- `getLogs()`. -/
def getLogs (this : Logger) : List LogEntry := this.logs

/-- `clearLogs()`: empties `logs`, removes the stored item, then calls
`this.info("Logs cleared")`; the logger and the stored item afterwards. -/
def clearLogs (accepts : Bool) (now : Int) (id : String) (this : Logger) :
    Logger × Option (List LogEntry) :=
  let emptied : Logger := { this with logs := [] }
  let removed : Option (List LogEntry) := none
  let r := info accepts now id emptied removed "Logs cleared" none
  (r.1, r.2.1)

/-- A logger as the constructor leaves it, holding one earlier entry. -/
def sampleLogger : Logger :=
  { new with
    logs := [{ timestamp := some 1700000000000, level := "INFO",
               message := "Form submission started", data := none, id := "a1b2c3d4e" }] }

/-- A logger whose list already holds 1000 entries. -/
def fullLogger : Logger :=
  { new with
    logs := List.replicate 1000
      { timestamp := some 1700000000000, level := "DEBUG", message := "Generated shortcode",
        data := none, id := "z9y8x7w6v" } }

end Logger

/-! ## The pages on one local storage -/

/-- The items of the local storage that the pages use, one field per key:
`urls` (written and read by `app/page.jsx`), `shortenedUrls` (written and
read by `url-shortener.jsx` and by the redirect page) and `urlShortenerLogs`
(the logger). -/
structure LocalStorage where
  urls : Option (List AppPage.StoredUrl)
  shortenedUrls : Option (List UrlShortener.Url)
  urlShortenerLogs : Option (List LogEntry)
  deriving DecidableEq

/-- The storage with no item. -/
def LocalStorage.empty : LocalStorage :=
  { urls := none, shortenedUrls := none, urlShortenerLogs := none }

namespace AppPage

/-- `handleSubmit` followed, when it has set a new collection, by the save
effect (the storage takes the write): what the two do to the collection and
to the item `urls`. The entries that their calls of `logger.info` add to the
item `urlShortenerLogs` are not followed here (the logger is the subject of
the section on `utils/logger/index.js`): the field `urlShortenerLogs` is
handed on as it was given. -/
def createAndPersist (isValidUrl : String → Bool) (rand : Nat → Draw) (now idNow : Int)
    (f : Form) (s : State) (storage : LocalStorage) : State × LocalStorage :=
  let submitted := handleSubmit isValidUrl rand now idNow f s
  if submitted.error = "" then
    match saveEffect true submitted.shortenedUrls storage.urls with
    | Except.ok item => (submitted, { storage with urls := item })
    | Except.error _ => (submitted, storage)
  else (submitted, storage)

/-- The list of the section "Recent Shortened URLs":
`shortenedUrls.slice(0, 5)`. -/
def recentUrls (s : State) : List Url := s.shortenedUrls.take 5

end AppPage

namespace UrlShortener

/-- `handleSubmit` followed, when it has set a new collection, by the save
effect (the storage takes the write). -/
def createAndPersist (validateUrl : String → Bool) (rand : Nat → Draw) (now : Int)
    (id : String) (f : Form) (s : State) (storage : LocalStorage) : State × LocalStorage :=
  let submitted := handleSubmit validateUrl rand now id f s
  if submitted.errors.length = 0 then
    match saveEffect true submitted.urls with
    | Except.ok item => (submitted, { storage with shortenedUrls := item })
    | Except.error _ => (submitted, storage)
  else (submitted, storage)

/-- The list of the section "Your Shortened URLs": `urls.slice().reverse()`. -/
def displayedUrls (s : State) : List Url := s.urls.reverse

end UrlShortener

namespace RedirectPage

/-- A visit of `/<shortCode>`: the effect on the item `shortenedUrls` of the
storage. -/
def visit (nowCheck nowStamp : Int) (referrer shortCode : String) (storage : LocalStorage) :
    Result × LocalStorage :=
  let r := effect nowCheck nowStamp referrer shortCode storage.shortenedUrls
  (r, { storage with shortenedUrls := r.blob })

end RedirectPage

/-! ## One data model for both implementations

Following the spec's words (data model): a link record with the fields `id`,
`originalUrl`, `shortCode`, `createdAt`, `expiresAt`, `clicks` and
`clickHistory` (to which `shortUrl` is added), a click event with
`timestamp`, `referrerSource` and `approximateLocation`. The two
implementations are mapped to it by renaming their fields. -/

/-- The value of an `id` field: the number of `app/page.jsx` or the string of
`url-shortener.jsx`. -/
inductive IdValue where
  | number (n : Int)
  | text (s : String)
  deriving DecidableEq

/-- A click event under the names of the spec. -/
structure ClickEvent where
  timestamp : Date
  referrerSource : String
  approximateLocation : Option String
  deriving DecidableEq

/-- A link record under the names of the spec. -/
structure LinkRecord where
  id : IdValue
  originalUrl : String
  shortCode : String
  shortUrl : String
  createdAt : Date
  expiresAt : Date
  clicks : Nat
  clickHistory : List ClickEvent
  deriving DecidableEq

/-- The record of `app/page.jsx` under the names of the spec. -/
def AppPage.toLinkRecord (u : AppPage.Url) : LinkRecord :=
  { id := IdValue.number u.id
    originalUrl := u.originalUrl
    shortCode := u.shortcode
    shortUrl := u.shortUrl
    createdAt := u.createdAt
    expiresAt := u.expiresAt
    clicks := u.clicks
    clickHistory := u.clickData.map (fun c =>
      { timestamp := c.timestamp, referrerSource := c.source,
        approximateLocation := c.location }) }

/-- The record of `url-shortener.jsx` under the names of the spec. -/
def UrlShortener.toLinkRecord (u : UrlShortener.Url) : LinkRecord :=
  { id := IdValue.text u.id
    originalUrl := u.originalUrl
    shortCode := u.shortCode
    shortUrl := u.shortUrl
    createdAt := u.createdDate
    expiresAt := u.expiryDate
    clicks := u.clicks
    clickHistory := u.clickData.map (fun c =>
      { timestamp := c.timestamp, referrerSource := c.source,
        approximateLocation := some c.location }) }

/-- One submission as both implementations receive it: the form inputs, the
draws and the clock reading, with the id reading of each implementation
(`idNow` is `Date.now()`, `id` the random string). -/
structure Submission where
  rand : Nat → Draw
  now : Int
  idNow : Int
  id : String
  originalUrl : String
  validityMinutes : Int
  customShortcode : String

/-- The state of `app/page.jsx` after the submissions, from the empty
collection. -/
def AppPage.submitAll (isValidUrl : String → Bool) (subs : List Submission) : AppPage.State :=
  subs.foldl (fun s x => AppPage.handleSubmit isValidUrl x.rand x.now x.idNow
    { originalUrl := x.originalUrl, validityMinutes := x.validityMinutes,
      customShortcode := x.customShortcode } s) AppPage.init

/-- The state of `url-shortener.jsx` after the submissions, from the empty
collection. -/
def UrlShortener.submitAll (validateUrl : String → Bool) (subs : List Submission) :
    UrlShortener.State :=
  subs.foldl (fun s x => UrlShortener.handleSubmit validateUrl x.rand x.now x.id
    { originalUrl := x.originalUrl, validityMinutes := x.validityMinutes,
      customShortcode := x.customShortcode } s) UrlShortener.init.state

/-- Two submissions, both accepted: a custom code, then a generated one. -/
def sampleSubmissions : List Submission :=
  [ { rand := lowDraws, now := 1700000000000, idNow := 1700000000000, id := "k3j9x0q1z",
      originalUrl := "https://example.com", validityMinutes := 30,
      customShortcode := "abc123" },
    { rand := lowDraws, now := 1700000002000, idNow := 1700000002000, id := "p0o9i8u7y",
      originalUrl := "https://example.org", validityMinutes := 5, customShortcode := "" } ]

/-- The first of the sample submissions. -/
def firstSubmission : Submission :=
  { rand := lowDraws, now := 1700000000000, idNow := 1700000000000, id := "k3j9x0q1z",
    originalUrl := "https://example.com", validityMinutes := 30, customShortcode := "abc123" }

/-! ## Theorems -/

/-- C1 (the code breaks the claim). After the custom code `aaaaaa` has been
created, a submission without custom code whose six draws all select index 0
is accepted by both implementations and stored under the same short code
`aaaaaa`: the generated code is never compared with the codes of the store. -/
theorem generated_code_collides :
    ((AppPage.run acceptAll AppPage.collidingOps).error = "" ∧
      (AppPage.run acceptAll AppPage.collidingOps).shortenedUrls.map (fun u => u.shortcode)
        = ["aaaaaa", "aaaaaa"]) ∧
    ((UrlShortener.run acceptAll UrlShortener.collidingOps).state.errors = [] ∧
      (UrlShortener.run acceptAll UrlShortener.collidingOps).state.urls.map (fun u => u.shortCode)
        = ["aaaaaa", "aaaaaa"]) := by
  refine ⟨?_, ?_⟩
  · decide
  · decide

theorem truthy_eq_true_iff (s : String) : truthy s = true ↔ s ≠ "" := by
  cases s with
  | mk l =>
    cases l with
    | nil => simp [truthy]
    | cons c cs =>
      simp only [truthy, List.isEmpty_cons, Bool.not_false, ne_eq, true_iff]
      intro h
      have := congrArg String.data h
      simp at this

theorem AppPage.isShortcodeUnique_eq_false (l : List AppPage.Url) (code : String)
    (h : ∃ u ∈ l, u.shortcode = code) : AppPage.isShortcodeUnique l code = false := by
  obtain ⟨u, hu, hc⟩ := h
  simp only [AppPage.isShortcodeUnique, Bool.not_eq_false', List.any_eq_true, beq_iff_eq]
  exact ⟨u, hu, hc⟩

theorem UrlShortener.isShortCodeUnique_eq_false (l : List UrlShortener.Url) (code : String)
    (h : ∃ u ∈ l, u.shortCode = code) : UrlShortener.isShortCodeUnique l code = false := by
  obtain ⟨u, hu, hc⟩ := h
  simp only [UrlShortener.isShortCodeUnique, Bool.not_eq_false', List.any_eq_true, beq_iff_eq]
  exact ⟨u, hu, hc⟩

/-- C2. A submission whose URL and validity are valid and whose non-empty
custom code is already the short code of a record of the store is rejected by
both implementations: `app/page.jsx` leaves the collection as it is and sets
the error "This shortcode already exists"; `url-shortener.jsx` leaves the
collection as it is and reports "Custom shortcode already exists" first. -/
theorem duplicate_custom_code_rejected
    (isValidUrl : String → Bool) (rand : Nat → Draw) (now idNow : Int) (id : String)
    (originalUrl : String) (validityMinutes : Int) (customShortcode : String)
    (s : AppPage.State) (t : UrlShortener.State)
    (hurl : originalUrl ≠ "" ∧ isValidUrl originalUrl = true)
    (hvalidity : 0 < validityMinutes)
    (hcustom : customShortcode ≠ "")
    (hs : ∃ u ∈ s.shortenedUrls, u.shortcode = customShortcode)
    (ht : ∃ u ∈ t.urls, u.shortCode = customShortcode) :
    AppPage.handleSubmit isValidUrl rand now idNow
        { originalUrl := originalUrl, validityMinutes := validityMinutes,
          customShortcode := customShortcode } s
      = { shortenedUrls := s.shortenedUrls, error := "This shortcode already exists" } ∧
    (UrlShortener.handleSubmit isValidUrl rand now id
        { originalUrl := originalUrl, validityMinutes := validityMinutes,
          customShortcode := customShortcode } t).urls = t.urls ∧
    (UrlShortener.handleSubmit isValidUrl rand now id
        { originalUrl := originalUrl, validityMinutes := validityMinutes,
          customShortcode := customShortcode } t).errors.head?
      = some "Custom shortcode already exists" := by
  have h1 : truthy originalUrl = true := (truthy_eq_true_iff _).2 hurl.1
  have h2 : truthy customShortcode = true := (truthy_eq_true_iff _).2 hcustom
  have h3 : ¬ validityMinutes ≤ 0 := not_le.mpr hvalidity
  have h4 := AppPage.isShortcodeUnique_eq_false _ _ hs
  have h5 := UrlShortener.isShortCodeUnique_eq_false _ _ ht
  refine ⟨?_, ?_, ?_⟩
  · simp [AppPage.handleSubmit, h1, h2, h3, h4, hurl.2]
  · by_cases ha : alnumTest customShortcode = true <;>
      simp [UrlShortener.handleSubmit, UrlShortener.validateForm, h1, h2, h3, h5, hurl.2, ha]
  · by_cases ha : alnumTest customShortcode = true <;>
      simp [UrlShortener.handleSubmit, UrlShortener.validateForm, h1, h2, h3, h5, hurl.2, ha]

/-- Witness of C2: the custom code `abc123` submitted a second time. -/
theorem duplicate_custom_code_rejected_witness :
    AppPage.handleSubmit acceptAll lowDraws 1700000002000 1700000002000
        { originalUrl := "https://example.org", validityMinutes := 30, customShortcode := "abc123" }
        { shortenedUrls := [AppPage.newUrl
            { originalUrl := "https://example.com", validityMinutes := 30,
              customShortcode := "abc123" } "abc123" 1700000000000 1700000000000],
          error := "" }
      = { shortenedUrls := [AppPage.newUrl
            { originalUrl := "https://example.com", validityMinutes := 30,
              customShortcode := "abc123" } "abc123" 1700000000000 1700000000000],
          error := "This shortcode already exists" } ∧
    (UrlShortener.handleSubmit acceptAll lowDraws 1700000002000 "p0o9i8u7y"
        { originalUrl := "https://example.org", validityMinutes := 30, customShortcode := "abc123" }
        { urls := [UrlShortener.newUrl
            { originalUrl := "https://example.com", validityMinutes := 30,
              customShortcode := "abc123" } "abc123" 1700000000000 "k3j9x0q1z"],
          errors := [] }).urls
      = [UrlShortener.newUrl
            { originalUrl := "https://example.com", validityMinutes := 30,
              customShortcode := "abc123" } "abc123" 1700000000000 "k3j9x0q1z"] ∧
    (UrlShortener.handleSubmit acceptAll lowDraws 1700000002000 "p0o9i8u7y"
        { originalUrl := "https://example.org", validityMinutes := 30, customShortcode := "abc123" }
        { urls := [UrlShortener.newUrl
            { originalUrl := "https://example.com", validityMinutes := 30,
              customShortcode := "abc123" } "abc123" 1700000000000 "k3j9x0q1z"],
          errors := [] }).errors.head?
      = some "Custom shortcode already exists" :=
  duplicate_custom_code_rejected acceptAll lowDraws 1700000002000 1700000002000 "p0o9i8u7y"
    "https://example.org" 30 "abc123" _ _ ⟨by decide, rfl⟩ (by decide) (by decide)
    ⟨_, List.mem_singleton.mpr rfl, rfl⟩ ⟨_, List.mem_singleton.mpr rfl, rfl⟩

theorem timeClip_of_inRange (t : Int) (h : -maxTime ≤ t ∧ t ≤ maxTime) : timeClip t = some t := by
  simp [timeClip, h]

theorem AppPage.page_handleSubmit_accepted (isValidUrl : String → Bool) (rand : Nat → Draw)
    (now idNow : Int) (f : AppPage.Form) (s : AppPage.State)
    (h : (AppPage.handleSubmit isValidUrl rand now idNow f s).error = "") :
    AppPage.handleSubmit isValidUrl rand now idNow f s
      = { shortenedUrls :=
            AppPage.newUrl f (if truthy f.customShortcode then f.customShortcode
              else generateShortcode rand) now idNow :: s.shortenedUrls,
          error := "" } := by
  unfold AppPage.handleSubmit at h ⊢
  split_ifs at h ⊢ <;> first | rfl | (simp at h)

theorem UrlShortener.shortener_handleSubmit_accepted (validateUrl : String → Bool) (rand : Nat → Draw)
    (now : Int) (id : String) (f : UrlShortener.Form) (s : UrlShortener.State)
    (h : (UrlShortener.handleSubmit validateUrl rand now id f s).errors = []) :
    UrlShortener.handleSubmit validateUrl rand now id f s
      = { urls := s.urls ++ [UrlShortener.newUrl f
            (if truthy f.customShortcode then f.customShortcode
              else UrlShortener.generateShortCode rand) now id],
          errors := [] } := by
  unfold UrlShortener.handleSubmit at h ⊢
  by_cases h1 : (UrlShortener.validateForm validateUrl f s.urls).length ≠ 0
  · rw [if_pos h1] at h
    simp only at h
    rw [h] at h1
    exact absurd rfl h1
  · simp only [h1, if_false]

/-! ### Rounding of numbers -/

theorem bitLengthAux_zero (fuel : Nat) : bitLengthAux fuel 0 = 0 := by
  cases fuel <;> simp [bitLengthAux]

theorem bitLengthAux_spec : ∀ (fuel n : Nat), n ≤ fuel →
    n < 2 ^ bitLengthAux fuel n ∧ (n ≠ 0 → 2 ^ (bitLengthAux fuel n - 1) ≤ n)
  | 0, n, h => by
    have h0 : n = 0 := by omega
    subst h0
    simp [bitLengthAux]
  | fuel + 1, n, h => by
    by_cases hn : n = 0
    · subst hn
      simp [bitLengthAux]
    · have ih := bitLengthAux_spec fuel (n / 2) (by omega)
      have hb : bitLengthAux (fuel + 1) n = bitLengthAux fuel (n / 2) + 1 := by
        simp [bitLengthAux, hn]
      rw [hb]
      refine ⟨?_, fun _ => ?_⟩
      · have h1 := ih.1
        rw [pow_succ]
        omega
      · rw [Nat.add_sub_cancel]
        by_cases h2 : n / 2 = 0
        · rw [h2, bitLengthAux_zero]
          simp only [pow_zero]
          omega
        · have h3 := ih.2 h2
          have h4 : bitLengthAux fuel (n / 2) ≠ 0 := by
            intro h0
            have h1 := ih.1
            rw [h0] at h1
            simp only [pow_zero] at h1
            omega
          obtain ⟨b, hb2⟩ := Nat.exists_eq_succ_of_ne_zero h4
          rw [hb2] at h3 ⊢
          rw [Nat.succ_sub_one] at h3
          rw [Nat.succ_eq_add_one, pow_succ]
          omega

theorem lt_two_pow_bitLength (n : Nat) : n < 2 ^ bitLength n :=
  (bitLengthAux_spec n n (Nat.le_refl n)).1

theorem two_pow_bitLength_le (n : Nat) (h : n ≠ 0) : 2 ^ (bitLength n - 1) ≤ n :=
  (bitLengthAux_spec n n (Nat.le_refl n)).2 h

theorem bitLength_le_of_lt (n k : Nat) (h : n < 2 ^ k) : bitLength n ≤ k := by
  by_cases hn : n = 0
  · subst hn
    simp [bitLength, bitLengthAux_zero]
  · by_contra hlt
    have h1 := two_pow_bitLength_le n hn
    have h2 : 2 ^ k ≤ 2 ^ (bitLength n - 1) := Nat.pow_le_pow_right (by decide) (by omega)
    omega

theorem lt_bitLength_of_le (n k : Nat) (h : 2 ^ k ≤ n) : k < bitLength n := by
  by_contra hlt
  have h1 := lt_two_pow_bitLength n
  have h2 : 2 ^ bitLength n ≤ 2 ^ k := Nat.pow_le_pow_right (by decide) (by omega)
  omega

theorem roundSignificand_of_lt (n : Nat) (h : n < 2 ^ 53) : roundSignificand n = n := by
  have hb := bitLength_le_of_lt n 53 h
  have hs : bitLength n - 53 = 0 := by omega
  simp [roundSignificand, hs]

theorem roundSignificand_le_add (n : Nat) (h : n < 2 ^ 59) : roundSignificand n ≤ n + 32 := by
  have hb := bitLength_le_of_lt n 59 h
  unfold roundSignificand
  have hs : bitLength n - 53 ≤ 6 := by omega
  generalize bitLength n - 53 = s at hs ⊢
  interval_cases s <;> simp only [] <;> split_ifs <;> omega

theorem roundSignificand_of_representable (n k j : Nat) (hn : n = k * 2 ^ j) (hk : k < 2 ^ 53) :
    roundSignificand n = n := by
  by_cases hs : bitLength n - 53 = 0
  · simp [roundSignificand, hs]
  · have hn0 : n ≠ 0 := by
      intro h0
      rw [h0] at hs
      exact hs (by simp [bitLength, bitLengthAux_zero])
    have h1 := two_pow_bitLength_le n hn0
    have h2 : n < 2 ^ (53 + j) := by
      rw [hn, pow_add]
      exact Nat.mul_lt_mul_of_pos_right hk (Nat.two_pow_pos _)
    have h3 : bitLength n - 1 < 53 + j := by
      by_contra hlt
      have : 2 ^ (53 + j) ≤ 2 ^ (bitLength n - 1) := Nat.pow_le_pow_right (by decide) (by omega)
      omega
    have hsj : bitLength n - 53 ≤ j := by omega
    have hdvd : 2 ^ (bitLength n - 53) ∣ n := by
      have hd := Dvd.dvd.mul_left (pow_dvd_pow 2 hsj) k
      rw [← hn] at hd
      exact hd
    have hrem : n % 2 ^ (bitLength n - 53) = 0 := Nat.mod_eq_zero_of_dvd hdvd
    have hhalf : 0 < 2 ^ (bitLength n - 53 - 1) := Nat.two_pow_pos _
    unfold roundSignificand
    simp only [hs, if_false, hrem]
    rw [if_neg (by omega)]
    exact Nat.div_mul_cancel hdvd

theorem two_pow_le_roundSignificand (n k : Nat) (h : 2 ^ k ≤ n) : 2 ^ k ≤ roundSignificand n := by
  by_cases hs : bitLength n - 53 = 0
  · simp [roundSignificand, hs, h]
  · have hn0 : n ≠ 0 := by
      have : 0 < 2 ^ k := Nat.two_pow_pos _
      omega
    have hk := lt_bitLength_of_le n k h
    have h1 := two_pow_bitLength_le n hn0
    have hq : 2 ^ (bitLength n - 1) ≤ n / 2 ^ (bitLength n - 53) * 2 ^ (bitLength n - 53) := by
      have hd : 2 ^ (bitLength n - 53) ∣ 2 ^ (bitLength n - 1) := pow_dvd_pow 2 (by omega)
      calc 2 ^ (bitLength n - 1)
          = 2 ^ (bitLength n - 1) / 2 ^ (bitLength n - 53) * 2 ^ (bitLength n - 53) :=
            (Nat.div_mul_cancel hd).symm
        _ ≤ n / 2 ^ (bitLength n - 53) * 2 ^ (bitLength n - 53) :=
            Nat.mul_le_mul_right _ (Nat.div_le_div_right h1)
    have hkl : 2 ^ k ≤ 2 ^ (bitLength n - 1) := Nat.pow_le_pow_right (by decide) (by omega)
    unfold roundSignificand
    simp only [hs, if_false]
    split_ifs
    · rw [Nat.add_mul]
      omega
    · omega

theorem le_roundSignificand_of_le (n c : Nat) (hc : c < 2 ^ 53) (h : c ≤ n) :
    c ≤ roundSignificand n := by
  by_cases hn : n < 2 ^ 53
  · rw [roundSignificand_of_lt n hn]; exact h
  · have := two_pow_le_roundSignificand n 53 (by omega)
    omega

/-! ### The expiry instant for a validity that is any number -/

/-- A number that 53 binary digits can hold is not changed by the
rounding. -/
theorem JsNumber.round_of_representable (num : Int) (exp k j : Nat)
    (h : num.natAbs = k * 2 ^ j) (hk : k < 2 ^ 53) (hj : j ≤ 971 + exp) :
    JsNumber.round num exp = JsNumber.finite num exp := by
  have hr := roundSignificand_of_representable _ k j h hk
  have hlt : num.natAbs < 2 ^ (53 + j) := by
    rw [h, pow_add]
    exact Nat.mul_lt_mul_of_pos_right hk (Nat.two_pow_pos _)
  have hb := bitLength_le_of_lt _ _ hlt
  unfold JsNumber.round
  simp only [hr]
  rw [if_neg (by omega)]
  congr 1
  split_ifs with hneg <;> omega

/-- For a validity that is the whole number `m`, a clock reading that is a
time value and an expiry instant within the range of a date, the expression
`new Date(now.getTime() + validityMinutes * 60000)` is the date of the
instant `now + m * 60000`: no rounding takes place. -/
theorem JsNumber.expiry_of_whole (v : JsNumber) (now m : Int)
    (hv : v.equalsInt m = true)
    (hnow : -maxTime ≤ now ∧ now ≤ maxTime)
    (hrange : -maxTime ≤ now + m * 60000 ∧ now + m * 60000 ≤ maxTime) :
    JsNumber.toDate (JsNumber.addInt now (JsNumber.mulNat v 60000)) = some (now + m * 60000) := by
  cases v with
  | infinity negative => simp [JsNumber.equalsInt] at hv
  | nan => simp [JsNumber.equalsInt] at hv
  | finite num exp =>
    simp only [JsNumber.equalsInt, decide_eq_true_eq] at hv
    subst hv
    simp only [maxTime] at hnow hrange
    have h1 : JsNumber.mulNat (JsNumber.finite (m * 2 ^ exp) exp) 60000
        = JsNumber.finite (m * 2 ^ exp * 60000) exp := by
      simp only [JsNumber.mulNat]
      apply JsNumber.round_of_representable _ _ (m.natAbs * 1875) (exp + 5)
      · simp only [Int.natAbs_mul, Int.natAbs_pow, pow_add]
        norm_num
        ring
      · omega
      · omega
    have h2 : JsNumber.addInt now (JsNumber.finite (m * 2 ^ exp * 60000) exp)
        = JsNumber.finite ((now + m * 60000) * 2 ^ exp) exp := by
      simp only [JsNumber.addInt]
      have he : now * 2 ^ exp + m * 2 ^ exp * 60000 = (now + m * 60000) * 2 ^ exp := by ring
      rw [he]
      apply JsNumber.round_of_representable _ _ (now + m * 60000).natAbs exp
      · simp only [Int.natAbs_mul, Int.natAbs_pow]
        norm_num
      · omega
      · omega
    rw [h1, h2]
    have hp : (0 : Int) < 2 ^ exp := by positivity
    simp only [JsNumber.toDate, maxTime]
    rw [if_pos]
    · rw [Int.mul_tdiv_cancel _ (ne_of_gt hp)]
    · constructor
      · exact mul_le_mul_of_nonneg_right hrange.1 (le_of_lt hp)
      · exact mul_le_mul_of_nonneg_right hrange.2 (le_of_lt hp)

/-- An integer beyond the range of a date is still beyond it once rounded to
a double. -/
theorem JsNumber.toDate_round_of_gt (z : Int) (hz : maxTime < z) :
    JsNumber.toDate (JsNumber.round z 0) = none := by
  simp only [maxTime] at hz
  have h1 : 8640000000000001 ≤ z.natAbs := by omega
  have h2 := le_roundSignificand_of_le _ _ (by norm_num) h1
  unfold JsNumber.round
  simp only
  split_ifs with h3 h4
  · rfl
  · omega
  · simp only [JsNumber.toDate, maxTime]
    rw [if_neg]
    omega

/-- For a positive whole number `m` of minutes and a clock reading that is a
time value, the expiry computed with the arithmetic of doubles is the date
`Date.plusMs (some now) (m * 60000)` computed with integers, an Invalid Date
included. -/
theorem JsNumber.expiry_of_ofInt (now m : Int) (hnow : -maxTime ≤ now ∧ now ≤ maxTime)
    (hm : 0 < m) :
    JsNumber.toDate (JsNumber.addInt now (JsNumber.mulNat (JsNumber.ofInt m) 60000))
      = Date.plusMs (some now) (m * 60000) := by
  by_cases hrange : now + m * 60000 ≤ maxTime
  · have hr : -maxTime ≤ now + m * 60000 ∧ now + m * 60000 ≤ maxTime := by
      simp only [maxTime] at hnow hrange ⊢
      omega
    rw [JsNumber.expiry_of_whole (JsNumber.ofInt m) now m (by simp [JsNumber.ofInt, JsNumber.equalsInt])
      hnow hr]
    simp [Date.plusMs, timeClip, hr]
  · have hrhs : Date.plusMs (some now) (m * 60000) = none := by
      simp only [Date.plusMs, timeClip]
      rw [if_neg]
      intro h
      exact hrange h.2
    rw [hrhs]
    simp only [maxTime] at hnow hrange
    simp only [JsNumber.ofInt, JsNumber.mulNat]
    by_cases hM : (m * 60000).natAbs < 2 ^ 54
    · have hrep : JsNumber.round (m * ((60000 : Nat) : Int)) 0 = JsNumber.finite (m * 60000) 0 := by
        apply JsNumber.round_of_representable _ _ (m.natAbs * 1875) 5
        · simp only [Int.natAbs_mul]
          norm_num
          ring
        · omega
        · omega
      rw [hrep]
      simp only [JsNumber.addInt, pow_zero, mul_one]
      apply JsNumber.toDate_round_of_gt
      simp only [maxTime]
      omega
    · have h1 : 2 ^ 54 ≤ roundSignificand (m * 60000).natAbs :=
        two_pow_le_roundSignificand _ 54 (by omega)
      unfold JsNumber.round
      simp only
      have hnn : ¬ (m * ((60000 : Nat) : Int) < 0) := by omega
      have hcast : (m * ((60000 : Nat) : Int)).natAbs = (m * 60000).natAbs := by norm_num
      rw [hcast]
      split_ifs with h3
      · rfl
      · simp only [JsNumber.addInt, pow_zero, mul_one]
        apply JsNumber.toDate_round_of_gt
        simp only [maxTime]
        omega

/-- On a form that holds a whole number of minutes, at a clock reading that
is a time value, `handleSubmit` of `app/page.jsx` with the arithmetic of
doubles is `AppPage.handleSubmit`. -/
theorem AppPage.Number.handleSubmit_of_whole_minutes (isValidUrl : String → Bool)
    (rand : Nat → Draw) (now idNow : Int) (f : AppPage.Form) (s : AppPage.State)
    (hnow : -maxTime ≤ now ∧ now ≤ maxTime) :
    AppPage.Number.handleSubmit isValidUrl rand now idNow (AppPage.Number.ofWholeMinutes f) s
      = AppPage.handleSubmit isValidUrl rand now idNow f s := by
  unfold AppPage.Number.handleSubmit AppPage.handleSubmit
  simp only [AppPage.Number.ofWholeMinutes, JsNumber.ofInt, JsNumber.leZero, decide_eq_true_eq]
  by_cases hv : f.validityMinutes ≤ 0
  · simp only [hv, if_true]
  · simp only [hv, if_false]
    have he := JsNumber.expiry_of_ofInt now f.validityMinutes hnow (by omega)
    simp only [JsNumber.ofInt] at he
    simp only [AppPage.Number.newUrl, AppPage.newUrl, he]

/-- A run of `app/page.jsx` on forms that hold whole numbers of minutes, at
clock readings that are time values, is the run of the same actions with the
arithmetic of doubles. -/
theorem AppPage.Number.run_of_whole_minutes (isValidUrl : String → Bool)
    (ops : List AppPage.Op) (hops : ∀ op ∈ ops, AppPage.Number.validClock op = true) :
    AppPage.Number.run isValidUrl (ops.map AppPage.Number.Op.ofWholeMinutes)
      = AppPage.run isValidUrl ops := by
  have key : ∀ (ops : List AppPage.Op) (s : AppPage.State),
      (∀ op ∈ ops, AppPage.Number.validClock op = true) →
      (ops.map AppPage.Number.Op.ofWholeMinutes).foldl (AppPage.Number.step isValidUrl) s
        = ops.foldl (AppPage.step isValidUrl) s := by
    intro ops
    induction ops with
    | nil => intro s _; rfl
    | cons op rest ih =>
      intro s h
      rw [List.map_cons, List.foldl_cons, List.foldl_cons]
      have hop := h op (List.mem_cons_self _ _)
      have hstep : AppPage.Number.step isValidUrl s (AppPage.Number.Op.ofWholeMinutes op)
          = AppPage.step isValidUrl s op := by
        cases op with
        | submit rand now idNow f =>
          simp only [AppPage.Number.validClock, decide_eq_true_eq] at hop
          simp only [AppPage.Number.Op.ofWholeMinutes, AppPage.Number.step, AppPage.step]
          exact AppPage.Number.handleSubmit_of_whole_minutes _ _ _ _ _ _ hop
        | redirect now referrer r userAgent url => rfl
      rw [hstep]
      exact ih _ (fun o ho => h o (List.mem_cons_of_mem _ ho))
  exact key ops AppPage.init hops

theorem AppPage.Number.number_handleSubmit_accepted (isValidUrl : String → Bool)
    (rand : Nat → Draw) (now idNow : Int) (f : AppPage.Number.Form) (s : AppPage.State)
    (h : (AppPage.Number.handleSubmit isValidUrl rand now idNow f s).error = "") :
    AppPage.Number.handleSubmit isValidUrl rand now idNow f s
      = { shortenedUrls :=
            AppPage.Number.newUrl f (if truthy f.customShortcode then f.customShortcode
              else generateShortcode rand) now idNow :: s.shortenedUrls,
          error := "" } := by
  unfold AppPage.Number.handleSubmit at h ⊢
  split_ifs at h ⊢ <;> first | rfl | (simp at h)

/-- C3 (as amended). When a create is accepted with a validity that is a
whole number `m` of minutes and the instant `now + m * 60000` lies within the
range of a date (at most 8.64e15 ms from the epoch), `now` being the clock
reading, a time value, the new record, put at the head of the collection by
`app/page.jsx` and at its end by `url-shortener.jsx`, has
`expiresAt - createdAt = m * 60000` milliseconds, `clicks = 0` and an empty
click history. The form of `app/page.jsx` holds any number `v`, the form of
`url-shortener.jsx` an integer. -/
theorem create_expiry_offset
    (isValidUrl : String → Bool) (rand : Nat → Draw) (now idNow nowS : Int) (id : String)
    (originalUrl : String) (v : JsNumber) (m : Int) (customShortcode : String)
    (s : AppPage.State) (t : UrlShortener.State)
    (hv : v.equalsInt m = true)
    (hs : (AppPage.Number.handleSubmit isValidUrl rand now idNow
      { originalUrl := originalUrl, validityMinutes := v,
        customShortcode := customShortcode } s).error = "")
    (ht : (UrlShortener.handleSubmit isValidUrl rand nowS id
      { originalUrl := originalUrl, validityMinutes := m,
        customShortcode := customShortcode } t).errors = [])
    (hnow : -maxTime ≤ now ∧ now ≤ maxTime)
    (hrange : -maxTime ≤ now + m * 60000 ∧ now + m * 60000 ≤ maxTime)
    (hrangeS : -maxTime ≤ nowS + m * 60000 ∧ nowS + m * 60000 ≤ maxTime) :
    (∃ u, (AppPage.Number.handleSubmit isValidUrl rand now idNow
        { originalUrl := originalUrl, validityMinutes := v,
          customShortcode := customShortcode } s).shortenedUrls = u :: s.shortenedUrls ∧
      Date.sub u.expiresAt u.createdAt = some (m * 60000) ∧ u.clicks = 0 ∧ u.clickData = []) ∧
    (∃ u, (UrlShortener.handleSubmit isValidUrl rand nowS id
        { originalUrl := originalUrl, validityMinutes := m,
          customShortcode := customShortcode } t).urls = t.urls ++ [u] ∧
      Date.sub u.expiryDate u.createdDate = some (m * 60000) ∧ u.clicks = 0 ∧ u.clickData = []) := by
  rw [AppPage.Number.number_handleSubmit_accepted _ _ _ _ _ _ hs,
    UrlShortener.shortener_handleSubmit_accepted _ _ _ _ _ _ ht]
  refine ⟨⟨_, rfl, ?_, rfl, rfl⟩, ⟨_, rfl, ?_, rfl, rfl⟩⟩
  · simp [AppPage.Number.newUrl, JsNumber.expiry_of_whole v now m hv hnow hrange, Date.sub]
  · simp [UrlShortener.newUrl, Date.plusMs, timeClip_of_inRange _ hrangeS, Date.sub]

/-- Witness of C3: `https://example.com`, 30 minutes, custom code `abc123`,
on the empty collections. -/
theorem create_expiry_offset_witness :
    (∃ u, (AppPage.Number.handleSubmit acceptAll lowDraws 1700000000000 1700000000000
        { originalUrl := "https://example.com", validityMinutes := JsNumber.ofInt 30,
          customShortcode := "abc123" } AppPage.init).shortenedUrls
          = u :: AppPage.init.shortenedUrls ∧
      Date.sub u.expiresAt u.createdAt = some (30 * 60000) ∧ u.clicks = 0 ∧ u.clickData = []) ∧
    (∃ u, (UrlShortener.handleSubmit acceptAll lowDraws 1700000000000 "k3j9x0q1z"
        { originalUrl := "https://example.com", validityMinutes := 30,
          customShortcode := "abc123" } UrlShortener.init.state).urls
          = UrlShortener.init.state.urls ++ [u] ∧
      Date.sub u.expiryDate u.createdDate = some (30 * 60000) ∧ u.clicks = 0 ∧ u.clickData = []) :=
  create_expiry_offset acceptAll lowDraws 1700000000000 1700000000000 1700000000000 "k3j9x0q1z"
    "https://example.com" (JsNumber.ofInt 30) 30 "abc123" AppPage.init UrlShortener.init.state
    (by decide) (by decide) (by decide) (by decide) (by decide) (by decide)

set_option maxRecDepth 4096 in
/-- C3 (counterexample to the claim as stated). `app/page.jsx` accepts
`https://example.com` with validity 0.00001 minutes at the clock reading
1700000000000: the product `validityMinutes * 60000` is 0.6000000000000001,
the sum with the clock reading is 1700000000000.6 and `new Date` drops the
fraction, so `expiresAt - createdAt` is 0 and not `validityMinutes * 60000`.
And both implementations accept the validity 144000000000 minutes at that
clock reading: the expiry is an Invalid Date (its instant exceeds 8.64e15
ms), so `expiresAt - createdAt` is `NaN` and not `144000000000 * 60000`. -/
theorem create_expiry_offset_fails :
    (AppPage.Number.tinyValidity.leZero = false ∧
      JsNumber.mulNat AppPage.Number.tinyValidity 60000
        = JsNumber.finite (1351079888211149 * 2 ^ 18) 69 ∧
      JsNumber.addInt 1700000000000 (JsNumber.mulNat AppPage.Number.tinyValidity 60000)
        = JsNumber.finite (3481600000001229 * 2 ^ 58) 69 ∧
      (AppPage.Number.handleSubmit acceptAll lowDraws 1700000000000 1700000000000
        { originalUrl := "https://example.com", validityMinutes := AppPage.Number.tinyValidity,
          customShortcode := "abc123" } AppPage.init).error = "" ∧
      (AppPage.Number.handleSubmit acceptAll lowDraws 1700000000000 1700000000000
        { originalUrl := "https://example.com", validityMinutes := AppPage.Number.tinyValidity,
          customShortcode := "abc123" } AppPage.init).shortenedUrls.map
            (fun u => (u.createdAt, u.expiresAt, Date.sub u.expiresAt u.createdAt))
        = [(some 1700000000000, some 1700000000000, some 0)]) ∧
    ((AppPage.Number.handleSubmit acceptAll lowDraws 1700000000000 1700000000000
        { originalUrl := "https://example.com", validityMinutes := JsNumber.ofInt 144000000000,
          customShortcode := "abc123" } AppPage.init).error = "" ∧
      (AppPage.Number.handleSubmit acceptAll lowDraws 1700000000000 1700000000000
        { originalUrl := "https://example.com", validityMinutes := JsNumber.ofInt 144000000000,
          customShortcode := "abc123" } AppPage.init).shortenedUrls.map
            (fun u => Date.sub u.expiresAt u.createdAt) = [none]) ∧
    ((UrlShortener.handleSubmit acceptAll lowDraws 1700000000000 "k3j9x0q1z"
        { originalUrl := "https://example.com", validityMinutes := 144000000000,
          customShortcode := "abc123" } UrlShortener.init.state).errors = [] ∧
      (UrlShortener.handleSubmit acceptAll lowDraws 1700000000000 "k3j9x0q1z"
        { originalUrl := "https://example.com", validityMinutes := 144000000000,
          customShortcode := "abc123" } UrlShortener.init.state).urls.map
            (fun u => Date.sub u.expiryDate u.createdDate) = [none]) := by
  decide

/-! ### Invariants of the runs -/

theorem AppPage.page_handleSubmit_cases (isValidUrl : String → Bool) (rand : Nat → Draw)
    (now idNow : Int) (f : AppPage.Form) (s : AppPage.State) :
    ((AppPage.handleSubmit isValidUrl rand now idNow f s).shortenedUrls = s.shortenedUrls ∧
      (AppPage.handleSubmit isValidUrl rand now idNow f s).error ≠ "") ∨
    (0 < f.validityMinutes ∧ ∃ code,
      AppPage.handleSubmit isValidUrl rand now idNow f s
        = { shortenedUrls := AppPage.newUrl f code now idNow :: s.shortenedUrls, error := "" }) := by
  unfold AppPage.handleSubmit
  split_ifs with h1 h2 h3 h4 h5 h6
  · left; exact ⟨rfl, by simp⟩
  · left; exact ⟨rfl, by simp⟩
  · left; exact ⟨rfl, by simp⟩
  · left; exact ⟨rfl, by simp⟩
  · left; exact ⟨rfl, by simp⟩
  · right; exact ⟨not_le.mp h3, _, rfl⟩
  · right; exact ⟨not_le.mp h3, _, rfl⟩

theorem UrlShortener.validateForm_eq_nil (validateUrl : String → Bool) (f : UrlShortener.Form)
    (urls : List UrlShortener.Url) (h : UrlShortener.validateForm validateUrl f urls = []) :
    0 < f.validityMinutes := by
  by_contra hv
  have hv2 : f.validityMinutes ≤ 0 := not_lt.mp hv
  unfold UrlShortener.validateForm at h
  simp only [hv2, if_true] at h
  split_ifs at h <;> simp at h

theorem UrlShortener.shortener_handleSubmit_cases (validateUrl : String → Bool) (rand : Nat → Draw)
    (now : Int) (id : String) (f : UrlShortener.Form) (s : UrlShortener.State) :
    ((UrlShortener.handleSubmit validateUrl rand now id f s).urls = s.urls ∧
      (UrlShortener.handleSubmit validateUrl rand now id f s).errors ≠ []) ∨
    (0 < f.validityMinutes ∧ ∃ code,
      UrlShortener.handleSubmit validateUrl rand now id f s
        = { urls := s.urls ++ [UrlShortener.newUrl f code now id], errors := [] }) := by
  unfold UrlShortener.handleSubmit
  by_cases h1 : (UrlShortener.validateForm validateUrl f s.urls).length ≠ 0
  · left
    simp only
    rw [if_pos h1]
    refine ⟨rfl, ?_⟩
    intro h
    simp only at h
    rw [h] at h1
    exact h1 rfl
  · right
    have h2 : UrlShortener.validateForm validateUrl f s.urls = [] :=
      List.length_eq_zero.mp (not_not.mp h1)
    refine ⟨UrlShortener.validateForm_eq_nil _ _ _ h2,
      (if truthy f.customShortcode then f.customShortcode
        else UrlShortener.generateShortCode rand), ?_⟩
    simp only [h1, if_false]

theorem AppPage.page_mem_recordClick (url : AppPage.Url) (c : AppPage.ClickData)
    (prev : List AppPage.Url) (v : AppPage.Url) (h : v ∈ AppPage.recordClick url c prev) :
    ∃ u ∈ prev, v = u ∨
      v = { u with clicks := u.clicks + 1, clickData := u.clickData ++ [c] } := by
  simp only [AppPage.recordClick, List.mem_map] at h
  obtain ⟨u, hu, rfl⟩ := h
  refine ⟨u, hu, ?_⟩
  split_ifs
  · right; rfl
  · left; rfl

theorem UrlShortener.shortener_mem_recordClick (url : UrlShortener.Url) (c : UrlShortener.ClickData)
    (prev : List UrlShortener.Url) (v : UrlShortener.Url)
    (h : v ∈ UrlShortener.recordClick url c prev) :
    ∃ u ∈ prev, v = u ∨
      v = { u with clicks := u.clicks + 1, clickData := u.clickData ++ [c] } := by
  simp only [UrlShortener.recordClick, List.mem_map] at h
  obtain ⟨u, hu, rfl⟩ := h
  refine ⟨u, hu, ?_⟩
  split_ifs
  · right; rfl
  · left; rfl

/-- A property of records that every accepted create establishes and every
click update keeps holds of all records after a run of `app/page.jsx`. -/
theorem AppPage.page_run_all (P : AppPage.Url → Prop) (Q : AppPage.Op → Prop)
    (isValidUrl : String → Bool)
    (hclick : ∀ u c, P u →
      P { u with clicks := u.clicks + 1, clickData := u.clickData ++ [c] })
    (hnew : ∀ rand now idNow f code, Q (AppPage.Op.submit rand now idNow f) →
      0 < f.validityMinutes → P (AppPage.newUrl f code now idNow))
    (ops : List AppPage.Op) (hops : ∀ op ∈ ops, Q op) :
    ∀ u ∈ (AppPage.run isValidUrl ops).shortenedUrls, P u := by
  have key : ∀ (ops : List AppPage.Op) (s : AppPage.State), (∀ op ∈ ops, Q op) →
      (∀ u ∈ s.shortenedUrls, P u) →
      ∀ u ∈ (ops.foldl (AppPage.step isValidUrl) s).shortenedUrls, P u := by
    intro ops
    induction ops with
    | nil => intro s _ hs; exact hs
    | cons op rest ih =>
      intro s hq hs
      rw [List.foldl_cons]
      apply ih _ (fun o ho => hq o (List.mem_cons_of_mem _ ho))
      have hqop := hq op (List.mem_cons_self _ _)
      cases op with
      | submit rand now idNow f =>
        simp only [AppPage.step]
        rcases AppPage.page_handleSubmit_cases isValidUrl rand now idNow f s with h | ⟨hv, code, h⟩
        · rw [h.1]; exact hs
        · rw [h]
          intro u hu
          rcases List.mem_cons.mp hu with rfl | hu
          · exact hnew _ _ _ _ _ hqop hv
          · exact hs u hu
      | redirect now referrer r userAgent url =>
        simp only [AppPage.step, AppPage.handleRedirect]
        split_ifs
        · exact hs
        · intro v hv
          obtain ⟨u, hu, hvu | hvu⟩ := AppPage.page_mem_recordClick _ _ _ _ hv
          · rw [hvu]; exact hs u hu
          · rw [hvu]; exact hclick _ _ (hs u hu)
  exact key ops AppPage.init hops (by intro u hu; simp [AppPage.init] at hu)

theorem UrlShortener.handleRedirect_cases (nowCheck nowStamp : Int) (shortCode : String)
    (s : UrlShortener.State) :
    (∃ msg, UrlShortener.handleRedirect nowCheck nowStamp shortCode s
        = (s, Outcome.reported msg)) ∨
    (∃ url c, UrlShortener.handleRedirect nowCheck nowStamp shortCode s
        = ({ s with urls := UrlShortener.recordClick url c s.urls },
            Outcome.opened url.originalUrl)) := by
  unfold UrlShortener.handleRedirect
  cases s.urls.find? (fun u => u.shortCode == shortCode) with
  | none => left; exact ⟨_, rfl⟩
  | some url =>
    simp only
    split_ifs
    · right; exact ⟨url, _, rfl⟩
    · left; exact ⟨_, rfl⟩

theorem RedirectPage.effect_blob_cases (nowCheck nowStamp : Int) (referrer shortCode : String)
    (savedUrls : Option (List UrlShortener.Url)) :
    (RedirectPage.effect nowCheck nowStamp referrer shortCode savedUrls).blob = savedUrls ∨
    (∃ saved url c, savedUrls = some saved ∧
      (RedirectPage.effect nowCheck nowStamp referrer shortCode savedUrls).blob
        = some (UrlShortener.recordClick url c (saved.map UrlShortener.parseUrl))) := by
  unfold RedirectPage.effect
  cases savedUrls with
  | none => left; rfl
  | some saved =>
    simp only
    cases (saved.map UrlShortener.parseUrl).find? (fun u => u.shortCode == shortCode) with
    | none => left; rfl
    | some foundUrl =>
      simp only
      cases Date.gt (some nowCheck) foundUrl.expiryDate with
      | true => left; rfl
      | false => right; exact ⟨saved, foundUrl, _, rfl, rfl⟩

/-- A property of records that every accepted create establishes and that
every click update and every reload keeps holds of all records, in memory and
in the stored item, after a run of `url-shortener.jsx` and the redirect
page. -/
theorem UrlShortener.shortener_run_all (P : UrlShortener.Url → Prop) (Q : UrlShortener.Op → Prop)
    (validateUrl : String → Bool)
    (hclick : ∀ u c, P u →
      P { u with clicks := u.clicks + 1, clickData := u.clickData ++ [c] })
    (hparse : ∀ u, P u → P (UrlShortener.parseUrl u))
    (hnew : ∀ rand now id f code, Q (UrlShortener.Op.submit rand now id f) →
      0 < f.validityMinutes → P (UrlShortener.newUrl f code now id))
    (ops : List UrlShortener.Op) (hops : ∀ op ∈ ops, Q op) :
    (∀ u ∈ (UrlShortener.run validateUrl ops).state.urls, P u) ∧
    (∀ saved, (UrlShortener.run validateUrl ops).blob = some saved → ∀ u ∈ saved, P u) := by
  have hrec : ∀ (url : UrlShortener.Url) (c : UrlShortener.ClickData)
      (l : List UrlShortener.Url), (∀ u ∈ l, P u) →
      ∀ v ∈ UrlShortener.recordClick url c l, P v := by
    intro url c l hl v hv
    obtain ⟨u, hu, hvu | hvu⟩ := UrlShortener.shortener_mem_recordClick _ _ _ _ hv
    · rw [hvu]; exact hl u hu
    · rw [hvu]; exact hclick _ _ (hl u hu)
  have hmap : ∀ (l : List UrlShortener.Url), (∀ u ∈ l, P u) →
      ∀ v ∈ l.map UrlShortener.parseUrl, P v := by
    intro l hl v hv
    obtain ⟨u, hu, rfl⟩ := List.mem_map.mp hv
    exact hparse u (hl u hu)
  have key : ∀ (ops : List UrlShortener.Op) (w : UrlShortener.World), (∀ op ∈ ops, Q op) →
      ((∀ u ∈ w.state.urls, P u) ∧ (∀ saved, w.blob = some saved → ∀ u ∈ saved, P u)) →
      ((∀ u ∈ (ops.foldl (UrlShortener.step validateUrl) w).state.urls, P u) ∧
        (∀ saved, (ops.foldl (UrlShortener.step validateUrl) w).blob = some saved →
          ∀ u ∈ saved, P u)) := by
    intro ops
    induction ops with
    | nil => intro w _ hw; exact hw
    | cons op rest ih =>
      intro w hq hw
      rw [List.foldl_cons]
      apply ih _ (fun o ho => hq o (List.mem_cons_of_mem _ ho))
      have hqop := hq op (List.mem_cons_self _ _)
      obtain ⟨hs, hb⟩ := hw
      cases op with
      | submit rand now id f =>
        simp only [UrlShortener.step]
        rcases UrlShortener.shortener_handleSubmit_cases validateUrl rand now id f w.state with
          h | ⟨hv, code, h⟩
        · have hl : (UrlShortener.handleSubmit validateUrl rand now id f w.state).errors.length
              ≠ 0 := fun h0 => h.2 (List.length_eq_zero.mp h0)
          rw [if_pos hl, h.1]
          exact ⟨hs, hb⟩
        · rw [h]
          have hnewl : ∀ u ∈ w.state.urls ++ [UrlShortener.newUrl f code now id], P u := by
            intro u hu
            rcases List.mem_append.mp hu with hu | hu
            · exact hs u hu
            · rw [List.mem_singleton.mp hu]; exact hnew _ _ _ _ _ hqop hv
          refine ⟨hnewl, ?_⟩
          intro saved hsaved
          simp only [List.length_nil, ne_eq, not_true_eq_false, if_false, Option.some.injEq]
            at hsaved
          rw [← hsaved]; exact hnewl
      | redirect nowCheck nowStamp shortCode =>
        simp only [UrlShortener.step]
        rcases UrlShortener.handleRedirect_cases nowCheck nowStamp shortCode w.state with
          ⟨msg, h⟩ | ⟨url, c, h⟩
        · rw [h]; exact ⟨hs, hb⟩
        · rw [h]
          refine ⟨hrec _ _ _ hs, ?_⟩
          intro saved hsaved
          simp only [Option.some.injEq] at hsaved
          rw [← hsaved]; exact hrec _ _ _ hs
      | delete id =>
        simp only [UrlShortener.step, UrlShortener.deleteUrl]
        have hf : ∀ u ∈ w.state.urls.filter (fun url => url.id != id), P u :=
          fun u hu => hs u (List.mem_filter.mp hu).1
        refine ⟨hf, ?_⟩
        intro saved hsaved
        simp only [Option.some.injEq] at hsaved
        rw [← hsaved]; exact hf
      | visit nowCheck nowStamp referrer shortCode =>
        simp only [UrlShortener.step]
        refine ⟨hs, ?_⟩
        rcases RedirectPage.effect_blob_cases nowCheck nowStamp referrer shortCode w.blob with
          h | ⟨saved0, url, c, h0, h⟩
        · rw [h]; exact hb
        · rw [h]
          intro saved hsaved
          simp only [Option.some.injEq] at hsaved
          rw [← hsaved]
          exact hrec _ _ _ (hmap _ (hb saved0 h0))
      | mount =>
        simp only [UrlShortener.step]
        cases hblob : w.blob with
        | none =>
          simp only
          refine ⟨by intro u hu; simp at hu, ?_⟩
          intro saved hsaved
          simp only [Option.some.injEq] at hsaved
          rw [← hsaved]
          intro u hu; simp at hu
        | some saved0 =>
          simp only
          refine ⟨hmap _ (hb saved0 hblob), ?_⟩
          intro saved hsaved
          simp only [Option.some.injEq] at hsaved
          rw [← hsaved]
          exact hmap _ (hb saved0 hblob)
  exact key ops UrlShortener.init hops
    ⟨by intro u hu; simp [UrlShortener.init] at hu,
     by intro saved hsaved; simp [UrlShortener.init] at hsaved⟩

theorem AppPage.Number.number_handleSubmit_cases (isValidUrl : String → Bool)
    (rand : Nat → Draw) (now idNow : Int) (f : AppPage.Number.Form) (s : AppPage.State) :
    ((AppPage.Number.handleSubmit isValidUrl rand now idNow f s).shortenedUrls = s.shortenedUrls ∧
      (AppPage.Number.handleSubmit isValidUrl rand now idNow f s).error ≠ "") ∨
    (f.validityMinutes.leZero = false ∧ ∃ code,
      AppPage.Number.handleSubmit isValidUrl rand now idNow f s
        = { shortenedUrls := AppPage.Number.newUrl f code now idNow :: s.shortenedUrls,
            error := "" }) := by
  unfold AppPage.Number.handleSubmit
  split_ifs with h1 h2 h3 h4 h5 h6
  · left; exact ⟨rfl, by simp⟩
  · left; exact ⟨rfl, by simp⟩
  · left; exact ⟨rfl, by simp⟩
  · left; exact ⟨rfl, by simp⟩
  · left; exact ⟨rfl, by simp⟩
  · right; exact ⟨Bool.eq_false_iff.mpr h3, _, rfl⟩
  · right; exact ⟨Bool.eq_false_iff.mpr h3, _, rfl⟩

/-- A property of records that every accepted create establishes and every
click update keeps holds of all records after a run of `app/page.jsx` whose
forms hold any number. -/
theorem AppPage.Number.number_run_all (P : AppPage.Url → Prop) (Q : AppPage.Number.Op → Prop)
    (isValidUrl : String → Bool)
    (hclick : ∀ u c, P u →
      P { u with clicks := u.clicks + 1, clickData := u.clickData ++ [c] })
    (hnew : ∀ rand now idNow f code, Q (AppPage.Number.Op.submit rand now idNow f) →
      f.validityMinutes.leZero = false → P (AppPage.Number.newUrl f code now idNow))
    (ops : List AppPage.Number.Op) (hops : ∀ op ∈ ops, Q op) :
    ∀ u ∈ (AppPage.Number.run isValidUrl ops).shortenedUrls, P u := by
  have key : ∀ (ops : List AppPage.Number.Op) (s : AppPage.State), (∀ op ∈ ops, Q op) →
      (∀ u ∈ s.shortenedUrls, P u) →
      ∀ u ∈ (ops.foldl (AppPage.Number.step isValidUrl) s).shortenedUrls, P u := by
    intro ops
    induction ops with
    | nil => intro s _ hs; exact hs
    | cons op rest ih =>
      intro s hq hs
      rw [List.foldl_cons]
      apply ih _ (fun o ho => hq o (List.mem_cons_of_mem _ ho))
      have hqop := hq op (List.mem_cons_self _ _)
      cases op with
      | submit rand now idNow f =>
        simp only [AppPage.Number.step]
        rcases AppPage.Number.number_handleSubmit_cases isValidUrl rand now idNow f s with
          h | ⟨hv, code, h⟩
        · rw [h.1]; exact hs
        · rw [h]
          intro u hu
          rcases List.mem_cons.mp hu with rfl | hu
          · exact hnew _ _ _ _ _ hqop hv
          · exact hs u hu
      | redirect now referrer r userAgent url =>
        simp only [AppPage.Number.step, AppPage.handleRedirect]
        split_ifs
        · exact hs
        · intro v hv
          obtain ⟨u, hu, hvu | hvu⟩ := AppPage.page_mem_recordClick _ _ _ _ hv
          · rw [hvu]; exact hs u hu
          · rw [hvu]; exact hclick _ _ (hs u hu)
  exact key ops AppPage.init hops (by intro u hu; simp [AppPage.init] at hu)

/-- C4 (as amended). A submission with `validityMinutes <= 0` is rejected by
both implementations and adds no record, whatever number the form of
`app/page.jsx` holds. Consequently, in every collection reached from the
empty one by creates whose validity is a whole number `m` of minutes and whose
expiry instant `now + m * 60000` lies within the range of a date (`now` being
a time value), by clicks (accepted or not), by deletes, by visits of the
redirect page and by reloads, every record, in memory and in the stored item,
has `expiresAt > createdAt`. -/
theorem nonpositive_validity_rejected
    (isValidUrl : String → Bool) (rand : Nat → Draw) (now idNow : Int) (id : String)
    (originalUrl : String) (v : JsNumber) (m : Int) (customShortcode : String)
    (s : AppPage.State) (t : UrlShortener.State)
    (appOps : List AppPage.Number.Op) (ops : List UrlShortener.Op)
    (hv : v.leZero = true)
    (hm : m ≤ 0)
    (happ : ∀ op ∈ appOps, op.wholeInRange = true)
    (hops : ∀ op ∈ ops, op.inRange = true) :
    ((AppPage.Number.handleSubmit isValidUrl rand now idNow
        { originalUrl := originalUrl, validityMinutes := v,
          customShortcode := customShortcode } s).shortenedUrls = s.shortenedUrls ∧
      (AppPage.Number.handleSubmit isValidUrl rand now idNow
        { originalUrl := originalUrl, validityMinutes := v,
          customShortcode := customShortcode } s).error ≠ "") ∧
    ((UrlShortener.handleSubmit isValidUrl rand now id
        { originalUrl := originalUrl, validityMinutes := m,
          customShortcode := customShortcode } t).urls = t.urls ∧
      (UrlShortener.handleSubmit isValidUrl rand now id
        { originalUrl := originalUrl, validityMinutes := m,
          customShortcode := customShortcode } t).errors ≠ []) ∧
    (∀ u ∈ (AppPage.Number.run isValidUrl appOps).shortenedUrls,
      Date.gt u.expiresAt u.createdAt = true) ∧
    (∀ u ∈ (UrlShortener.run isValidUrl ops).state.urls,
      Date.gt u.expiryDate u.createdDate = true) ∧
    (∀ saved, (UrlShortener.run isValidUrl ops).blob = some saved →
      ∀ u ∈ saved, Date.gt u.expiryDate u.createdDate = true) := by
  refine ⟨?_, ?_, ?_, ?_⟩
  · rcases AppPage.Number.number_handleSubmit_cases isValidUrl rand now idNow
      { originalUrl := originalUrl, validityMinutes := v,
        customShortcode := customShortcode } s with h | ⟨hv2, _⟩
    · exact h
    · simp only [hv] at hv2
      exact absurd hv2 (by decide)
  · rcases UrlShortener.shortener_handleSubmit_cases isValidUrl rand now id
      { originalUrl := originalUrl, validityMinutes := m,
        customShortcode := customShortcode } t with h | ⟨hv, _⟩
    · exact h
    · exact absurd hv (not_lt.mpr hm)
  · apply AppPage.Number.number_run_all (fun u => Date.gt u.expiresAt u.createdAt = true)
      (fun op => op.wholeInRange = true) isValidUrl _ _ appOps happ
    · intro u c hu; exact hu
    · intro rand now idNow f code hq hpos
      cases hval : f.validityMinutes with
      | infinity negative => simp [AppPage.Number.Op.wholeInRange, hval] at hq
      | nan => simp [AppPage.Number.Op.wholeInRange, hval] at hq
      | finite num exp =>
        simp only [AppPage.Number.Op.wholeInRange, hval, decide_eq_true_eq] at hq
        obtain ⟨hdiv, hnow, hrange⟩ := hq
        have hnum : num = num / 2 ^ exp * 2 ^ exp := (Int.ediv_mul_cancel
          (Int.dvd_of_emod_eq_zero hdiv)).symm
        have hpos2 : 0 < num := by
          simp only [hval, JsNumber.leZero, decide_eq_false_iff_not, not_le] at hpos
          exact hpos
        have hp : (0 : Int) < 2 ^ exp := by positivity
        have hm0 : 0 < num / 2 ^ exp := by
          by_contra hle
          have h1 : num / 2 ^ exp * 2 ^ exp ≤ 0 :=
            mul_nonpos_of_nonpos_of_nonneg (not_lt.mp hle) (le_of_lt hp)
          omega
        have he := JsNumber.expiry_of_whole (JsNumber.finite num exp) now (num / 2 ^ exp)
          (by simp only [JsNumber.equalsInt, decide_eq_true_eq]; exact hnum) hnow hrange
        simp only [AppPage.Number.newUrl, hval, he, Date.gt, decide_eq_true_eq]
        omega
  · apply UrlShortener.shortener_run_all (fun u => Date.gt u.expiryDate u.createdDate = true)
      (fun op => op.inRange = true) isValidUrl _ _ _ ops hops
    · intro u c hu; exact hu
    · intro u hu
      cases he : u.expiryDate with
      | none => rw [he] at hu; simp [Date.gt] at hu
      | some e =>
        cases hc : u.createdDate with
        | none => rw [he, hc] at hu; simp [Date.gt] at hu
        | some c =>
          rw [he, hc] at hu
          simp only [UrlShortener.parseUrl, he, hc, reviveDate]
          exact hu
    · intro rand now id f code hq hv
      simp only [UrlShortener.Op.inRange, decide_eq_true_eq] at hq
      simp only [UrlShortener.newUrl, Date.plusMs, timeClip_of_inRange _ hq, Date.gt,
        decide_eq_true_eq]
      omega

/-- Witness of C4: validity 0 on the empty collections, and the clicked
record of the sample runs. -/
theorem nonpositive_validity_rejected_witness :
    ((AppPage.Number.handleSubmit acceptAll lowDraws 1700000000000 1700000000000
        { originalUrl := "https://example.com", validityMinutes := JsNumber.ofInt 0,
          customShortcode := "abc123" } AppPage.init).shortenedUrls = AppPage.init.shortenedUrls ∧
      (AppPage.Number.handleSubmit acceptAll lowDraws 1700000000000 1700000000000
        { originalUrl := "https://example.com", validityMinutes := JsNumber.ofInt 0,
          customShortcode := "abc123" } AppPage.init).error ≠ "") ∧
    ((UrlShortener.handleSubmit acceptAll lowDraws 1700000000000 "k3j9x0q1z"
        { originalUrl := "https://example.com", validityMinutes := 0,
          customShortcode := "abc123" } UrlShortener.init.state).urls
          = UrlShortener.init.state.urls ∧
      (UrlShortener.handleSubmit acceptAll lowDraws 1700000000000 "k3j9x0q1z"
        { originalUrl := "https://example.com", validityMinutes := 0,
          customShortcode := "abc123" } UrlShortener.init.state).errors ≠ []) ∧
    Date.gt AppPage.clickedUrl.expiresAt AppPage.clickedUrl.createdAt = true ∧
    Date.gt UrlShortener.clickedUrl.expiryDate UrlShortener.clickedUrl.createdDate = true :=
  have h := nonpositive_validity_rejected acceptAll lowDraws 1700000000000 1700000000000
    "k3j9x0q1z" "https://example.com" (JsNumber.ofInt 0) 0 "abc123" AppPage.init
    UrlShortener.init.state AppPage.Number.sampleOps UrlShortener.sampleOps
    (by decide) (by decide) (by decide) (by decide)
  ⟨h.1, h.2.1, h.2.2.1 AppPage.clickedUrl (by decide),
    h.2.2.2.2 [UrlShortener.clickedUrl] (by decide) UrlShortener.clickedUrl (by decide)⟩

set_option maxRecDepth 4096 in
/-- C4 (counterexample to the claim as stated). A single create with validity
0.00001 minutes at the clock reading 1700000000000 is accepted by
`app/page.jsx` and leaves a record whose expiry is its creation instant:
`expiresAt > createdAt` is false for it. And a single accepted create with
validity 144000000000 minutes at that clock reading leaves a record whose
expiry is an Invalid Date: `expiresAt > createdAt` is false for it, in both
implementations. -/
theorem expiry_after_creation_fails :
    ((AppPage.Number.run acceptAll AppPage.Number.fractionOps).shortenedUrls.map
        (fun u => (u.createdAt, u.expiresAt, Date.gt u.expiresAt u.createdAt))
      = [(some 1700000000000, some 1700000000000, false)]) ∧
    ((AppPage.Number.run acceptAll AppPage.Number.overflowOps).shortenedUrls.map
        (fun u => (u.createdAt, u.expiresAt, Date.gt u.expiresAt u.createdAt))
      = [(some 1700000000000, none, false)]) ∧
    ((UrlShortener.run acceptAll UrlShortener.overflowOps).state.urls.map
        (fun u => (u.createdDate, u.expiryDate, Date.gt u.expiryDate u.createdDate))
      = [(some 1700000000000, none, false)]) := by
  decide

/-- C5. After every run of creates, clicks (accepted or rejected), deletes,
visits of the redirect page and reloads, starting from the empty collection,
every record satisfies `clicks = length(clickData)`: in the collection of
`app/page.jsx`, in the collection of `url-shortener.jsx` and in the stored
item that the redirect page rewrites. -/
theorem clicks_eq_history_length
    (isValidUrl : String → Bool) (appOps : List AppPage.Op) (ops : List UrlShortener.Op) :
    (∀ u ∈ (AppPage.run isValidUrl appOps).shortenedUrls, u.clicks = u.clickData.length) ∧
    (∀ u ∈ (UrlShortener.run isValidUrl ops).state.urls, u.clicks = u.clickData.length) ∧
    (∀ saved, (UrlShortener.run isValidUrl ops).blob = some saved →
      ∀ u ∈ saved, u.clicks = u.clickData.length) := by
  refine ⟨?_, ?_⟩
  · apply AppPage.page_run_all (fun u => u.clicks = u.clickData.length) (fun _ => True) isValidUrl
      _ _ appOps (fun _ _ => trivial)
    · intro u c hu
      simp only [List.length_append, List.length_singleton, hu]
    · intro rand now idNow f code _ _
      rfl
  · apply UrlShortener.shortener_run_all (fun u => u.clicks = u.clickData.length) (fun _ => True)
      isValidUrl _ _ _ ops (fun _ _ => trivial)
    · intro u c hu
      simp only [List.length_append, List.length_singleton, hu]
    · intro u hu
      simp only [UrlShortener.parseUrl, List.length_map, hu]
    · intro rand now id f code _ _
      rfl

/-- Witness of C5: the clicked record of the sample runs, in memory and in
the stored item. -/
theorem clicks_eq_history_length_witness :
    (AppPage.clickedUrl ∈ (AppPage.run acceptAll AppPage.sampleOps).shortenedUrls ∧
      AppPage.clickedUrl.clicks = AppPage.clickedUrl.clickData.length) ∧
    (UrlShortener.clickedUrl ∈ (UrlShortener.run acceptAll UrlShortener.sampleOps).state.urls ∧
      UrlShortener.clickedUrl.clicks = UrlShortener.clickedUrl.clickData.length) ∧
    ((UrlShortener.run acceptAll UrlShortener.sampleOps).blob = some [UrlShortener.clickedUrl] ∧
      UrlShortener.clickedUrl.clicks = UrlShortener.clickedUrl.clickData.length) :=
  have h := clicks_eq_history_length acceptAll AppPage.sampleOps UrlShortener.sampleOps
  ⟨⟨by decide, h.1 _ (by decide)⟩, ⟨by decide, h.2.1 _ (by decide)⟩,
    ⟨by decide, h.2.2 [UrlShortener.clickedUrl] (by decide) _ (by decide)⟩⟩

/-- C6 (as amended). A click attempted at a clock reading later than the
expiry of the record is rejected and nothing changes: in `app/page.jsx` for
every record; in `url-shortener.jsx` and on the redirect page for every
record that is the first of the collection with its short code (these two
look the record up by code). The redirect page leaves the stored item as it
was and schedules no navigation. -/
theorem expired_click_rejected
    (now nowStamp : Int) (referrer : String) (r : Draw) (userAgent : String)
    (url : AppPage.Url) (s : AppPage.State)
    (v : UrlShortener.Url) (t : UrlShortener.State)
    (x : UrlShortener.Url) (saved : List UrlShortener.Url)
    (hurl : Date.gt (some now) url.expiresAt = true)
    (hv : Date.gt (some now) v.expiryDate = true)
    (hvfirst : t.urls.find? (fun u => u.shortCode == v.shortCode) = some v)
    (hx : Date.gt (some now) x.expiryDate = true)
    (hxfirst : (saved.map UrlShortener.parseUrl).find? (fun u => u.shortCode == x.shortCode)
      = some x) :
    AppPage.handleRedirect now referrer r userAgent url s
      = (s, Outcome.reported "This link has expired") ∧
    UrlShortener.handleRedirect now nowStamp v.shortCode t
      = (t, Outcome.reported "Link Expired") ∧
    RedirectPage.effect now nowStamp referrer x.shortCode (some saved)
      = { url := some x, isExpired := true, blob := some saved, navigateTo := none } := by
  refine ⟨?_, ?_, ?_⟩
  · simp [AppPage.handleRedirect, hurl]
  · have hlt : Date.lt (some now) v.expiryDate = false := by
      cases he : v.expiryDate with
      | none => rfl
      | some e =>
        rw [he] at hv
        simp only [Date.gt, decide_eq_true_eq] at hv
        simp only [Date.lt, decide_eq_false_iff_not, not_lt]
        exact le_of_lt hv
    simp [UrlShortener.handleRedirect, hvfirst, hlt]
  · simp [RedirectPage.effect, hxfirst, hx]

/-- Witness of C6: the sample record, clicked 9000 seconds after its
creation (validity 30 minutes). -/
theorem expired_click_rejected_witness :
    AppPage.handleRedirect 1700009000000 "" { num := 5764607523034235, exp := 59 } "Mozilla/5.0"
        AppPage.sampleUrl { shortenedUrls := [AppPage.sampleUrl], error := "" }
      = ({ shortenedUrls := [AppPage.sampleUrl], error := "" },
          Outcome.reported "This link has expired") ∧
    UrlShortener.handleRedirect 1700009000000 1700009000001 UrlShortener.sampleUrl.shortCode
        { urls := [UrlShortener.sampleUrl], errors := [] }
      = ({ urls := [UrlShortener.sampleUrl], errors := [] }, Outcome.reported "Link Expired") ∧
    RedirectPage.effect 1700009000000 1700009000001 "" UrlShortener.sampleUrl.shortCode
        (some [UrlShortener.sampleUrl])
      = { url := some UrlShortener.sampleUrl, isExpired := true,
          blob := some [UrlShortener.sampleUrl], navigateTo := none } :=
  expired_click_rejected 1700009000000 1700009000001 "" { num := 5764607523034235, exp := 59 } "Mozilla/5.0"
    AppPage.sampleUrl { shortenedUrls := [AppPage.sampleUrl], error := "" }
    UrlShortener.sampleUrl { urls := [UrlShortener.sampleUrl], errors := [] }
    UrlShortener.sampleUrl [UrlShortener.sampleUrl]
    (by decide) (by decide) (by decide) (by decide) (by decide)

/-- C6 (counterexample to the claim as stated). After the two creates of
`duplicateOps` the collection of `url-shortener.jsx` holds two records with
short code `aaaaaa`; at 1700000120000 the second one (id `p0o9i8u7y`) is past
its expiry. The click attempt on it, `handleRedirect("aaaaaa")`, finds the
first record, opens its destination and records a click on it; the redirect
page likewise rewrites the stored item. -/
theorem expired_click_rejected_fails :
    ((UrlShortener.run acceptAll UrlShortener.duplicateOps).state.urls.map
        (fun u => (u.id, u.shortCode, Date.gt (some 1700000120000) u.expiryDate, u.clicks))
      = [("k3j9x0q1z", "aaaaaa", false, 0), ("p0o9i8u7y", "aaaaaa", true, 0)]) ∧
    ((UrlShortener.handleRedirect 1700000120000 1700000120000 "aaaaaa"
        (UrlShortener.run acceptAll UrlShortener.duplicateOps).state).2
      = Outcome.opened "https://example.com") ∧
    ((UrlShortener.handleRedirect 1700000120000 1700000120000 "aaaaaa"
        (UrlShortener.run acceptAll UrlShortener.duplicateOps).state).1.urls.map
        (fun u => (u.id, u.clicks))
      = [("k3j9x0q1z", 1), ("p0o9i8u7y", 0)]) ∧
    ((RedirectPage.effect 1700000120000 1700000120000 "" "aaaaaa"
        (UrlShortener.run acceptAll UrlShortener.duplicateOps).blob).blob
      ≠ (UrlShortener.run acceptAll UrlShortener.duplicateOps).blob) := by
  decide

/-- C7 (as amended). Recording a click on a record of the store yields a
store in which, at the position of that record, `clicks` is the old value plus
1 and the click history is the old one followed by exactly one new event with
the clock reading, source and location of the call. This holds in
`app/page.jsx` for every record not expired at `now`; on the redirect page
for every record not expired at `now` that is the first of the parsed
collection with its short code; in `url-shortener.jsx` for every record with
`now` earlier than its expiry that is the first of the collection with its
short code. In the last two the timestamp of the event is the second clock
reading `nowStamp` of the call. -/
theorem click_recorded
    (now nowStamp : Int) (referrer : String) (r : Draw) (userAgent : String)
    (url : AppPage.Url) (s : AppPage.State) (i : Nat)
    (v : UrlShortener.Url) (t : UrlShortener.State) (j : Nat)
    (x : UrlShortener.Url) (saved : List UrlShortener.Url) (k : Nat)
    (hurl : Date.gt (some now) url.expiresAt = false)
    (hi : s.shortenedUrls[i]? = some url)
    (hv : Date.lt (some now) v.expiryDate = true)
    (hvfirst : t.urls.find? (fun u => u.shortCode == v.shortCode) = some v)
    (hj : t.urls[j]? = some v)
    (hx : Date.gt (some now) x.expiryDate = false)
    (hxfirst : (saved.map UrlShortener.parseUrl).find? (fun u => u.shortCode == x.shortCode)
      = some x)
    (hk : (saved.map UrlShortener.parseUrl)[k]? = some x) :
    ((AppPage.handleRedirect now referrer r userAgent url s).1.shortenedUrls[i]?
      = some { url with
          clicks := url.clicks + 1
          clickData := url.clickData ++
            [{ timestamp := some now, source := AppPage.getClickSource referrer,
               location := AppPage.getUserLocation r, userAgent := userAgent,
               ip := "192.168.1.1" }] }) ∧
    ((UrlShortener.handleRedirect now nowStamp v.shortCode t).1.urls[j]?
      = some { v with
          clicks := v.clicks + 1
          clickData := v.clickData ++
            [{ timestamp := some nowStamp, source := "direct", location := "Unknown" }] }) ∧
    (∃ updated, (RedirectPage.effect now nowStamp referrer x.shortCode (some saved)).blob
        = some updated ∧
      updated[k]? = some { x with
          clicks := x.clicks + 1
          clickData := x.clickData ++
            [{ timestamp := some nowStamp,
               source := if truthy referrer then referrer else "direct",
               location := "Unknown" }] }) := by
  refine ⟨?_, ?_, ?_⟩
  · simp [AppPage.handleRedirect, hurl, AppPage.recordClick, List.getElem?_map, hi]
  · simp [UrlShortener.handleRedirect, hvfirst, hv, UrlShortener.recordClick,
      List.getElem?_map, hj]
  · refine ⟨UrlShortener.recordClick x
      { timestamp := some nowStamp, source := if truthy referrer then referrer else "direct",
        location := "Unknown" } (saved.map UrlShortener.parseUrl), ?_, ?_⟩
    · simp only [RedirectPage.effect, hxfirst, hx, Bool.not_false, if_true,
        UrlShortener.recordClick]
    · rw [UrlShortener.recordClick, List.getElem?_map, hk]
      simp

/-- Witness of C7: the sample record, clicked one minute after its creation
(validity 30 minutes). -/
theorem click_recorded_witness :
    ((AppPage.handleRedirect 1700000060000 "" { num := 5764607523034235, exp := 59 } "Mozilla/5.0"
        AppPage.sampleUrl { shortenedUrls := [AppPage.sampleUrl], error := "" }).1.shortenedUrls[0]?
      = some { AppPage.sampleUrl with
          clicks := AppPage.sampleUrl.clicks + 1
          clickData := AppPage.sampleUrl.clickData ++
            [{ timestamp := some 1700000060000, source := AppPage.getClickSource "",
               location := AppPage.getUserLocation { num := 5764607523034235, exp := 59 },
               userAgent := "Mozilla/5.0", ip := "192.168.1.1" }] }) ∧
    ((UrlShortener.handleRedirect 1700000060000 1700000060001 UrlShortener.sampleUrl.shortCode
        { urls := [UrlShortener.sampleUrl], errors := [] }).1.urls[0]?
      = some { UrlShortener.sampleUrl with
          clicks := UrlShortener.sampleUrl.clicks + 1
          clickData := UrlShortener.sampleUrl.clickData ++
            [{ timestamp := some 1700000060001, source := "direct", location := "Unknown" }] }) ∧
    (∃ updated, (RedirectPage.effect 1700000060000 1700000060001 ""
          UrlShortener.sampleUrl.shortCode (some [UrlShortener.sampleUrl])).blob = some updated ∧
      updated[0]? = some { UrlShortener.sampleUrl with
          clicks := UrlShortener.sampleUrl.clicks + 1
          clickData := UrlShortener.sampleUrl.clickData ++
            [{ timestamp := some 1700000060001,
               source := if truthy "" then "" else "direct",
               location := "Unknown" }] }) :=
  click_recorded 1700000060000 1700000060001 "" { num := 5764607523034235, exp := 59 } "Mozilla/5.0"
    AppPage.sampleUrl { shortenedUrls := [AppPage.sampleUrl], error := "" } 0
    UrlShortener.sampleUrl { urls := [UrlShortener.sampleUrl], errors := [] } 0
    UrlShortener.sampleUrl [UrlShortener.sampleUrl] 0
    (by decide) (by decide) (by decide) (by decide) (by decide) (by decide) (by decide)
    (by decide)

/-- C7 (counterexample to the claim as stated). After the two creates of
`duplicateOps`, at 1700000030000 the second record (id `p0o9i8u7y`, short
code `aaaaaa`) is not expired, yet the click on it, `handleRedirect("aaaaaa")`
or a visit of the redirect page, is recorded on the first record with that
code: the clicked record keeps `clicks = 0` and an empty history. And a click
on the sample record at the very instant of its expiry, when `isExpired` is
still false, is turned down by `handleRedirect` of `url-shortener.jsx`. -/
theorem click_recorded_fails :
    ((UrlShortener.run acceptAll UrlShortener.duplicateOps).state.urls.map
        (fun u => (u.id, u.shortCode, UrlShortener.isExpired 1700000030000 u.expiryDate))
      = [("k3j9x0q1z", "aaaaaa", false), ("p0o9i8u7y", "aaaaaa", false)]) ∧
    ((UrlShortener.handleRedirect 1700000030000 1700000030000 "aaaaaa"
        (UrlShortener.run acceptAll UrlShortener.duplicateOps).state).1.urls.map
        (fun u => (u.id, u.clicks, u.clickData.length))
      = [("k3j9x0q1z", 1, 1), ("p0o9i8u7y", 0, 0)]) ∧
    ((RedirectPage.effect 1700000030000 1700000030000 "" "aaaaaa"
        (UrlShortener.run acceptAll UrlShortener.duplicateOps).blob).blob.map
        (fun l => l.map (fun u => (u.id, u.clicks, u.clickData.length)))
      = some [("k3j9x0q1z", 1, 1), ("p0o9i8u7y", 0, 0)]) ∧
    (UrlShortener.isExpired 1700001800000 UrlShortener.sampleUrl.expiryDate = false ∧
      UrlShortener.handleRedirect 1700001800000 1700001800000 UrlShortener.sampleUrl.shortCode
          { urls := [UrlShortener.sampleUrl], errors := [] }
        = ({ urls := [UrlShortener.sampleUrl], errors := [] },
            Outcome.reported "Link Expired")) := by
  decide

/-- C8 (the code breaks the claim). At the clock reading equal to the expiry
of the sample record (1700001800000) all three `isExpired` functions answer
false, `handleRedirect` of `app/page.jsx` and the redirect page accept and
record the click, but `handleRedirect` of `url-shortener.jsx`, which tests
`new Date() < url.expiryDate`, reports "Link Expired" and records nothing. -/
theorem click_at_expiry_instant :
    (AppPage.isExpired 1700001800000 AppPage.sampleUrl.expiresAt = false ∧
      UrlShortener.isExpired 1700001800000 UrlShortener.sampleUrl.expiryDate = false ∧
      StatisticsPage.isExpired 1700001800000 AppPage.sampleUrl.expiresAt = false) ∧
    ((AppPage.handleRedirect 1700001800000 "" { num := 5764607523034235, exp := 59 } "Mozilla/5.0"
        AppPage.sampleUrl { shortenedUrls := [AppPage.sampleUrl], error := "" }).2
        = Outcome.opened "https://example.com" ∧
      (AppPage.handleRedirect 1700001800000 "" { num := 5764607523034235, exp := 59 } "Mozilla/5.0"
        AppPage.sampleUrl { shortenedUrls := [AppPage.sampleUrl], error := "" }).1.shortenedUrls.map
          (fun u => (u.clicks, u.clickData.length)) = [(1, 1)]) ∧
    ((RedirectPage.effect 1700001800000 1700001800000 "" "abc123"
        (some [UrlShortener.sampleUrl])).navigateTo = some "https://example.com" ∧
      (RedirectPage.effect 1700001800000 1700001800000 "" "abc123"
        (some [UrlShortener.sampleUrl])).blob.map
          (fun l => l.map (fun u => (u.clicks, u.clickData.length))) = some [(1, 1)]) ∧
    (UrlShortener.handleRedirect 1700001800000 1700001800000 "abc123"
        { urls := [UrlShortener.sampleUrl], errors := [] }
      = ({ urls := [UrlShortener.sampleUrl], errors := [] }, Outcome.reported "Link Expired")) := by
  decide

/-- C9. Each of the three `isExpired` functions (`StatisticsPage.jsx`,
`url-shortener.jsx`, `app/page.jsx`) is monotonic in the clock reading: if it
answers true at `t1`, it answers true at every `t2` with `t1 <= t2`. -/
theorem isExpired_monotone (expiresAt : Date) (t1 t2 : Int) (h : t1 ≤ t2) :
    (StatisticsPage.isExpired t1 expiresAt = true → StatisticsPage.isExpired t2 expiresAt = true) ∧
    (UrlShortener.isExpired t1 expiresAt = true → UrlShortener.isExpired t2 expiresAt = true) ∧
    (AppPage.isExpired t1 expiresAt = true → AppPage.isExpired t2 expiresAt = true) := by
  have key : Date.gt (some t1) expiresAt = true → Date.gt (some t2) expiresAt = true := by
    cases expiresAt with
    | none => intro h1; simp [Date.gt] at h1
    | some e =>
      simp only [Date.gt, decide_eq_true_eq]
      intro h1
      exact lt_of_lt_of_le h1 h
  exact ⟨key, key, key⟩

/-- Witness of C9: the sample expiry 1700001800000, one millisecond and one
hour after it. -/
theorem isExpired_monotone_witness :
    StatisticsPage.isExpired 1700005400000 (some 1700001800000) = true ∧
    UrlShortener.isExpired 1700005400000 (some 1700001800000) = true ∧
    AppPage.isExpired 1700005400000 (some 1700001800000) = true :=
  have h := isExpired_monotone (some 1700001800000) 1700001800001 1700005400000 (by decide)
  ⟨h.1 (by decide), h.2.1 (by decide), h.2.2 (by decide)⟩

/-- C10. `deleteUrl(id)` keeps exactly the records whose id differs from
`id`, in their original order (the result is the sublist of the collection
filtered by `u.id ≠ id`); afterwards no record with that id is in the
collection or found by a lookup by id; when no record has that id the state
is unchanged; and deleting the same id a second time changes nothing more. -/
theorem deleteUrl_removes_exactly (id : String) (s : UrlShortener.State) :
    (UrlShortener.deleteUrl id s).urls = s.urls.filter (fun u => decide (u.id ≠ id)) ∧
    (UrlShortener.deleteUrl id s).urls.Sublist s.urls ∧
    (∀ u, u ∈ (UrlShortener.deleteUrl id s).urls ↔ u ∈ s.urls ∧ u.id ≠ id) ∧
    (UrlShortener.deleteUrl id s).urls.find? (fun u => u.id == id) = none ∧
    ((∀ u ∈ s.urls, u.id ≠ id) → UrlShortener.deleteUrl id s = s) ∧
    UrlShortener.deleteUrl id (UrlShortener.deleteUrl id s) = UrlShortener.deleteUrl id s := by
  have hfilter : (fun (u : UrlShortener.Url) => u.id != id) = (fun u => decide (u.id ≠ id)) := by
    funext u
    by_cases h : u.id = id <;> simp [h]
  refine ⟨?_, ?_, ?_, ?_, ?_, ?_⟩
  · simp only [UrlShortener.deleteUrl, hfilter]
  · exact List.filter_sublist _
  · intro u
    simp only [UrlShortener.deleteUrl, List.mem_filter, bne_iff_ne, ne_eq]
  · rw [List.find?_eq_none]
    intro u hu
    simp only [UrlShortener.deleteUrl, List.mem_filter, bne_iff_ne, ne_eq] at hu
    simp only [beq_iff_eq]
    exact hu.2
  · intro h
    cases s with
    | mk urls errors =>
      simp only [UrlShortener.deleteUrl, UrlShortener.State.mk.injEq, and_true]
      rw [List.filter_eq_self]
      intro u hu
      simp only [bne_iff_ne, ne_eq]
      exact h u hu
  · simp only [UrlShortener.deleteUrl, List.filter_filter, Bool.and_self]

/-- Witness of C10: deleting an id that the only record does not have. -/
theorem deleteUrl_removes_exactly_witness :
    UrlShortener.deleteUrl "p0o9i8u7y" { urls := [UrlShortener.sampleUrl], errors := [] }
      = { urls := [UrlShortener.sampleUrl], errors := [] } :=
  (deleteUrl_removes_exactly "p0o9i8u7y"
    { urls := [UrlShortener.sampleUrl], errors := [] }).2.2.2.2.1 (by decide)

/-! ### Statistics -/

theorem page_counter_matches_history (isValidUrl : String → Bool) (appOps : List AppPage.Op) :
    ∀ u ∈ (AppPage.run isValidUrl appOps).shortenedUrls, u.clicks = u.clickData.length := by
  apply AppPage.page_run_all (fun u => u.clicks = u.clickData.length) (fun _ => True) isValidUrl
    _ _ appOps (fun _ _ => trivial)
  · intro u c hu
    simp only [List.length_append, List.length_singleton, hu]
  · intro rand now idNow f code _ _
    rfl


theorem length_filter_enumFrom (g : Int → AppPage.Url → Bool) (now : Int) (clock : Nat → Int)
    (l : List AppPage.Url) (n : Nat) (hclock : ∀ i, clock i = now) :
    ((l.enumFrom n).filter (fun p => g (clock p.1) p.2)).length
      = (l.filter (fun u => g now u)).length := by
  induction l generalizing n with
  | nil => rfl
  | cons u us ih =>
    simp only [List.enumFrom_cons, List.filter_cons, hclock n]
    by_cases h : g now u = true
    · simp only [h, if_true, List.length_cons, ih]
    · have h2 : g now u = false := Bool.eq_false_iff.mpr h
      simp only [h2, Bool.false_eq_true, if_false, ih]

theorem length_filter_add_length_filter_not (p : AppPage.Url → Bool) (l : List AppPage.Url) :
    (l.filter p).length + (l.filter (fun u => !p u)).length = l.length := by
  induction l with
  | nil => rfl
  | cons u us ih =>
    by_cases h : p u = true
    · simp only [List.filter_cons, h, if_true, Bool.not_true, List.length_cons]
      simp only [Bool.false_eq_true, if_false]
      omega
    · have h2 : p u = false := Bool.eq_false_iff.mpr h
      simp only [List.filter_cons, h2, Bool.not_false, if_true, List.length_cons]
      simp only [Bool.false_eq_true, if_false]
      omega

/-- C11 (as amended). For every list of records: `totalUrls` is the number
of records; whatever the clock readings, `activeUrls + expiredUrls =
totalUrls` with neither count negative; and when every reading of the render
is the instant `now`, `activeUrls` is the number of records for which
`now > expiry` is false and `expiredUrls` the number of records with
`now > expiry`. When in addition every expiry is a valid date, `activeUrls` is
the number of records with `now <= expiry`. -/
theorem summary_counts (clock : Nat → Int) (now : Int) (shortenedUrls : List AppPage.Url) :
    StatisticsPage.totalUrls shortenedUrls = shortenedUrls.length ∧
    ((StatisticsPage.activeUrls clock shortenedUrls : Int)
        + StatisticsPage.expiredUrls clock shortenedUrls
      = (StatisticsPage.totalUrls shortenedUrls : Int) ∧
      0 ≤ StatisticsPage.expiredUrls clock shortenedUrls) ∧
    ((∀ i, clock i = now) →
      StatisticsPage.activeUrls clock shortenedUrls
        = (shortenedUrls.filter (fun u => !Date.gt (some now) u.expiresAt)).length ∧
      StatisticsPage.expiredUrls clock shortenedUrls
        = ((shortenedUrls.filter (fun u => Date.gt (some now) u.expiresAt)).length : Int) ∧
      ((∀ u ∈ shortenedUrls, u.expiresAt ≠ none) →
        StatisticsPage.activeUrls clock shortenedUrls
          = (shortenedUrls.filter (fun u => Date.le (some now) u.expiresAt)).length)) := by
  have hle : StatisticsPage.activeUrls clock shortenedUrls ≤ shortenedUrls.length := by
    unfold StatisticsPage.activeUrls
    calc _ ≤ shortenedUrls.enum.length := List.length_filter_le _ _
      _ = shortenedUrls.length := List.enum_length
  refine ⟨rfl, ⟨?_, ?_⟩, ?_⟩
  · simp only [StatisticsPage.expiredUrls]; omega
  · simp only [StatisticsPage.expiredUrls, StatisticsPage.totalUrls]; omega
  · intro hclock
    have hact : StatisticsPage.activeUrls clock shortenedUrls
        = (shortenedUrls.filter (fun u => !Date.gt (some now) u.expiresAt)).length := by
      unfold StatisticsPage.activeUrls StatisticsPage.isExpired List.enum
      exact length_filter_enumFrom (fun t u => !Date.gt (some t) u.expiresAt) now clock
        shortenedUrls 0 hclock
    refine ⟨hact, ?_, ?_⟩
    · have hsum := length_filter_add_length_filter_not
        (fun u => Date.gt (some now) u.expiresAt) shortenedUrls
      simp only [StatisticsPage.expiredUrls, StatisticsPage.totalUrls, hact]
      omega
    · intro hvalid
      rw [hact]
      congr 1
      apply List.filter_congr
      intro u hu
      cases he : u.expiresAt with
      | none => exact absurd he (hvalid u hu)
      | some e =>
        simp only [Date.gt, Date.le]
        by_cases h : e < now
        · simp [h, not_le.mpr h]
        · simp [h, not_lt.mp h]

/-- Witness of C11: three records, of which one expired, read at
1700002000000. -/
theorem summary_counts_witness :
    StatisticsPage.activeUrls (fun _ => 1700002000000)
        [AppPage.sampleUrl, { AppPage.sampleUrl with expiresAt := some 1700003600000 },
         { AppPage.sampleUrl with expiresAt := some 1700007200000 }] = 2 ∧
    StatisticsPage.expiredUrls (fun _ => 1700002000000)
        [AppPage.sampleUrl, { AppPage.sampleUrl with expiresAt := some 1700003600000 },
         { AppPage.sampleUrl with expiresAt := some 1700007200000 }] = 1 ∧
    StatisticsPage.totalUrls
        [AppPage.sampleUrl, { AppPage.sampleUrl with expiresAt := some 1700003600000 },
         { AppPage.sampleUrl with expiresAt := some 1700007200000 }] = 3 :=
  have h := summary_counts (fun _ => 1700002000000) 1700002000000
    [AppPage.sampleUrl, { AppPage.sampleUrl with expiresAt := some 1700003600000 },
     { AppPage.sampleUrl with expiresAt := some 1700007200000 }]
  have h3 := h.2.2 (fun _ => rfl)
  ⟨(h3.2.2 (by decide)).trans (by decide), h3.2.1.trans (by decide), h.1.trans (by decide)⟩

/-- C11 (counterexample to the claim as stated). The record left by the
create of `overflowOps` has an Invalid Date as expiry: at 1700000060000 it is
counted in `activeUrls`, although `now <= expiry` is false for it as well as
`now > expiry`. -/
theorem summary_counts_fails :
    StatisticsPage.activeUrls (fun _ => 1700000060000)
        (AppPage.run acceptAll AppPage.overflowOps).shortenedUrls = 1 ∧
    ((AppPage.run acceptAll AppPage.overflowOps).shortenedUrls.filter
        (fun u => Date.le (some 1700000060000) u.expiresAt)).length = 0 ∧
    ((AppPage.run acceptAll AppPage.overflowOps).shortenedUrls.filter
        (fun u => Date.gt (some 1700000060000) u.expiresAt)).length = 0 := by
  decide

theorem foldl_clicks_eq (l : List AppPage.Url) (a : Nat) :
    l.foldl (fun sum url => sum + url.clicks) a = a + (l.map (fun u => u.clicks)).sum := by
  induction l generalizing a with
  | nil => simp
  | cons u us ih =>
    simp only [List.foldl_cons, ih, List.map_cons, List.sum_cons]
    omega

theorem sum_clicks_recordClick (url : AppPage.Url) (c : AppPage.ClickData)
    (l : List AppPage.Url) :
    ((AppPage.recordClick url c l).map (fun u => u.clicks)).sum
      = (l.map (fun u => u.clicks)).sum + (l.filter (fun u => decide (u.id = url.id))).length := by
  induction l with
  | nil => rfl
  | cons u us ih =>
    simp only [AppPage.recordClick, List.map_cons, List.sum_cons, List.filter_cons] at ih ⊢
    by_cases h : u.id = url.id
    · simp only [h, if_true, decide_True, List.length_cons, ih]
      omega
    · simp only [h, if_false, decide_False, ih]
      simp only [Bool.false_eq_true, if_false]
      omega

/-- C12 (as amended). For every list of records `totalClicks` is the sum of
the `clicks` counters (0 for the empty list); in every collection reached
from the empty one by creates and clicks it is the total number of click
events held in the click histories; and an accepted click raises
`totalClicks` by the number of records of the collection that carry the id of
the clicked record, hence by exactly 1 when the clicked record is the only
one with its id. -/
theorem totalClicks_is_sum (isValidUrl : String → Bool) (shortenedUrls : List AppPage.Url)
    (ops : List AppPage.Op) (now : Int) (referrer : String) (r : Draw) (userAgent : String)
    (url : AppPage.Url) (s : AppPage.State)
    (hurl : Date.gt (some now) url.expiresAt = false) :
    StatisticsPage.totalClicks shortenedUrls = (shortenedUrls.map (fun u => u.clicks)).sum ∧
    StatisticsPage.totalClicks [] = 0 ∧
    StatisticsPage.totalClicks (AppPage.run isValidUrl ops).shortenedUrls
      = ((AppPage.run isValidUrl ops).shortenedUrls.map (fun u => u.clickData.length)).sum ∧
    StatisticsPage.totalClicks
        (AppPage.handleRedirect now referrer r userAgent url s).1.shortenedUrls
      = StatisticsPage.totalClicks s.shortenedUrls
        + (s.shortenedUrls.filter (fun u => decide (u.id = url.id))).length ∧
    (s.shortenedUrls.filter (fun u => decide (u.id = url.id)) = [url] →
      StatisticsPage.totalClicks
          (AppPage.handleRedirect now referrer r userAgent url s).1.shortenedUrls
        = StatisticsPage.totalClicks s.shortenedUrls + 1) := by
  have hsum : ∀ l, StatisticsPage.totalClicks l = (l.map (fun u => u.clicks)).sum := by
    intro l
    simp only [StatisticsPage.totalClicks, foldl_clicks_eq, Nat.zero_add]
  have hclick : StatisticsPage.totalClicks
        (AppPage.handleRedirect now referrer r userAgent url s).1.shortenedUrls
      = StatisticsPage.totalClicks s.shortenedUrls
        + (s.shortenedUrls.filter (fun u => decide (u.id = url.id))).length := by
    simp only [AppPage.handleRedirect, hurl, Bool.false_eq_true, if_false, hsum,
      sum_clicks_recordClick]
  refine ⟨hsum _, rfl, ?_, hclick, ?_⟩
  · rw [hsum]
    congr 1
    apply List.map_congr_left
    intro u hu
    exact (page_counter_matches_history isValidUrl ops) u hu
  · intro h1
    rw [hclick, h1]
    rfl

/-- Witness of C12: one click on the only record of the collection. -/
theorem totalClicks_is_sum_witness :
    StatisticsPage.totalClicks
        (AppPage.handleRedirect 1700000060000 "" { num := 5764607523034235, exp := 59 } "Mozilla/5.0"
          AppPage.sampleUrl { shortenedUrls := [AppPage.sampleUrl], error := "" }).1.shortenedUrls
      = StatisticsPage.totalClicks [AppPage.sampleUrl] + 1 :=
  (totalClicks_is_sum acceptAll [AppPage.sampleUrl] AppPage.sampleOps 1700000060000 ""
    { num := 5764607523034235, exp := 59 } "Mozilla/5.0" AppPage.sampleUrl
    { shortenedUrls := [AppPage.sampleUrl], error := "" } (by decide)).2.2.2.2 (by decide)

/-- C12 (counterexample to the claim as stated). The two creates of
`sameIdOps` read the same value of `Date.now()` and so carry the same id;
the accepted click on the first of them at 1700000060000 updates both records
and raises `totalClicks` from 0 to 2. -/
theorem totalClicks_is_sum_fails :
    (AppPage.run acceptAll AppPage.sameIdOps).shortenedUrls.map
        (fun u => (u.id, u.shortcode, u.clicks))
      = [(1700000000000, "xyz789", 0), (1700000000000, "abc123", 0)] ∧
    (AppPage.handleRedirect 1700000060000 "" { num := 5764607523034235, exp := 59 } "Mozilla/5.0"
        AppPage.sampleUrl (AppPage.run acceptAll AppPage.sameIdOps)).2
      = Outcome.opened "https://example.com" ∧
    StatisticsPage.totalClicks (AppPage.run acceptAll AppPage.sameIdOps).shortenedUrls = 0 ∧
    StatisticsPage.totalClicks
        (AppPage.handleRedirect 1700000060000 "" { num := 5764607523034235, exp := 59 } "Mozilla/5.0"
          AppPage.sampleUrl (AppPage.run acceptAll AppPage.sameIdOps)).1.shortenedUrls = 2 := by
  decide

/-- C13. For every record the clicks shown in the detail view are the
reverse of the record's `clickData`: the same events, as many of them, the
event appended last shown first; the record itself, its `clickData` included,
is left as it was (the reversal works on a copy); and when the timestamps of
`clickData` are non-decreasing in the order of recording, the timestamps shown
are non-increasing. -/
theorem detail_view_reversed (url : AppPage.Url) :
    (StatisticsPage.clickRows url).1 = url ∧
    (StatisticsPage.clickRows url).2 = url.clickData.reverse ∧
    (StatisticsPage.clickRows url).2.length = url.clickData.length ∧
    (∀ c, c ∈ (StatisticsPage.clickRows url).2 ↔ c ∈ url.clickData) ∧
    (StatisticsPage.clickRows url).2.head? = url.clickData.getLast? ∧
    (url.clickData.Pairwise (fun a b => Date.le a.timestamp b.timestamp = true) →
      (StatisticsPage.clickRows url).2.Pairwise
        (fun a b => Date.le b.timestamp a.timestamp = true)) := by
  have hrows : (StatisticsPage.clickRows url).2 = url.clickData.reverse := by
    unfold StatisticsPage.clickRows
    split_ifs with h
    · rfl
    · have h0 : url.clickData = [] := List.length_eq_zero.mp (by omega)
      rw [h0]; rfl
  have hfst : (StatisticsPage.clickRows url).1 = url := by
    unfold StatisticsPage.clickRows
    split_ifs <;> rfl
  refine ⟨hfst, hrows, ?_, ?_, ?_, ?_⟩
  · rw [hrows, List.length_reverse]
  · intro c
    rw [hrows, List.mem_reverse]
  · rw [hrows, List.head?_reverse]
  · intro h
    rw [hrows, List.pairwise_reverse]
    exact h

/-- Witness of C13: the record with two clicks, the later one shown first. -/
theorem detail_view_reversed_witness :
    (StatisticsPage.clickRows AppPage.twiceClickedUrl).2.map (fun c => c.timestamp)
        = [some 1700000090000, some 1700000060000] ∧
    (StatisticsPage.clickRows AppPage.twiceClickedUrl).2.Pairwise
        (fun a b => Date.le b.timestamp a.timestamp = true) :=
  have h := detail_view_reversed AppPage.twiceClickedUrl
  ⟨(congrArg (List.map (fun c => c.timestamp)) h.2.1).trans (by decide),
    h.2.2.2.2.2 (by decide)⟩

/-! ### Click histories only grow -/

theorem AppPage.page_recordClick_grows (url : AppPage.Url) (c : AppPage.ClickData)
    (l : List AppPage.Url) :
    List.Forall₂ (fun u v => { v with clicks := u.clicks, clickData := u.clickData } = u ∧
      u.clickData <+: v.clickData) l (AppPage.recordClick url c l) := by
  rw [AppPage.recordClick, List.forall₂_map_right_iff, List.forall₂_same]
  intro u _
  split_ifs
  · exact ⟨rfl, List.prefix_append _ _⟩
  · exact ⟨rfl, List.prefix_refl _⟩

theorem UrlShortener.shortener_recordClick_grows (url : UrlShortener.Url)
    (c : UrlShortener.ClickData) (l : List UrlShortener.Url) :
    List.Forall₂ (fun u v => { v with clicks := u.clicks, clickData := u.clickData } = u ∧
      u.clickData <+: v.clickData) l (UrlShortener.recordClick url c l) := by
  rw [UrlShortener.recordClick, List.forall₂_map_right_iff, List.forall₂_same]
  intro u _
  split_ifs
  · exact ⟨rfl, List.prefix_append _ _⟩
  · exact ⟨rfl, List.prefix_refl _⟩

/-- C14. No handler removes, reorders or alters a click event of a record
that stays in the collection. A create keeps all former records as they are
(after the new record in `app/page.jsx`, before it in `url-shortener.jsx`); a
click, accepted or not and on whatever record, keeps the number and order of
the records and turns each record into one that differs at most in `clicks`
and in a click history of which the former history is a prefix; `deleteUrl`
keeps every record with another id as it is, in the same order. -/
theorem click_history_append_only
    (isValidUrl : String → Bool) (rand : Nat → Draw) (now idNow : Int) (id : String)
    (f : AppPage.Form) (s : AppPage.State) (g : UrlShortener.Form) (t : UrlShortener.State)
    (referrer : String) (r : Draw) (userAgent : String) (url : AppPage.Url)
    (nowCheck nowStamp : Int) (shortCode : String) (deleted : String) :
    (s.shortenedUrls <:+ (AppPage.handleSubmit isValidUrl rand now idNow f s).shortenedUrls) ∧
    List.Forall₂ (fun u v => { v with clicks := u.clicks, clickData := u.clickData } = u ∧
        u.clickData <+: v.clickData)
      s.shortenedUrls (AppPage.handleRedirect now referrer r userAgent url s).1.shortenedUrls ∧
    (t.urls <+: (UrlShortener.handleSubmit isValidUrl rand now id g t).urls) ∧
    List.Forall₂ (fun u v => { v with clicks := u.clicks, clickData := u.clickData } = u ∧
        u.clickData <+: v.clickData)
      t.urls (UrlShortener.handleRedirect nowCheck nowStamp shortCode t).1.urls ∧
    ((UrlShortener.deleteUrl deleted t).urls.Sublist t.urls ∧
      ∀ u ∈ t.urls, u.id ≠ deleted → u ∈ (UrlShortener.deleteUrl deleted t).urls) := by
  have hreflA : ∀ l : List AppPage.Url,
      List.Forall₂ (fun u v => { v with clicks := u.clicks, clickData := u.clickData } = u ∧
        u.clickData <+: v.clickData) l l := by
    intro l
    rw [List.forall₂_same]
    intro u _
    exact ⟨rfl, List.prefix_refl _⟩
  have hreflU : ∀ l : List UrlShortener.Url,
      List.Forall₂ (fun u v => { v with clicks := u.clicks, clickData := u.clickData } = u ∧
        u.clickData <+: v.clickData) l l := by
    intro l
    rw [List.forall₂_same]
    intro u _
    exact ⟨rfl, List.prefix_refl _⟩
  refine ⟨?_, ?_, ?_, ?_, ?_, ?_⟩
  · rcases AppPage.page_handleSubmit_cases isValidUrl rand now idNow f s with h | ⟨_, code, h⟩
    · exact h.1.symm ▸ List.suffix_refl _
    · rw [h]; exact List.suffix_cons _ _
  · simp only [AppPage.handleRedirect]
    split_ifs
    · exact hreflA _
    · exact AppPage.page_recordClick_grows _ _ _
  · rcases UrlShortener.shortener_handleSubmit_cases isValidUrl rand now id g t with
      h | ⟨_, code, h⟩
    · exact h.1.symm ▸ List.prefix_refl _
    · rw [h]; exact List.prefix_append _ _
  · rcases UrlShortener.handleRedirect_cases nowCheck nowStamp shortCode t with
      ⟨msg, h⟩ | ⟨found, c, h⟩
    · rw [h]; exact hreflU _
    · rw [h]; exact UrlShortener.shortener_recordClick_grows _ _ _
  · exact List.filter_sublist _
  · intro u hu hne
    simp only [UrlShortener.deleteUrl, List.mem_filter, bne_iff_ne, ne_eq]
    exact ⟨hu, hne⟩

/-- Witness of C14: deleting the second record of a collection keeps the
clicked sample record. -/
theorem click_history_append_only_witness :
    UrlShortener.clickedUrl ∈ (UrlShortener.deleteUrl "p0o9i8u7y"
      { urls := [UrlShortener.clickedUrl, { UrlShortener.sampleUrl with id := "p0o9i8u7y" }],
        errors := [] }).urls :=
  (click_history_append_only acceptAll lowDraws 1700000000000 1700000000000 "k3j9x0q1z"
    { originalUrl := "https://example.com", validityMinutes := 30, customShortcode := "abc123" }
    AppPage.init
    { originalUrl := "https://example.com", validityMinutes := 30, customShortcode := "abc123" }
    { urls := [UrlShortener.clickedUrl, { UrlShortener.sampleUrl with id := "p0o9i8u7y" }],
      errors := [] }
    "" { num := 5764607523034235, exp := 59 } "Mozilla/5.0" AppPage.sampleUrl
    1700000060000 1700000060001 "abc123" "p0o9i8u7y").2.2.2.2.2
    UrlShortener.clickedUrl (by decide) (by decide)

/-! ### Validation -/

/-- C15 (as amended). `handleSubmit` of `app/page.jsx` reports one error,
that of the first failing check in the order (1) URL non-empty and parseable,
(2) `validityMinutes > 0`, (3) custom code unique, (4) custom code
alphanumeric (no error when no check fails), and a failing check leaves the
collection as it is. `validateForm` of `url-shortener.jsx` evaluates all four
checks and reports the errors of all the failing ones, in that order;
`handleSubmit` stores that list and leaves the collection as it is when the
list is not empty. -/
theorem validation_order
    (isValidUrl : String → Bool) (rand : Nat → Draw) (now idNow : Int) (id : String)
    (f : AppPage.Form) (s : AppPage.State) (g : UrlShortener.Form) (t : UrlShortener.State) :
    (AppPage.handleSubmit isValidUrl rand now idNow f s).error
      = ((((AppPage.checks isValidUrl f s.shortenedUrls).filter (fun c => c.1)).head?).map
          (fun c => c.2)).getD "" ∧
    ((AppPage.checks isValidUrl f s.shortenedUrls).filter (fun c => c.1) ≠ [] →
      (AppPage.handleSubmit isValidUrl rand now idNow f s).shortenedUrls = s.shortenedUrls) ∧
    UrlShortener.validateForm isValidUrl g t.urls
      = ((UrlShortener.checks isValidUrl g t.urls).filter (fun c => c.1)).map (fun c => c.2) ∧
    ((UrlShortener.checks isValidUrl g t.urls).filter (fun c => c.1) ≠ [] →
      UrlShortener.handleSubmit isValidUrl rand now id g t
        = { urls := t.urls,
            errors := ((UrlShortener.checks isValidUrl g t.urls).filter (fun c => c.1)).map
              (fun c => c.2) }) := by
  have hval : UrlShortener.validateForm isValidUrl g t.urls
      = ((UrlShortener.checks isValidUrl g t.urls).filter (fun c => c.1)).map (fun c => c.2) := by
    unfold UrlShortener.validateForm UrlShortener.checks
    cases truthy g.originalUrl <;> cases isValidUrl g.originalUrl <;>
      cases truthy g.customShortcode <;> cases UrlShortener.isShortCodeUnique t.urls g.customShortcode <;>
      cases alnumTest g.customShortcode <;>
      by_cases hv : g.validityMinutes ≤ 0 <;> simp [hv, List.filter]
  refine ⟨?_, ?_, hval, ?_⟩
  · unfold AppPage.handleSubmit AppPage.checks
    cases truthy f.originalUrl <;> cases isValidUrl f.originalUrl <;>
      cases truthy f.customShortcode <;> cases AppPage.isShortcodeUnique s.shortenedUrls f.customShortcode <;>
      cases alnumTest f.customShortcode <;>
      by_cases hv : f.validityMinutes ≤ 0 <;> simp [hv, List.filter]
  · unfold AppPage.handleSubmit AppPage.checks
    cases truthy f.originalUrl <;> cases isValidUrl f.originalUrl <;>
      cases truthy f.customShortcode <;> cases AppPage.isShortcodeUnique s.shortenedUrls f.customShortcode <;>
      cases alnumTest f.customShortcode <;>
      by_cases hv : f.validityMinutes ≤ 0 <;> simp [hv, List.filter]
  · intro hne
    unfold UrlShortener.handleSubmit
    simp only
    rw [hval]
    have hlen : (((UrlShortener.checks isValidUrl g t.urls).filter (fun c => c.1)).map
        (fun c => c.2)).length ≠ 0 := by
      rw [List.length_map]
      exact fun h0 => hne (List.length_eq_zero.mp h0)
    rw [if_pos hlen]

/-- Witness of C15: an empty URL, validity 0 and the custom code `abc 123`
submitted to `app/page.jsx`. -/
theorem validation_order_witness :
    (AppPage.handleSubmit acceptAll lowDraws 1700000000000 1700000000000
        { originalUrl := "", validityMinutes := 0, customShortcode := "abc 123" }
        { shortenedUrls := [AppPage.sampleUrl], error := "" }).error = "Please enter a URL" ∧
    (AppPage.handleSubmit acceptAll lowDraws 1700000000000 1700000000000
        { originalUrl := "", validityMinutes := 0, customShortcode := "abc 123" }
        { shortenedUrls := [AppPage.sampleUrl], error := "" }).shortenedUrls
      = [AppPage.sampleUrl] :=
  have h := validation_order acceptAll lowDraws 1700000000000 1700000000000 "k3j9x0q1z"
    { originalUrl := "", validityMinutes := 0, customShortcode := "abc 123" }
    { shortenedUrls := [AppPage.sampleUrl], error := "" }
    { originalUrl := "", validityMinutes := 0, customShortcode := "abc 123" }
    { urls := [UrlShortener.sampleUrl], errors := [] }
  ⟨h.1.trans (by decide), h.2.1 (by decide)⟩

/-- C15 (counterexample to the claim as stated). The same submission (empty
URL, validity 0, custom code `abc 123`) fails three checks; `handleSubmit` of
`url-shortener.jsx` reports three errors, not only the first. -/
theorem validation_order_fails :
    (UrlShortener.handleSubmit acceptAll lowDraws 1700000000000 "k3j9x0q1z"
        { originalUrl := "", validityMinutes := 0, customShortcode := "abc 123" }
        { urls := [UrlShortener.sampleUrl], errors := [] }).errors
      = ["Original URL is required", "Validity must be greater than 0",
         "Custom shortcode must be alphanumeric"] := by
  decide

/-! ### Code generator -/

theorem chars_get_alnum : ∀ i, i < 62 → (chars.data.get? i).map isAlnum = some true := by
  decide

theorem charAt_chars_lt (i : Nat) (hi : i < 62) :
    ∃ c, charAt chars i = String.singleton c ∧ isAlnum c = true ∧ c ∈ chars.data := by
  have h := chars_get_alnum i hi
  cases hc : chars.data.get? i with
  | none => rw [hc] at h; simp at h
  | some c =>
    rw [hc] at h
    simp only [Option.map_some', Option.some.injEq] at h
    exact ⟨c, by simp only [charAt, hc], h, List.get?_mem hc⟩

/-- The index of a double below 1 is below 62: the exact product is at most
`62 * 2 ^ exp - 62` and has at most 59 digits, so the rounding adds at most
32 to it. -/
theorem randomIndex_lt (r : Draw) (h : r.num < 2 ^ 53 ∧ r.num < 2 ^ r.exp) :
    randomIndex r chars.length < 62 := by
  have hl : chars.length = 62 := by decide
  rw [hl, randomIndex]
  apply Nat.div_lt_of_lt_mul
  have h1 : r.num * 62 < 2 ^ 59 := by omega
  have h2 := roundSignificand_le_add _ h1
  have h4 : r.num + 1 ≤ 2 ^ r.exp := h.2
  have h5 : (r.num + 1) * 62 ≤ 2 ^ r.exp * 62 := Nat.mul_le_mul_right _ h4
  rw [Nat.add_mul] at h5
  omega

/-- The product is rounded before `Math.floor` is applied: for the draw
0.25806451612903225 the exact product with 62 is below 16 (its integer part
is 15), the double nearest to it is 16, and the index is 16. -/
theorem randomIndex_of_rounded_product :
    1162219258676257 * 62 / 2 ^ 52 = 15 ∧
    randomIndex { num := 1162219258676257, exp := 52 } chars.length = 16 ∧
    randomIndex { num := 9007199254740991, exp := 53 } chars.length = 61 ∧
    generateShortcode edgeDraws = "9q9q9q" := by
  decide

theorem generateShortcode_eq_chars (rand : Nat → Draw) (h : ∀ i, i < 6 → (rand i).num < 2 ^ 53 ∧ (rand i).num < 2 ^ (rand i).exp) :
    ∃ c0 c1 c2 c3 c4 c5 : Char, generateShortcode rand = String.mk [c0, c1, c2, c3, c4, c5] ∧
      (∀ c ∈ [c0, c1, c2, c3, c4, c5], isAlnum c = true ∧ c ∈ chars.data) := by
  obtain ⟨c0, h0, a0, m0⟩ := charAt_chars_lt _ (randomIndex_lt _ (h 0 (by decide)))
  obtain ⟨c1, h1, a1, m1⟩ := charAt_chars_lt _ (randomIndex_lt _ (h 1 (by decide)))
  obtain ⟨c2, h2, a2, m2⟩ := charAt_chars_lt _ (randomIndex_lt _ (h 2 (by decide)))
  obtain ⟨c3, h3, a3, m3⟩ := charAt_chars_lt _ (randomIndex_lt _ (h 3 (by decide)))
  obtain ⟨c4, h4, a4, m4⟩ := charAt_chars_lt _ (randomIndex_lt _ (h 4 (by decide)))
  obtain ⟨c5, h5, a5, m5⟩ := charAt_chars_lt _ (randomIndex_lt _ (h 5 (by decide)))
  refine ⟨c0, c1, c2, c3, c4, c5, ?_, ?_⟩
  · simp only [generateShortcode, List.range, List.range.loop, List.foldl, h0, h1, h2, h3, h4, h5]
    rfl
  · intro c hc
    simp only [List.mem_cons, List.mem_singleton, List.not_mem_nil, or_false] at hc
    rcases hc with rfl | rfl | rfl | rfl | rfl | rfl
    · exact ⟨a0, m0⟩
    · exact ⟨a1, m1⟩
    · exact ⟨a2, m2⟩
    · exact ⟨a3, m3⟩
    · exact ⟨a4, m4⟩
    · exact ⟨a5, m5⟩

/-- C17. When each of the six draws is a double that is at least 0 and
below 1 (`num / 2 ^ exp` with `num < 2 ^ 53` and `num < 2 ^ exp`), every
index `Math.floor(r * 62)`, the integer part of the rounded product, is
within 0..61 and the generator returns a string of exactly 6 characters, each
of them a member of the 62-symbol alphabet `chars`; the generated code passes
the test `^[a-zA-Z0-9]+$` of the custom codes. This holds for
`generateShortcode` of `app/page.jsx` and for `generateShortCode` of
`url-shortener.jsx`. -/
theorem generated_code_well_formed (rand : Nat → Draw)
    (h : ∀ i, i < 6 → (rand i).num < 2 ^ 53 ∧ (rand i).num < 2 ^ (rand i).exp) :
    chars.length = 62 ∧
    (∀ i, i < 6 → randomIndex (rand i) chars.length < 62) ∧
    ((generateShortcode rand).length = 6 ∧
      (∀ c ∈ (generateShortcode rand).data, c ∈ chars.data) ∧
      alnumTest (generateShortcode rand) = true) ∧
    ((UrlShortener.generateShortCode rand).length = 6 ∧
      (∀ c ∈ (UrlShortener.generateShortCode rand).data, c ∈ chars.data) ∧
      alnumTest (UrlShortener.generateShortCode rand) = true) := by
  have hsame : UrlShortener.generateShortCode rand = generateShortcode rand := rfl
  obtain ⟨c0, c1, c2, c3, c4, c5, heq, hall⟩ := generateShortcode_eq_chars rand h
  have key : (generateShortcode rand).length = 6 ∧
      (∀ c ∈ (generateShortcode rand).data, c ∈ chars.data) ∧
      alnumTest (generateShortcode rand) = true := by
    rw [heq]
    refine ⟨rfl, fun c hc => (hall c hc).2, ?_⟩
    simp only [alnumTest, List.isEmpty_cons, Bool.not_false, Bool.true_and, List.all_eq_true]
    exact fun c hc => (hall c hc).1
  refine ⟨by decide, fun i hi => randomIndex_lt _ (h i hi), key, ?_⟩
  rw [hsame]
  exact key

/-- Witness of C17: the draws `edgeDraws`, which alternate the largest double
below 1 and 0.25806451612903225. -/
theorem generated_code_well_formed_witness :
    (∀ i, i < 6 → randomIndex (edgeDraws i) chars.length < 62) ∧
    (generateShortcode edgeDraws).length = 6 ∧ alnumTest (generateShortcode edgeDraws) = true ∧
    (UrlShortener.generateShortCode edgeDraws).length = 6 ∧
    alnumTest (UrlShortener.generateShortCode edgeDraws) = true :=
  have h := generated_code_well_formed edgeDraws (by decide)
  ⟨h.2.1, h.2.2.1.1, h.2.2.1.2.2, h.2.2.2.1, h.2.2.2.2.2⟩

/-! ### Short codes of the stored records -/

theorem AppPage.page_handleSubmit_code (isValidUrl : String → Bool) (rand : Nat → Draw)
    (now idNow : Int) (f : AppPage.Form) (s : AppPage.State) :
    ((AppPage.handleSubmit isValidUrl rand now idNow f s).shortenedUrls = s.shortenedUrls ∧
      (AppPage.handleSubmit isValidUrl rand now idNow f s).error ≠ "") ∨
    (∃ code, (alnumTest code = true ∨ code = generateShortcode rand) ∧
      AppPage.handleSubmit isValidUrl rand now idNow f s
        = { shortenedUrls := AppPage.newUrl f code now idNow :: s.shortenedUrls, error := "" }) := by
  unfold AppPage.handleSubmit
  split_ifs with h1 h2 h3 h4 h5 h6
  · left; exact ⟨rfl, by simp⟩
  · left; exact ⟨rfl, by simp⟩
  · left; exact ⟨rfl, by simp⟩
  · left; exact ⟨rfl, by simp⟩
  · left; exact ⟨rfl, by simp⟩
  · right
    refine ⟨_, Or.inl ?_, rfl⟩
    simp only [h6, Bool.true_and, Bool.not_eq_true', Bool.not_eq_false] at h5
    exact h5
  · right; exact ⟨_, Or.inr rfl, rfl⟩

theorem UrlShortener.validateForm_nil_alnum (validateUrl : String → Bool)
    (f : UrlShortener.Form) (urls : List UrlShortener.Url)
    (h : UrlShortener.validateForm validateUrl f urls = [])
    (hc : truthy f.customShortcode = true) : alnumTest f.customShortcode = true := by
  by_contra ha
  have ha2 : alnumTest f.customShortcode = false := Bool.eq_false_iff.mpr ha
  unfold UrlShortener.validateForm at h
  simp only [hc, ha2, Bool.not_false, Bool.and_self, if_true, Bool.true_and] at h
  simp at h

theorem UrlShortener.shortener_handleSubmit_code (validateUrl : String → Bool)
    (rand : Nat → Draw) (now : Int) (id : String) (f : UrlShortener.Form)
    (s : UrlShortener.State) :
    ((UrlShortener.handleSubmit validateUrl rand now id f s).urls = s.urls ∧
      (UrlShortener.handleSubmit validateUrl rand now id f s).errors ≠ []) ∨
    (∃ code, (alnumTest code = true ∨ code = UrlShortener.generateShortCode rand) ∧
      UrlShortener.handleSubmit validateUrl rand now id f s
        = { urls := s.urls ++ [UrlShortener.newUrl f code now id], errors := [] }) := by
  rcases UrlShortener.shortener_handleSubmit_cases validateUrl rand now id f s with
    h | ⟨_, code, h⟩
  · left; exact h
  · right
    have herr : (UrlShortener.handleSubmit validateUrl rand now id f s).errors = [] := by
      rw [h]
    have hacc := UrlShortener.shortener_handleSubmit_accepted validateUrl rand now id f s herr
    have hnil : UrlShortener.validateForm validateUrl f s.urls = [] := by
      by_contra hne
      have hlen : (UrlShortener.validateForm validateUrl f s.urls).length ≠ 0 :=
        fun h0 => hne (List.length_eq_zero.mp h0)
      unfold UrlShortener.handleSubmit at herr
      simp only at herr
      rw [if_pos hlen] at herr
      exact hne herr
    by_cases hc : truthy f.customShortcode = true
    · refine ⟨f.customShortcode,
        Or.inl (UrlShortener.validateForm_nil_alnum _ _ _ hnil hc), ?_⟩
      rw [hacc, if_pos hc]
    · refine ⟨UrlShortener.generateShortCode rand, Or.inr rfl, ?_⟩
      rw [hacc, if_neg hc]

/-- The variant of the invariant rule of `app/page.jsx` in which the property
may depend on the short code of the new record: a custom code that passed
the pattern test, or a generated code. -/
theorem AppPage.page_run_codes (P : AppPage.Url → Prop)
    (isValidUrl : String → Bool)
    (hclick : ∀ u c, P u →
      P { u with clicks := u.clicks + 1, clickData := u.clickData ++ [c] })
    (hnew : ∀ rand now idNow f code,
      (alnumTest code = true ∨ code = generateShortcode rand) →
      P (AppPage.newUrl f code now idNow))
    (ops : List AppPage.Op) :
    ∀ u ∈ (AppPage.run isValidUrl ops).shortenedUrls, P u := by
  have key : ∀ (ops : List AppPage.Op) (s : AppPage.State),
      (∀ u ∈ s.shortenedUrls, P u) →
      ∀ u ∈ (ops.foldl (AppPage.step isValidUrl) s).shortenedUrls, P u := by
    intro ops
    induction ops with
    | nil => intro s hs; exact hs
    | cons op rest ih =>
      intro s hs
      rw [List.foldl_cons]
      apply ih
      cases op with
      | submit rand now idNow f =>
        simp only [AppPage.step]
        rcases AppPage.page_handleSubmit_code isValidUrl rand now idNow f s with h | ⟨code, hcode, h⟩
        · rw [h.1]; exact hs
        · rw [h]
          intro u hu
          rcases List.mem_cons.mp hu with rfl | hu
          · exact hnew _ _ _ _ _ hcode
          · exact hs u hu
      | redirect now referrer r userAgent url =>
        simp only [AppPage.step, AppPage.handleRedirect]
        split_ifs
        · exact hs
        · intro v hv
          obtain ⟨u, hu, hvu | hvu⟩ := AppPage.page_mem_recordClick _ _ _ _ hv
          · rw [hvu]; exact hs u hu
          · rw [hvu]; exact hclick _ _ (hs u hu)
  exact key ops AppPage.init (by intro u hu; simp [AppPage.init] at hu)

/-- The variant of the invariant rule of `url-shortener.jsx` in which the
property may depend on the short code of the new record: a custom code that
passed the pattern test, or a generated code. -/
theorem UrlShortener.shortener_run_codes (P : UrlShortener.Url → Prop)
    (validateUrl : String → Bool)
    (hclick : ∀ u c, P u →
      P { u with clicks := u.clicks + 1, clickData := u.clickData ++ [c] })
    (hparse : ∀ u, P u → P (UrlShortener.parseUrl u))
    (hnew : ∀ rand now id f code,
      (alnumTest code = true ∨ code = UrlShortener.generateShortCode rand) →
      P (UrlShortener.newUrl f code now id))
    (ops : List UrlShortener.Op) :
    (∀ u ∈ (UrlShortener.run validateUrl ops).state.urls, P u) ∧
    (∀ saved, (UrlShortener.run validateUrl ops).blob = some saved → ∀ u ∈ saved, P u) := by
  have hrec : ∀ (url : UrlShortener.Url) (c : UrlShortener.ClickData)
      (l : List UrlShortener.Url), (∀ u ∈ l, P u) →
      ∀ v ∈ UrlShortener.recordClick url c l, P v := by
    intro url c l hl v hv
    obtain ⟨u, hu, hvu | hvu⟩ := UrlShortener.shortener_mem_recordClick _ _ _ _ hv
    · rw [hvu]; exact hl u hu
    · rw [hvu]; exact hclick _ _ (hl u hu)
  have hmap : ∀ (l : List UrlShortener.Url), (∀ u ∈ l, P u) →
      ∀ v ∈ l.map UrlShortener.parseUrl, P v := by
    intro l hl v hv
    obtain ⟨u, hu, rfl⟩ := List.mem_map.mp hv
    exact hparse u (hl u hu)
  have key : ∀ (ops : List UrlShortener.Op) (w : UrlShortener.World),
      ((∀ u ∈ w.state.urls, P u) ∧ (∀ saved, w.blob = some saved → ∀ u ∈ saved, P u)) →
      ((∀ u ∈ (ops.foldl (UrlShortener.step validateUrl) w).state.urls, P u) ∧
        (∀ saved, (ops.foldl (UrlShortener.step validateUrl) w).blob = some saved →
          ∀ u ∈ saved, P u)) := by
    intro ops
    induction ops with
    | nil => intro w hw; exact hw
    | cons op rest ih =>
      intro w hw
      rw [List.foldl_cons]
      apply ih
      obtain ⟨hs, hb⟩ := hw
      cases op with
      | submit rand now id f =>
        simp only [UrlShortener.step]
        rcases UrlShortener.shortener_handleSubmit_code validateUrl rand now id f w.state with
          h | ⟨code, hcode, h⟩
        · have hl : (UrlShortener.handleSubmit validateUrl rand now id f w.state).errors.length
              ≠ 0 := fun h0 => h.2 (List.length_eq_zero.mp h0)
          rw [if_pos hl, h.1]
          exact ⟨hs, hb⟩
        · rw [h]
          have hnewl : ∀ u ∈ w.state.urls ++ [UrlShortener.newUrl f code now id], P u := by
            intro u hu
            rcases List.mem_append.mp hu with hu | hu
            · exact hs u hu
            · rw [List.mem_singleton.mp hu]; exact hnew _ _ _ _ _ hcode
          refine ⟨hnewl, ?_⟩
          intro saved hsaved
          simp only [List.length_nil, ne_eq, not_true_eq_false, if_false, Option.some.injEq]
            at hsaved
          rw [← hsaved]; exact hnewl
      | redirect nowCheck nowStamp shortCode =>
        simp only [UrlShortener.step]
        rcases UrlShortener.handleRedirect_cases nowCheck nowStamp shortCode w.state with
          ⟨msg, h⟩ | ⟨url, c, h⟩
        · rw [h]; exact ⟨hs, hb⟩
        · rw [h]
          refine ⟨hrec _ _ _ hs, ?_⟩
          intro saved hsaved
          simp only [Option.some.injEq] at hsaved
          rw [← hsaved]; exact hrec _ _ _ hs
      | delete id =>
        simp only [UrlShortener.step, UrlShortener.deleteUrl]
        have hf : ∀ u ∈ w.state.urls.filter (fun url => url.id != id), P u :=
          fun u hu => hs u (List.mem_filter.mp hu).1
        refine ⟨hf, ?_⟩
        intro saved hsaved
        simp only [Option.some.injEq] at hsaved
        rw [← hsaved]; exact hf
      | visit nowCheck nowStamp referrer shortCode =>
        simp only [UrlShortener.step]
        refine ⟨hs, ?_⟩
        rcases RedirectPage.effect_blob_cases nowCheck nowStamp referrer shortCode w.blob with
          h | ⟨saved0, url, c, h0, h⟩
        · rw [h]; exact hb
        · rw [h]
          intro saved hsaved
          simp only [Option.some.injEq] at hsaved
          rw [← hsaved]
          exact hrec _ _ _ (hmap _ (hb saved0 h0))
      | mount =>
        simp only [UrlShortener.step]
        cases hblob : w.blob with
        | none =>
          simp only
          refine ⟨by intro u hu; simp at hu, ?_⟩
          intro saved hsaved
          simp only [Option.some.injEq] at hsaved
          rw [← hsaved]
          intro u hu; simp at hu
        | some saved0 =>
          simp only
          refine ⟨hmap _ (hb saved0 hblob), ?_⟩
          intro saved hsaved
          simp only [Option.some.injEq] at hsaved
          rw [← hsaved]
          exact hmap _ (hb saved0 hblob)
  exact key ops UrlShortener.init
    ⟨by intro u hu; simp [UrlShortener.init] at hu,
     by intro saved hsaved; simp [UrlShortener.init] at hsaved⟩

theorem alnumTest_eq_false_of_bad_char (code : String)
    (hbad : ∃ c ∈ code.data, isAlnum c = false) : alnumTest code = false := by
  obtain ⟨c, hc, hcbad⟩ := hbad
  simp only [alnumTest, Bool.and_eq_false_imp, Bool.not_eq_true', List.all_eq_false]
  intro _
  exact ⟨c, hc, by simp [hcbad]⟩

/-- C16. A submission with a non-empty custom code that contains a character
outside `a-z`, `A-Z`, `0-9` is rejected by both implementations with a
validation error (in `url-shortener.jsx` the list of errors contains "Custom
shortcode must be alphanumeric") and the collection is unchanged. Hence after
every run from the empty collection each short code in the collection, in
memory or in the stored item, is either a generated code or a custom code
that is non-empty and alphanumeric. -/
theorem non_alphanumeric_custom_code_rejected
    (isValidUrl : String → Bool) (rand : Nat → Draw) (now idNow : Int) (id : String)
    (originalUrl : String) (validityMinutes : Int) (customShortcode : String)
    (s : AppPage.State) (t : UrlShortener.State)
    (appOps : List AppPage.Op) (ops : List UrlShortener.Op)
    (hcustom : customShortcode ≠ "")
    (hbad : ∃ c ∈ customShortcode.data, isAlnum c = false) :
    ((AppPage.handleSubmit isValidUrl rand now idNow
        { originalUrl := originalUrl, validityMinutes := validityMinutes,
          customShortcode := customShortcode } s).shortenedUrls = s.shortenedUrls ∧
      (AppPage.handleSubmit isValidUrl rand now idNow
        { originalUrl := originalUrl, validityMinutes := validityMinutes,
          customShortcode := customShortcode } s).error ≠ "") ∧
    ((UrlShortener.handleSubmit isValidUrl rand now id
        { originalUrl := originalUrl, validityMinutes := validityMinutes,
          customShortcode := customShortcode } t).urls = t.urls ∧
      "Custom shortcode must be alphanumeric" ∈ (UrlShortener.handleSubmit isValidUrl rand now id
        { originalUrl := originalUrl, validityMinutes := validityMinutes,
          customShortcode := customShortcode } t).errors) ∧
    (∀ u ∈ (AppPage.run isValidUrl appOps).shortenedUrls,
      alnumTest u.shortcode = true ∨ ∃ draws, u.shortcode = generateShortcode draws) ∧
    (∀ u ∈ (UrlShortener.run isValidUrl ops).state.urls,
      alnumTest u.shortCode = true ∨ ∃ draws, u.shortCode = UrlShortener.generateShortCode draws) ∧
    (∀ saved, (UrlShortener.run isValidUrl ops).blob = some saved → ∀ u ∈ saved,
      alnumTest u.shortCode = true ∨ ∃ draws, u.shortCode = UrlShortener.generateShortCode draws) := by
  have ht : truthy customShortcode = true := (truthy_eq_true_iff _).2 hcustom
  have ha : alnumTest customShortcode = false := alnumTest_eq_false_of_bad_char _ hbad
  obtain ⟨g, hg⟩ : ∃ g : UrlShortener.Form,
      g = UrlShortener.Form.mk originalUrl validityMinutes customShortcode := ⟨_, rfl⟩
  have hgc : g.customShortcode = customShortcode := by rw [hg]
  rw [← hg]
  have hmem : "Custom shortcode must be alphanumeric" ∈
      UrlShortener.validateForm isValidUrl g t.urls := by
    unfold UrlShortener.validateForm
    simp only [hgc, ht, ha, Bool.not_false, Bool.and_self, Bool.true_and, if_true]
    exact List.mem_append_right _ (List.mem_singleton.mpr rfl)
  have hlen : (UrlShortener.validateForm isValidUrl g t.urls).length ≠ 0 := by
    intro h0
    rw [List.length_eq_zero.mp h0] at hmem
    exact absurd hmem (List.not_mem_nil _)
  have hsub : UrlShortener.handleSubmit isValidUrl rand now id g t
      = { urls := t.urls, errors := UrlShortener.validateForm isValidUrl g t.urls } := by
    unfold UrlShortener.handleSubmit
    simp only
    rw [if_pos hlen]
  refine ⟨?_, ⟨?_, ?_⟩, ?_, ?_⟩
  · rcases AppPage.page_handleSubmit_cases isValidUrl rand now idNow
      { originalUrl := originalUrl, validityMinutes := validityMinutes,
        customShortcode := customShortcode } s with h | ⟨_, code, h⟩
    · exact h
    · exfalso
      have herr := congrArg AppPage.State.error h
      unfold AppPage.handleSubmit at herr
      simp only [ht, ha, Bool.not_false, Bool.and_self, Bool.true_and] at herr
      split_ifs at herr <;> simp at herr
  · rw [hsub]
  · rw [hsub]
    exact hmem
  · apply AppPage.page_run_codes
      (fun u => alnumTest u.shortcode = true ∨ ∃ draws, u.shortcode = generateShortcode draws)
      isValidUrl _ _ appOps
    · intro u c hu; exact hu
    · intro draws now idNow f code hcode
      rcases hcode with h | h
      · exact Or.inl h
      · exact Or.inr ⟨draws, h⟩
  · apply UrlShortener.shortener_run_codes
      (fun u => alnumTest u.shortCode = true ∨
        ∃ draws, u.shortCode = UrlShortener.generateShortCode draws)
      isValidUrl _ _ _ ops
    · intro u c hu; exact hu
    · intro u hu; exact hu
    · intro draws now id f code hcode
      rcases hcode with h | h
      · exact Or.inl h
      · exact Or.inr ⟨draws, h⟩

/-- Witness of C16: the custom code `abc 123` (with a blank), and the record
of the sample runs. -/
theorem non_alphanumeric_custom_code_rejected_witness :
    ((AppPage.handleSubmit acceptAll lowDraws 1700000002000 1700000002000
        { originalUrl := "https://example.org", validityMinutes := 30,
          customShortcode := "abc 123" }
        { shortenedUrls := [AppPage.sampleUrl], error := "" }).shortenedUrls
        = [AppPage.sampleUrl] ∧
      (AppPage.handleSubmit acceptAll lowDraws 1700000002000 1700000002000
        { originalUrl := "https://example.org", validityMinutes := 30,
          customShortcode := "abc 123" }
        { shortenedUrls := [AppPage.sampleUrl], error := "" }).error ≠ "") ∧
    ((UrlShortener.handleSubmit acceptAll lowDraws 1700000002000 "p0o9i8u7y"
        { originalUrl := "https://example.org", validityMinutes := 30,
          customShortcode := "abc 123" }
        { urls := [UrlShortener.sampleUrl], errors := [] }).urls = [UrlShortener.sampleUrl] ∧
      "Custom shortcode must be alphanumeric" ∈
        (UrlShortener.handleSubmit acceptAll lowDraws 1700000002000 "p0o9i8u7y"
          { originalUrl := "https://example.org", validityMinutes := 30,
            customShortcode := "abc 123" }
          { urls := [UrlShortener.sampleUrl], errors := [] }).errors) ∧
    (alnumTest AppPage.clickedUrl.shortcode = true ∨
      ∃ draws, AppPage.clickedUrl.shortcode = generateShortcode draws) ∧
    (alnumTest UrlShortener.clickedUrl.shortCode = true ∨
      ∃ draws, UrlShortener.clickedUrl.shortCode = UrlShortener.generateShortCode draws) :=
  have h := non_alphanumeric_custom_code_rejected acceptAll lowDraws 1700000002000
    1700000002000 "p0o9i8u7y" "https://example.org" 30 "abc 123"
    { shortenedUrls := [AppPage.sampleUrl], error := "" }
    { urls := [UrlShortener.sampleUrl], errors := [] }
    AppPage.sampleOps UrlShortener.sampleOps (by decide) ⟨' ', by decide, by decide⟩
  ⟨h.1, h.2.1, h.2.2.1 AppPage.clickedUrl (by decide),
    h.2.2.2.1 UrlShortener.clickedUrl (by decide)⟩

/-! ### Persistence -/

theorem reviveDate_eq_toDate_toJSON (d : Date) : reviveDate d = JsonDate.toDate (Date.toJSON d) := by
  cases d <;> rfl

theorem reviveDate_of_valid (d : Date) (h : d ≠ none) : reviveDate d = d := by
  cases d with
  | none => exact absurd rfl h
  | some t => rfl

theorem UrlShortener.parseUrl_of_valid (u : UrlShortener.Url)
    (h : u.createdDate ≠ none ∧ u.expiryDate ≠ none ∧ ∀ c ∈ u.clickData, c.timestamp ≠ none) :
    UrlShortener.parseUrl u = u := by
  have hclicks : u.clickData.map
      (fun click => { click with timestamp := reviveDate click.timestamp }) = u.clickData := by
    rw [List.map_congr_left (g := fun click => click)]
    · exact List.map_id' _
    · intro c hc
      simp only [reviveDate_of_valid _ (h.2.2 c hc)]
  simp only [UrlShortener.parseUrl, reviveDate_of_valid _ h.1, reviveDate_of_valid _ h.2.1,
    hclicks]

/-- On a stored record represented by the record it was written from,
`UrlShortener.parseUrl` is what the load effect makes of the parsed JSON. -/
theorem UrlShortener.Json.parseUrl_stringifyUrl (u : UrlShortener.Url) :
    UrlShortener.Json.parseUrl (UrlShortener.Json.stringifyUrl u) = UrlShortener.parseUrl u := by
  simp only [UrlShortener.Json.parseUrl, UrlShortener.Json.stringifyUrl, UrlShortener.parseUrl,
    List.map_map, reviveDate_eq_toDate_toJSON, Function.comp_def]

theorem UrlShortener.Json.map_parseUrl_stringify (urls : List UrlShortener.Url) :
    (UrlShortener.Json.stringify urls).map UrlShortener.Json.parseUrl
      = urls.map UrlShortener.parseUrl := by
  simp only [UrlShortener.Json.stringify, List.map_map]
  apply List.map_congr_left
  intro u _
  exact UrlShortener.Json.parseUrl_stringifyUrl u

/-- C18 (as amended). Serializing a collection and loading it again gives,
in `url-shortener.jsx` (whose parsing the redirect page shares), the same
collection, field for field, provided `createdDate`, `expiryDate` and every
click timestamp are valid dates: the stored item holds each of them as its
ISO text, and the load effect makes the same instant of it. In `app/page.jsx`
a non-empty collection whose `createdAt` and `expiresAt` are valid dates comes
back with as many records, each with the same id, URLs, short code, `clicks`,
with `createdAt` and `expiresAt` equal to the originals as dates, and with as
many click events, each with the same source, location, user agent and ip. -/
theorem round_trip_of_valid_dates
    (urls : List UrlShortener.Url) (shortenedUrls : List AppPage.Url)
    (item : Option (List AppPage.StoredUrl))
    (hvalid : ∀ u ∈ urls, u.createdDate ≠ none ∧ u.expiryDate ≠ none ∧
      ∀ c ∈ u.clickData, c.timestamp ≠ none)
    (hne : shortenedUrls ≠ [])
    (hpage : ∀ u ∈ shortenedUrls, u.createdAt ≠ none ∧ u.expiresAt ≠ none) :
    (∃ stored, UrlShortener.Json.saveEffect true urls = Except.ok (some stored) ∧
      List.Forall₂ (fun u v => v.createdDate = Date.toJSON u.createdDate ∧
          v.expiryDate = Date.toJSON u.expiryDate ∧
          v.createdDate ≠ JsonDate.null ∧ v.expiryDate ≠ JsonDate.null ∧
          List.Forall₂ (fun c d => d.timestamp = Date.toJSON c.timestamp ∧
            d.timestamp ≠ JsonDate.null) u.clickData v.clickData)
        urls stored ∧
      UrlShortener.Json.loadEffect (some stored) [] = urls ∧
      RedirectPage.parsedUrls stored = urls) ∧
    (∃ stored loaded, AppPage.saveEffect true shortenedUrls item = Except.ok stored ∧
      AppPage.loadEffect stored = some loaded ∧
      List.Forall₂ (fun u v => v.id = u.id ∧ v.originalUrl = u.originalUrl ∧
          v.shortcode = u.shortcode ∧ v.shortUrl = u.shortUrl ∧
          v.createdAt = u.createdAt ∧ v.expiresAt = u.expiresAt ∧ v.clicks = u.clicks ∧
          List.Forall₂ (fun c d => d.source = c.source ∧ d.location = c.location ∧
            d.userAgent = c.userAgent ∧ d.ip = c.ip) u.clickData v.clickData)
        shortenedUrls loaded) := by
  have hback : (UrlShortener.Json.stringify urls).map UrlShortener.Json.parseUrl = urls := by
    rw [UrlShortener.Json.map_parseUrl_stringify, List.map_congr_left (g := fun u => u)]
    · exact List.map_id' _
    · intro u hu
      exact UrlShortener.parseUrl_of_valid u (hvalid u hu)
  have htext : ∀ d : Date, d ≠ none → Date.toJSON d ≠ JsonDate.null := by
    intro d hd
    cases d with
    | none => exact absurd rfl hd
    | some t => simp [Date.toJSON]
  refine ⟨⟨UrlShortener.Json.stringify urls, rfl, ?_, hback, hback⟩,
    ⟨some (AppPage.stringify shortenedUrls), _, ?_, rfl, ?_⟩⟩
  · simp only [UrlShortener.Json.stringify]
    rw [List.forall₂_map_right_iff, List.forall₂_same]
    intro u hu
    refine ⟨rfl, rfl, htext _ (hvalid u hu).1, htext _ (hvalid u hu).2.1, ?_⟩
    simp only [UrlShortener.Json.stringifyUrl]
    rw [List.forall₂_map_right_iff, List.forall₂_same]
    intro c hc
    exact ⟨rfl, htext _ ((hvalid u hu).2.2 c hc)⟩
  · have hlen : shortenedUrls.length > 0 := List.length_pos.mpr hne
    simp only [AppPage.saveEffect, hlen, if_true, setItem]
  · simp only [AppPage.stringify, List.map_map]
    rw [List.forall₂_map_right_iff, List.forall₂_same]
    intro u hu
    refine ⟨rfl, rfl, rfl, rfl, ?_, ?_, rfl, ?_⟩
    · simp only [Function.comp]
      rw [← reviveDate_eq_toDate_toJSON, reviveDate_of_valid _ (hpage u hu).1]
    · simp only [Function.comp]
      rw [← reviveDate_eq_toDate_toJSON, reviveDate_of_valid _ (hpage u hu).2]
    · simp only [Function.comp]
      rw [List.forall₂_map_right_iff, List.forall₂_same]
      intro c _
      exact ⟨rfl, rfl, rfl, rfl⟩

/-- Witness of C18: the clicked sample records. -/
theorem round_trip_of_valid_dates_witness :
    (∃ stored, UrlShortener.Json.saveEffect true [UrlShortener.clickedUrl]
        = Except.ok (some stored) ∧
      List.Forall₂ (fun u v => v.createdDate = Date.toJSON u.createdDate ∧
          v.expiryDate = Date.toJSON u.expiryDate ∧
          v.createdDate ≠ JsonDate.null ∧ v.expiryDate ≠ JsonDate.null ∧
          List.Forall₂ (fun c d => d.timestamp = Date.toJSON c.timestamp ∧
            d.timestamp ≠ JsonDate.null) u.clickData v.clickData)
        [UrlShortener.clickedUrl] stored ∧
      UrlShortener.Json.loadEffect (some stored) [] = [UrlShortener.clickedUrl] ∧
      RedirectPage.parsedUrls stored = [UrlShortener.clickedUrl]) ∧
    (∃ stored loaded, AppPage.saveEffect true [AppPage.clickedUrl] none = Except.ok stored ∧
      AppPage.loadEffect stored = some loaded ∧
      List.Forall₂ (fun u v => v.id = u.id ∧ v.originalUrl = u.originalUrl ∧
          v.shortcode = u.shortcode ∧ v.shortUrl = u.shortUrl ∧
          v.createdAt = u.createdAt ∧ v.expiresAt = u.expiresAt ∧ v.clicks = u.clicks ∧
          List.Forall₂ (fun c d => d.source = c.source ∧ d.location = c.location ∧
            d.userAgent = c.userAgent ∧ d.ip = c.ip) u.clickData v.clickData)
        [AppPage.clickedUrl] loaded) :=
  round_trip_of_valid_dates [UrlShortener.clickedUrl] [AppPage.clickedUrl] none
    (by decide) (by decide) (by decide)

/-- C18 (counterexample to the claim as stated). The record left by the
create of `overflowOps` has an Invalid Date as expiry, which
`url-shortener.jsx` stores as `null` and loads as the epoch; and the click
event of the sample record of `app/page.jsx`, recorded with a date as
timestamp, comes back from the stored item with the ISO text as timestamp,
since the load effect of `app/page.jsx` keeps `clickData` as parsed. -/
theorem round_trip_fails :
    ((UrlShortener.run acceptAll UrlShortener.overflowOps).state.urls.map
        (fun u => u.expiryDate) = [none] ∧
      (UrlShortener.Json.stringify
          (UrlShortener.run acceptAll UrlShortener.overflowOps).state.urls).map
        (fun v => v.expiryDate) = [JsonDate.null] ∧
      (UrlShortener.Json.loadEffect
          (some (UrlShortener.Json.stringify
            (UrlShortener.run acceptAll UrlShortener.overflowOps).state.urls)) []).map
        (fun u => u.expiryDate) = [some 0]) ∧
    (AppPage.clickedUrl.clickData.map (fun c => c.timestamp) = [some 1700000060000] ∧
      (AppPage.loadEffect (some (AppPage.stringify [AppPage.clickedUrl]))).map
        (fun loaded => loaded.map (fun v => v.clickData.map (fun c => c.timestamp)))
        = some [[JsonDate.text 1700000060000]]) := by
  decide

/-- C19. The redirect page, which receives any short code, shows "URL Not
Found" exactly when no record of the parsed item has the code (or the item is
absent) and "Link Expired" exactly when the record found is past its expiry;
in both cases it leaves the stored item as it is and schedules no navigation.
`handleRedirect` of `url-shortener.jsx` is called only by the button "Visit"
of a displayed record, with the short code of that record: its lookup finds a
record with that code, and it reports "Link Expired" only when the clock
reading is not before the expiry of the record found. So no click recorder
reports a short code that no record has as it reports an expired record. -/
theorem unknown_code_told_apart_from_expired
    (nowCheck nowStamp : Int) (referrer shortCode : String)
    (savedUrls : Option (List UrlShortener.Url))
    (s : UrlShortener.State) (url : UrlShortener.Url)
    (hurl : url ∈ UrlShortener.displayedUrls s) :
    (RedirectPage.cardTitle (RedirectPage.effect nowCheck nowStamp referrer shortCode savedUrls)
        = "URL Not Found" ↔
      ∀ saved, savedUrls = some saved →
        (saved.map UrlShortener.parseUrl).find? (fun u => u.shortCode == shortCode) = none) ∧
    (RedirectPage.cardTitle (RedirectPage.effect nowCheck nowStamp referrer shortCode savedUrls)
        = "Link Expired" ↔
      ∃ saved found, savedUrls = some saved ∧
        (saved.map UrlShortener.parseUrl).find? (fun u => u.shortCode == shortCode) = some found ∧
        Date.gt (some nowCheck) found.expiryDate = true) ∧
    (RedirectPage.cardTitle (RedirectPage.effect nowCheck nowStamp referrer shortCode savedUrls)
        ≠ "Redirecting..." →
      (RedirectPage.effect nowCheck nowStamp referrer shortCode savedUrls).blob = savedUrls ∧
      (RedirectPage.effect nowCheck nowStamp referrer shortCode savedUrls).navigateTo = none) ∧
    (∃ found, s.urls.find? (fun u => u.shortCode == url.shortCode) = some found ∧
      found ∈ s.urls ∧ found.shortCode = url.shortCode ∧
      UrlShortener.visitOnClick nowCheck nowStamp url s
        = if Date.lt (some nowCheck) found.expiryDate = true then
            ({ s with urls := UrlShortener.recordClick found (UrlShortener.ClickData.mk (some nowStamp) "direct" "Unknown") s.urls },
              Outcome.opened found.originalUrl)
          else (s, Outcome.reported "Link Expired")) := by
  refine ⟨?_, ?_, ?_, ?_⟩
  · cases savedUrls with
    | none => simp [RedirectPage.effect, RedirectPage.cardTitle]
    | some saved =>
      simp only [RedirectPage.effect, Option.some.injEq, forall_eq']
      cases hf : (saved.map UrlShortener.parseUrl).find? (fun u => u.shortCode == shortCode) with
      | none => simp [RedirectPage.cardTitle]
      | some found =>
        simp only
        cases hg : Date.gt (some nowCheck) found.expiryDate <;>
          simp [RedirectPage.cardTitle, hg]
  · cases savedUrls with
    | none => simp [RedirectPage.effect, RedirectPage.cardTitle]
    | some saved =>
      simp only [RedirectPage.effect, Option.some.injEq, exists_and_left, exists_eq_left']
      cases hf : (saved.map UrlShortener.parseUrl).find? (fun u => u.shortCode == shortCode) with
      | none => simp [RedirectPage.cardTitle]
      | some found =>
        simp only
        cases hg : Date.gt (some nowCheck) found.expiryDate <;>
          simp [RedirectPage.cardTitle, hg]
  · cases savedUrls with
    | none => simp [RedirectPage.effect]
    | some saved =>
      simp only [RedirectPage.effect]
      cases hf : (saved.map UrlShortener.parseUrl).find? (fun u => u.shortCode == shortCode) with
      | none => simp
      | some found =>
        simp only
        cases hg : Date.gt (some nowCheck) found.expiryDate <;>
          simp [RedirectPage.cardTitle, hg]
  · have hmem : url ∈ s.urls := by
      simp only [UrlShortener.displayedUrls, List.mem_reverse] at hurl
      exact hurl
    cases hf : s.urls.find? (fun u => u.shortCode == url.shortCode) with
    | none =>
      have := List.find?_eq_none.mp hf url hmem
      simp at this
    | some found =>
      refine ⟨found, rfl, List.mem_of_find?_eq_some hf, ?_, ?_⟩
      · have := List.find?_some hf
        simpa using this
      · simp only [UrlShortener.visitOnClick, UrlShortener.handleRedirect, hf]

/-- Witness of C19: the button of the sample record, pressed after its
expiry. -/
theorem unknown_code_told_apart_from_expired_witness :
    ∃ found, [UrlShortener.sampleUrl].find? (fun u => u.shortCode == "abc123") = some found ∧
      found.shortCode = "abc123" ∧
      UrlShortener.visitOnClick 1700009000000 1700009000001 UrlShortener.sampleUrl
          { urls := [UrlShortener.sampleUrl], errors := [] }
        = ({ urls := [UrlShortener.sampleUrl], errors := [] }, Outcome.reported "Link Expired") ∧
      RedirectPage.cardTitle (RedirectPage.effect 1700009000000 1700009000001 "" "nosuch1"
        (some [UrlShortener.sampleUrl])) = "URL Not Found" ∧
      RedirectPage.cardTitle (RedirectPage.effect 1700009000000 1700009000001 "" "abc123"
        (some [UrlShortener.sampleUrl])) = "Link Expired" := by
  have h := unknown_code_told_apart_from_expired 1700009000000 1700009000001 "" "nosuch1"
    (some [UrlShortener.sampleUrl]) { urls := [UrlShortener.sampleUrl], errors := [] }
    UrlShortener.sampleUrl (by decide)
  obtain ⟨found, hf, _, hc, hv⟩ := h.2.2.2
  refine ⟨found, hf, hc, ?_, h.1.mpr (by decide), by decide⟩
  rw [hv]
  have hfound : found = UrlShortener.sampleUrl := by
    have h2 : [UrlShortener.sampleUrl].find? (fun u => u.shortCode == "abc123")
        = some UrlShortener.sampleUrl := by decide
    have h3 : [UrlShortener.sampleUrl].find? (fun u => u.shortCode == UrlShortener.sampleUrl.shortCode)
        = some UrlShortener.sampleUrl := by decide
    rw [h3] at hf
    exact (Option.some.inj hf).symm
  rw [hfound]
  decide

/-- C20 (the code breaks the claim). When `localStorage.setItem` throws, the
save effects of `app/page.jsx` and of `url-shortener.jsx` let the exception
escape (they have no `try`), whereas `saveLogsToStorage` of the logger
catches it: `createLogEntry` still returns its entry, the list of logs holds
the new entry and the stored item is left as it was. -/
theorem write_failure_not_caught :
    AppPage.saveEffect false [AppPage.sampleUrl] none = Except.error "QuotaExceededError" ∧
    UrlShortener.saveEffect false [UrlShortener.sampleUrl] = Except.error "QuotaExceededError" ∧
    (Logger.createLogEntry false 1700000000000 "a1b2c3d4e" Logger.new none "INFO"
        "Form submission started" none).1.logs
      = [{ timestamp := some 1700000000000, level := "INFO",
           message := "Form submission started", data := none, id := "a1b2c3d4e" }] ∧
    (Logger.createLogEntry false 1700000000000 "a1b2c3d4e" Logger.new none "INFO"
        "Form submission started" none).2.1 = none := by
  refine ⟨rfl, rfl, ?_, ?_⟩ <;> decide

/-! ### What a click leaves as it is -/

/-- C21 (as amended). Recording a click keeps the number and the order of
the records and, in every record, the id, the original URL, the short code,
the short URL, the creation time and the expiry time. In `app/page.jsx` every
record whose id differs from the id of the clicked record is left entirely
unchanged; in `url-shortener.jsx` every record whose id differs from the id
of the record found by the short code is left entirely unchanged, and all
records are when no record is found. A record that shares the id of the
clicked record receives the click as well. -/
theorem click_frame
    (now nowStamp : Int) (referrer : String) (r : Draw) (userAgent : String)
    (url : AppPage.Url) (s : AppPage.State) (shortCode : String) (t : UrlShortener.State) :
    List.Forall₂ (fun u v => v.id = u.id ∧ v.originalUrl = u.originalUrl ∧
        v.shortcode = u.shortcode ∧ v.shortUrl = u.shortUrl ∧ v.createdAt = u.createdAt ∧
        v.expiresAt = u.expiresAt ∧ (u.id ≠ url.id → v = u))
      s.shortenedUrls (AppPage.handleRedirect now referrer r userAgent url s).1.shortenedUrls ∧
    List.Forall₂ (fun u v => v.id = u.id ∧ v.originalUrl = u.originalUrl ∧
        v.shortCode = u.shortCode ∧ v.shortUrl = u.shortUrl ∧ v.createdDate = u.createdDate ∧
        v.expiryDate = u.expiryDate ∧
        (∀ found, t.urls.find? (fun x => x.shortCode == shortCode) = some found →
          u.id ≠ found.id → v = u) ∧
        (t.urls.find? (fun x => x.shortCode == shortCode) = none → v = u))
      t.urls (UrlShortener.handleRedirect now nowStamp shortCode t).1.urls ∧
    (AppPage.handleRedirect now referrer r userAgent url s).1.shortenedUrls.length
      = s.shortenedUrls.length ∧
    (UrlShortener.handleRedirect now nowStamp shortCode t).1.urls.length = t.urls.length := by
  have hpage : List.Forall₂ (fun u v => v.id = u.id ∧ v.originalUrl = u.originalUrl ∧
        v.shortcode = u.shortcode ∧ v.shortUrl = u.shortUrl ∧ v.createdAt = u.createdAt ∧
        v.expiresAt = u.expiresAt ∧ (u.id ≠ url.id → v = u))
      s.shortenedUrls (AppPage.handleRedirect now referrer r userAgent url s).1.shortenedUrls := by
    simp only [AppPage.handleRedirect]
    split_ifs
    · rw [List.forall₂_same]
      intro u _
      exact ⟨rfl, rfl, rfl, rfl, rfl, rfl, fun _ => rfl⟩
    · rw [AppPage.recordClick, List.forall₂_map_right_iff, List.forall₂_same]
      intro u _
      split_ifs with h
      · exact ⟨rfl, rfl, rfl, rfl, rfl, rfl, fun hne => absurd h hne⟩
      · exact ⟨rfl, rfl, rfl, rfl, rfl, rfl, fun _ => rfl⟩
  have hshort : List.Forall₂ (fun u v => v.id = u.id ∧ v.originalUrl = u.originalUrl ∧
        v.shortCode = u.shortCode ∧ v.shortUrl = u.shortUrl ∧ v.createdDate = u.createdDate ∧
        v.expiryDate = u.expiryDate ∧
        (∀ found, t.urls.find? (fun x => x.shortCode == shortCode) = some found →
          u.id ≠ found.id → v = u) ∧
        (t.urls.find? (fun x => x.shortCode == shortCode) = none → v = u))
      t.urls (UrlShortener.handleRedirect now nowStamp shortCode t).1.urls := by
    unfold UrlShortener.handleRedirect
    cases hfind : t.urls.find? (fun x => x.shortCode == shortCode) with
    | none =>
      simp only
      rw [List.forall₂_same]
      intro u _
      exact ⟨rfl, rfl, rfl, rfl, rfl, rfl, fun _ _ _ => rfl, fun _ => rfl⟩
    | some found =>
      simp only
      split_ifs
      · simp only [UrlShortener.recordClick]
        rw [List.forall₂_map_right_iff, List.forall₂_same]
        intro u _
        split_ifs with h
        · refine ⟨rfl, rfl, rfl, rfl, rfl, rfl, ?_, fun hn => absurd hn (by simp)⟩
          intro f hf hne
          simp only [Option.some.injEq] at hf
          rw [← hf] at hne
          exact absurd h hne
        · exact ⟨rfl, rfl, rfl, rfl, rfl, rfl, fun _ _ _ => rfl, fun _ => rfl⟩
      · rw [List.forall₂_same]
        intro u _
        exact ⟨rfl, rfl, rfl, rfl, rfl, rfl, fun _ _ _ => rfl, fun _ => rfl⟩
  exact ⟨hpage, hshort, (List.Forall₂.length_eq hpage).symm, (List.Forall₂.length_eq hshort).symm⟩

/-- Witness of C21: a click on the sample record in a collection of two
records with different ids, and on its short code in `url-shortener.jsx`. -/
theorem click_frame_witness :
    List.Forall₂ (fun u v => v.id = u.id ∧ v.originalUrl = u.originalUrl ∧
        v.shortcode = u.shortcode ∧ v.shortUrl = u.shortUrl ∧ v.createdAt = u.createdAt ∧
        v.expiresAt = u.expiresAt ∧ (u.id ≠ AppPage.sampleUrl.id → v = u))
      [{ AppPage.sampleUrl with id := 1700000002000, shortcode := "xyz789" }, AppPage.sampleUrl]
      (AppPage.handleRedirect 1700000060000 "" { num := 5764607523034235, exp := 59 } "Mozilla/5.0"
        AppPage.sampleUrl
        { shortenedUrls :=
            [{ AppPage.sampleUrl with id := 1700000002000, shortcode := "xyz789" },
             AppPage.sampleUrl],
          error := "" }).1.shortenedUrls ∧
    (UrlShortener.handleRedirect 1700000060000 1700000060001 "abc123"
        { urls := [UrlShortener.sampleUrl], errors := [] }).1.urls.length
      = [UrlShortener.sampleUrl].length :=
  have h := click_frame 1700000060000 1700000060001 "" { num := 5764607523034235, exp := 59 } "Mozilla/5.0"
    AppPage.sampleUrl
    { shortenedUrls :=
        [{ AppPage.sampleUrl with id := 1700000002000, shortcode := "xyz789" },
         AppPage.sampleUrl],
      error := "" }
    "abc123" { urls := [UrlShortener.sampleUrl], errors := [] }
  ⟨h.1, h.2.2.2⟩

/-- C21 (counterexample to the claim as stated). The two records left by
`sameIdOps` carry the same id, assigned by the creates without a uniqueness
check; the click on the record `abc123` at 1700000060000 also changes the
other record, `xyz789`, whose `clicks` goes from 0 to 1 with one event
appended. -/
theorem click_frame_fails :
    (AppPage.run acceptAll AppPage.sameIdOps).shortenedUrls.map
        (fun u => (u.shortcode, u.id, u.clicks, u.clickData.length))
      = [("xyz789", 1700000000000, 0, 0), ("abc123", 1700000000000, 0, 0)] ∧
    (AppPage.handleRedirect 1700000060000 "" { num := 5764607523034235, exp := 59 } "Mozilla/5.0"
        AppPage.sampleUrl (AppPage.run acceptAll AppPage.sameIdOps)).1.shortenedUrls.map
        (fun u => (u.shortcode, u.id, u.clicks, u.clickData.length))
      = [("xyz789", 1700000000000, 1, 1), ("abc123", 1700000000000, 1, 1)] := by
  decide

/-! ### Logger -/

/-- C22. After `createLogEntry` on a logger with `maxLogs = 1000`, whatever
its list of logs: the entry returned is the one just built; the list is the
former list followed by that entry, cut down to its last 1000 entries when it
is longer (so it is a suffix of the extended list, in the original order); it
has at most 1000 entries (exactly `min (n + 1) 1000`); its last entry is the
one just created; and `maxLogs` is still 1000. -/
theorem createLogEntry_bounded (accepts : Bool) (now : Int) (id : String) (this : Logger)
    (item : Option (List LogEntry)) (level message : String) (data : Option String)
    (hmax : this.maxLogs = 1000) :
    (Logger.createLogEntry accepts now id this item level message data).2.2
      = { timestamp := some now, level := level, message := message, data := data, id := id } ∧
    (Logger.createLogEntry accepts now id this item level message data).1.logs
      = (this.logs ++ [(Logger.createLogEntry accepts now id this item level message data).2.2]).drop
          (this.logs.length + 1 - 1000) ∧
    (Logger.createLogEntry accepts now id this item level message data).1.logs
      <:+ this.logs ++ [(Logger.createLogEntry accepts now id this item level message data).2.2] ∧
    (Logger.createLogEntry accepts now id this item level message data).1.logs.length ≤ 1000 ∧
    (Logger.createLogEntry accepts now id this item level message data).1.logs.length
      = min (this.logs.length + 1) 1000 ∧
    (Logger.createLogEntry accepts now id this item level message data).1.logs.getLast?
      = some (Logger.createLogEntry accepts now id this item level message data).2.2 ∧
    (Logger.createLogEntry accepts now id this item level message data).1.maxLogs = 1000 := by
  have hlogs : (Logger.createLogEntry accepts now id this item level message data).1.logs
      = (this.logs ++ [(Logger.createLogEntry accepts now id this item level message data).2.2]).drop
          (this.logs.length + 1 - 1000) := by
    simp only [Logger.createLogEntry, hmax, List.length_append, List.length_singleton,
      Logger.sliceLast]
    by_cases h : this.logs.length + 1 > 1000
    · have hne : ¬ (1000 : Nat) = 0 := by omega
      simp only [h, if_true, hne, if_false]
    · simp only [h, if_false]
      have h0 : this.logs.length + 1 - 1000 = 0 := by omega
      rw [h0, List.drop_zero]
  refine ⟨rfl, hlogs, ?_, ?_, ?_, ?_, ?_⟩
  · rw [hlogs]; exact List.drop_suffix _ _
  · rw [hlogs, List.length_drop, List.length_append, List.length_singleton]; omega
  · rw [hlogs, List.length_drop, List.length_append, List.length_singleton]; omega
  · rw [hlogs, List.getLast?_drop, List.length_append, List.length_singleton,
      List.getLast?_concat]
    have hlt : ¬ this.logs.length + 1 ≤ this.logs.length + 1 - 1000 := by omega
    rw [if_neg hlt]
  · simp only [Logger.createLogEntry, hmax]

/-- Witness of C22: one more entry on a logger that already holds 1000
entries. -/
theorem createLogEntry_bounded_witness :
    (Logger.createLogEntry true 1700000005000 "a1b2c3d4e" Logger.fullLogger none "INFO"
        "Form submission started" none).1.logs.length = 1000 ∧
    (Logger.createLogEntry true 1700000005000 "a1b2c3d4e" Logger.fullLogger none "INFO"
        "Form submission started" none).1.logs.getLast?
      = some { timestamp := some 1700000005000, level := "INFO",
               message := "Form submission started", data := none, id := "a1b2c3d4e" } :=
  have h := createLogEntry_bounded true 1700000005000 "a1b2c3d4e" Logger.fullLogger none "INFO"
    "Form submission started" none rfl
  have hlen : Logger.fullLogger.logs.length = 1000 := List.length_replicate _ _
  ⟨h.2.2.2.2.1.trans (by rw [hlen]; decide), h.2.2.2.2.2.1.trans (by rw [h.1])⟩

/-- C23 (the code breaks the claim). `clearLogs` on the sample logger (level
`DEBUG`, one earlier entry) empties the list and removes the stored item, but
then logs "Logs cleared" through `info`: afterwards `getLogs()` returns that
one entry and the stored item is present again and holds it. Only a logger
whose level is above `INFO` ends with an empty list and no stored item. -/
theorem clearLogs_leaves_entry :
    Logger.getLogs (Logger.clearLogs true 1700000010000 "q7w8e9r0t" Logger.sampleLogger).1
      = [{ timestamp := some 1700000010000, level := "INFO", message := "Logs cleared",
           data := none, id := "q7w8e9r0t" }] ∧
    (Logger.clearLogs true 1700000010000 "q7w8e9r0t" Logger.sampleLogger).2
      = some [{ timestamp := some 1700000010000, level := "INFO", message := "Logs cleared",
                data := none, id := "q7w8e9r0t" }] ∧
    Logger.getLogs (Logger.clearLogs true 1700000010000 "q7w8e9r0t"
        { Logger.sampleLogger with currentLevel := 2 }).1 = [] ∧
    (Logger.clearLogs true 1700000010000 "q7w8e9r0t"
        { Logger.sampleLogger with currentLevel := 2 }).2 = none := by
  decide

/-! ### From the create to the redirect page -/

/-- C24 (the code breaks the claim). On an empty storage, the link
`abc123` created and persisted by `app/page.jsx` is written to the item
`urls`; a visit of `/abc123` one minute later reads the item `shortenedUrls`,
which is absent: the page shows "URL Not Found", schedules no navigation and
records no click. The same link created by `url-shortener.jsx` is written to
`shortenedUrls`: the visit finds it, navigates to its original URL and stores
one click. -/
theorem page_link_not_resolved :
    ((AppPage.createAndPersist acceptAll lowDraws 1700000000000 1700000000000
        { originalUrl := "https://example.com", validityMinutes := 30,
          customShortcode := "abc123" } AppPage.init LocalStorage.empty).2
      = { urls := some (AppPage.stringify [AppPage.sampleUrl]), shortenedUrls := none,
          urlShortenerLogs := none } ∧
      RedirectPage.cardTitle (RedirectPage.visit 1700000060000 1700000060001 "" "abc123"
        (AppPage.createAndPersist acceptAll lowDraws 1700000000000 1700000000000
          { originalUrl := "https://example.com", validityMinutes := 30,
            customShortcode := "abc123" } AppPage.init LocalStorage.empty).2).1
        = "URL Not Found" ∧
      (RedirectPage.visit 1700000060000 1700000060001 "" "abc123"
        (AppPage.createAndPersist acceptAll lowDraws 1700000000000 1700000000000
          { originalUrl := "https://example.com", validityMinutes := 30,
            customShortcode := "abc123" } AppPage.init LocalStorage.empty).2).1.navigateTo
        = none ∧
      (RedirectPage.visit 1700000060000 1700000060001 "" "abc123"
        (AppPage.createAndPersist acceptAll lowDraws 1700000000000 1700000000000
          { originalUrl := "https://example.com", validityMinutes := 30,
            customShortcode := "abc123" } AppPage.init LocalStorage.empty).2).2
        = (AppPage.createAndPersist acceptAll lowDraws 1700000000000 1700000000000
          { originalUrl := "https://example.com", validityMinutes := 30,
            customShortcode := "abc123" } AppPage.init LocalStorage.empty).2) ∧
    (RedirectPage.cardTitle (RedirectPage.visit 1700000060000 1700000060001 "" "abc123"
        (UrlShortener.createAndPersist acceptAll lowDraws 1700000000000 "k3j9x0q1z"
          { originalUrl := "https://example.com", validityMinutes := 30,
            customShortcode := "abc123" } UrlShortener.init.state LocalStorage.empty).2).1
        = "Redirecting..." ∧
      (RedirectPage.visit 1700000060000 1700000060001 "" "abc123"
        (UrlShortener.createAndPersist acceptAll lowDraws 1700000000000 "k3j9x0q1z"
          { originalUrl := "https://example.com", validityMinutes := 30,
            customShortcode := "abc123" } UrlShortener.init.state LocalStorage.empty).2).1.navigateTo
        = some "https://example.com" ∧
      (RedirectPage.visit 1700000060000 1700000060001 "" "abc123"
        (UrlShortener.createAndPersist acceptAll lowDraws 1700000000000 "k3j9x0q1z"
          { originalUrl := "https://example.com", validityMinutes := 30,
            customShortcode := "abc123" } UrlShortener.init.state
          LocalStorage.empty).2).2.shortenedUrls.map
          (fun l => l.map (fun u => (u.shortCode, u.clicks, u.clickData.length)))
        = some [("abc123", 1, 1)]) := by
  decide

/-! ### The two collections side by side -/

theorem shortCodes_eq_of_forall₂ (l1 : List AppPage.Url) (l2 : List UrlShortener.Url)
    (h : List.Forall₂ (fun u v => u.originalUrl = v.originalUrl ∧ u.shortcode = v.shortCode ∧
      u.shortUrl = v.shortUrl ∧ u.createdAt = v.createdDate ∧ u.expiresAt = v.expiryDate ∧
      u.clicks = v.clicks ∧ u.clickData = [] ∧ v.clickData = []) l1 l2) :
    l1.map (fun u => u.shortcode) = l2.map (fun v => v.shortCode) := by
  induction h with
  | nil => rfl
  | cons hab _ ih => simp only [List.map_cons, hab.2.1, ih]

theorem isShortcodeUnique_eq_of_forall₂ (s : AppPage.State) (t : UrlShortener.State)
    (code : String)
    (h : List.Forall₂ (fun u v => u.originalUrl = v.originalUrl ∧ u.shortcode = v.shortCode ∧
      u.shortUrl = v.shortUrl ∧ u.createdAt = v.createdDate ∧ u.expiresAt = v.expiryDate ∧
      u.clicks = v.clicks ∧ u.clickData = [] ∧ v.clickData = []) s.shortenedUrls t.urls.reverse) :
    AppPage.isShortcodeUnique s.shortenedUrls code
      = UrlShortener.isShortCodeUnique t.urls code := by
  have hcodes := shortCodes_eq_of_forall₂ _ _ h
  have h1 : s.shortenedUrls.any (fun url => url.shortcode == code)
      = (s.shortenedUrls.map (fun u => u.shortcode)).any (fun c => c == code) := by
    induction s.shortenedUrls with
    | nil => rfl
    | cons u us ih => simp only [List.any_cons, List.map_cons, ih]
  have h2 : t.urls.any (fun url => url.shortCode == code)
      = (t.urls.reverse.map (fun v => v.shortCode)).any (fun c => c == code) := by
    rw [← List.any_reverse]
    induction t.urls.reverse with
    | nil => rfl
    | cons u us ih => simp only [List.any_cons, List.map_cons, ih]
  simp only [AppPage.isShortcodeUnique, UrlShortener.isShortCodeUnique, h1, h2, hcodes]

theorem handleSubmit_side_by_side (isValidUrl : String → Bool) (x : Submission)
    (s : AppPage.State) (t : UrlShortener.State)
    (h : List.Forall₂ (fun u v => u.originalUrl = v.originalUrl ∧ u.shortcode = v.shortCode ∧
      u.shortUrl = v.shortUrl ∧ u.createdAt = v.createdDate ∧ u.expiresAt = v.expiryDate ∧
      u.clicks = v.clicks ∧ u.clickData = [] ∧ v.clickData = []) s.shortenedUrls t.urls.reverse) :
    List.Forall₂ (fun u v => u.originalUrl = v.originalUrl ∧ u.shortcode = v.shortCode ∧
      u.shortUrl = v.shortUrl ∧ u.createdAt = v.createdDate ∧ u.expiresAt = v.expiryDate ∧
      u.clicks = v.clicks ∧ u.clickData = [] ∧ v.clickData = [])
      (AppPage.handleSubmit isValidUrl x.rand x.now x.idNow
        (AppPage.Form.mk x.originalUrl x.validityMinutes x.customShortcode) s).shortenedUrls
      (UrlShortener.handleSubmit isValidUrl x.rand x.now x.id
        (UrlShortener.Form.mk x.originalUrl x.validityMinutes x.customShortcode) t).urls.reverse := by
  have huniq := isShortcodeUnique_eq_of_forall₂ s t x.customShortcode h
  have hgen : UrlShortener.generateShortCode x.rand = generateShortcode x.rand := rfl
  unfold AppPage.handleSubmit UrlShortener.handleSubmit UrlShortener.validateForm
  simp only [huniq, hgen]
  cases truthy x.originalUrl <;> cases isValidUrl x.originalUrl <;>
    cases truthy x.customShortcode <;>
    cases UrlShortener.isShortCodeUnique t.urls x.customShortcode <;>
    cases alnumTest x.customShortcode <;>
    by_cases hv : x.validityMinutes ≤ 0 <;>
    simp [hv, h, AppPage.newUrl, UrlShortener.newUrl]

/-- C25 (as amended). For every sequence of submissions given to both
implementations from the empty collection, the collection of `app/page.jsx`
(each accepted record put in front) and the list displayed by
`url-shortener.jsx` (the reverse of its collection, to which each accepted
record is appended) have the same length and agree record by record, under
the renaming of the fields, in the original URL, the short code, the short
URL, the creation and expiry times, `clicks` and the click history; the `id`
fields, a number in one and a string in the other, are not compared. Both
display newest-first: an accepted create puts its record at the head of the
collection of `app/page.jsx` and at the head of the displayed list of
`url-shortener.jsx`; the section of recent links of `app/page.jsx` shows the
first five records of its collection. -/
theorem collections_newest_first (isValidUrl : String → Bool) (subs : List Submission)
    (x : Submission) (s : AppPage.State) (t : UrlShortener.State) :
    List.Forall₂ (fun a b => a.originalUrl = b.originalUrl ∧ a.shortCode = b.shortCode ∧
        a.shortUrl = b.shortUrl ∧ a.createdAt = b.createdAt ∧ a.expiresAt = b.expiresAt ∧
        a.clicks = b.clicks ∧ a.clickHistory = b.clickHistory)
      ((AppPage.submitAll isValidUrl subs).shortenedUrls.map AppPage.toLinkRecord)
      ((UrlShortener.displayedUrls (UrlShortener.submitAll isValidUrl subs)).map
        UrlShortener.toLinkRecord) ∧
    ((AppPage.handleSubmit isValidUrl x.rand x.now x.idNow
        (AppPage.Form.mk x.originalUrl x.validityMinutes x.customShortcode) s).error = "" →
      ∃ u, (AppPage.handleSubmit isValidUrl x.rand x.now x.idNow
        (AppPage.Form.mk x.originalUrl x.validityMinutes x.customShortcode) s).shortenedUrls
          = u :: s.shortenedUrls) ∧
    ((UrlShortener.handleSubmit isValidUrl x.rand x.now x.id
        (UrlShortener.Form.mk x.originalUrl x.validityMinutes x.customShortcode) t).errors = [] →
      ∃ u, UrlShortener.displayedUrls (UrlShortener.handleSubmit isValidUrl x.rand x.now x.id
        (UrlShortener.Form.mk x.originalUrl x.validityMinutes x.customShortcode) t)
          = u :: UrlShortener.displayedUrls t) ∧
    AppPage.recentUrls s = s.shortenedUrls.take 5 := by
  have key : ∀ (l : List Submission) (s0 : AppPage.State) (t0 : UrlShortener.State),
      List.Forall₂ (fun u v => u.originalUrl = v.originalUrl ∧ u.shortcode = v.shortCode ∧
        u.shortUrl = v.shortUrl ∧ u.createdAt = v.createdDate ∧ u.expiresAt = v.expiryDate ∧
        u.clicks = v.clicks ∧ u.clickData = [] ∧ v.clickData = [])
        s0.shortenedUrls t0.urls.reverse →
      List.Forall₂ (fun u v => u.originalUrl = v.originalUrl ∧ u.shortcode = v.shortCode ∧
        u.shortUrl = v.shortUrl ∧ u.createdAt = v.createdDate ∧ u.expiresAt = v.expiryDate ∧
        u.clicks = v.clicks ∧ u.clickData = [] ∧ v.clickData = [])
        (l.foldl (fun s x => AppPage.handleSubmit isValidUrl x.rand x.now x.idNow
          (AppPage.Form.mk x.originalUrl x.validityMinutes x.customShortcode) s) s0).shortenedUrls
        (l.foldl (fun s x => UrlShortener.handleSubmit isValidUrl x.rand x.now x.id
          (UrlShortener.Form.mk x.originalUrl x.validityMinutes x.customShortcode) s)
          t0).urls.reverse := by
    intro l
    induction l with
    | nil => intro s0 t0 h; exact h
    | cons y ys ih =>
      intro s0 t0 h
      simp only [List.foldl_cons]
      exact ih _ _ (handleSubmit_side_by_side isValidUrl y s0 t0 h)
  refine ⟨?_, ?_, ?_, rfl⟩
  · have h0 := key subs AppPage.init UrlShortener.init.state List.Forall₂.nil
    rw [List.forall₂_map_left_iff, List.forall₂_map_right_iff]
    refine List.Forall₂.imp ?_ h0
    intro u v huv
    simp only [AppPage.toLinkRecord, UrlShortener.toLinkRecord, huv.1, huv.2.1, huv.2.2.1,
      huv.2.2.2.1, huv.2.2.2.2.1, huv.2.2.2.2.2.1, huv.2.2.2.2.2.2.1, huv.2.2.2.2.2.2.2,
      List.map_nil, and_self]
  · intro hacc
    exact ⟨_, congrArg AppPage.State.shortenedUrls
      (AppPage.page_handleSubmit_accepted _ _ _ _ _ _ hacc)⟩
  · intro hacc
    rw [UrlShortener.displayedUrls, UrlShortener.displayedUrls,
      UrlShortener.shortener_handleSubmit_accepted _ _ _ _ _ _ hacc]
    simp only [List.reverse_append, List.reverse_cons, List.reverse_nil, List.nil_append,
      List.singleton_append]
    exact ⟨_, rfl⟩

/-- Witness of C25: the two sample submissions, and the first of them on the
empty collections. -/
theorem collections_newest_first_witness :
    List.Forall₂ (fun a b => a.originalUrl = b.originalUrl ∧ a.shortCode = b.shortCode ∧
        a.shortUrl = b.shortUrl ∧ a.createdAt = b.createdAt ∧ a.expiresAt = b.expiresAt ∧
        a.clicks = b.clicks ∧ a.clickHistory = b.clickHistory)
      ((AppPage.submitAll acceptAll sampleSubmissions).shortenedUrls.map AppPage.toLinkRecord)
      ((UrlShortener.displayedUrls (UrlShortener.submitAll acceptAll sampleSubmissions)).map
        UrlShortener.toLinkRecord) ∧
    (∃ u, (AppPage.handleSubmit acceptAll firstSubmission.rand firstSubmission.now
        firstSubmission.idNow
        (AppPage.Form.mk firstSubmission.originalUrl firstSubmission.validityMinutes
          firstSubmission.customShortcode) AppPage.init).shortenedUrls
          = u :: AppPage.init.shortenedUrls) ∧
    (∃ u, UrlShortener.displayedUrls (UrlShortener.handleSubmit acceptAll firstSubmission.rand
        firstSubmission.now firstSubmission.id
        (UrlShortener.Form.mk firstSubmission.originalUrl firstSubmission.validityMinutes
          firstSubmission.customShortcode) UrlShortener.init.state)
          = u :: UrlShortener.displayedUrls UrlShortener.init.state) :=
  have h := collections_newest_first acceptAll sampleSubmissions firstSubmission AppPage.init
    UrlShortener.init.state
  ⟨h.1, h.2.1 (by decide), h.2.2.1 (by decide)⟩

/-- C25 (counterexample to the claim as stated). After the two sample
submissions the collection of `app/page.jsx` and the list displayed by
`url-shortener.jsx` agree in the short codes, newest first, but not as
records under the renaming of the fields: the ids of the first are the
numbers read from `Date.now()`, those of the second the random strings. -/
theorem collections_newest_first_fails :
    (AppPage.submitAll acceptAll sampleSubmissions).shortenedUrls.map
        (fun u => ((AppPage.toLinkRecord u).shortCode, (AppPage.toLinkRecord u).id))
      = [("aaaaaa", IdValue.number 1700000002000), ("abc123", IdValue.number 1700000000000)] ∧
    (UrlShortener.displayedUrls (UrlShortener.submitAll acceptAll sampleSubmissions)).map
        (fun u => ((UrlShortener.toLinkRecord u).shortCode, (UrlShortener.toLinkRecord u).id))
      = [("aaaaaa", IdValue.text "p0o9i8u7y"), ("abc123", IdValue.text "k3j9x0q1z")] ∧
    (AppPage.submitAll acceptAll sampleSubmissions).shortenedUrls.map AppPage.toLinkRecord
      ≠ (UrlShortener.displayedUrls (UrlShortener.submitAll acceptAll sampleSubmissions)).map
          UrlShortener.toLinkRecord := by
  decide
